import Mathlib

/-!
# Stray2Stay: the listing and adoption workflow

A shallow embedding of the route handlers of `server/routes/animals.js` and
`server/routes/adoptions.js` over an explicit document store, with the two
schemas of `server/models/Animal.js` and `server/models/Adoption.js`, the
counts of `server/routes/stats.js` and `sendEmail` of `server/utils/email.js`.

Conventions of the embedding.

* An ObjectId is a natural number, a timestamp is a natural number.
* A handler is a function from the store and the request to an `Outcome`:
  the store after the request, the HTTP response (status code and the
  message or error text), and the list of `sendEmail` calls it made.
* `new Date()` is the argument `now`; a fresh ObjectId is the store counter
  `nextId`.
* `doc.save()` validates the document against its schema and throws when
  validation fails; `findByIdAndUpdate` and `findByIdAndDelete` write
  without validation (no `runValidators` option is passed in the source).
* `populate` of a reference that does not resolve yields `null`, and reading
  a property of `null` throws; every handler body sits in a `try` whose
  `catch` answers 500.
* An Animal is held as a handler reads it after `findById`: a path that an
  update removed reads as its schema default, and as nothing when the schema
  gives none (`posterId`). The catalogue and the statistics read these same
  values.
-/

namespace Stray2Stay

abbrev Id := Nat
abbrev Date := Nat

/-! ## Documents -/

/-- Modelled from the spec: the User document (`models/User.js` is not part of
the sources). Identity, name, email, the notification flag read by the
handlers, and the two counters of `stats`. -/
structure User where
  id : Id
  name : String
  email : String
  adoptionInterest : Bool
  animalsRescued : Int
  animalsAdopted : Int
  deriving DecidableEq, Repr

/-- The `location` sub-document of an Animal. Coordinates are integers here:
only their presence is ever inspected. -/
structure Location where
  address : String
  lat : Int
  lng : Int
  city : Option String
  state : Option String
  deriving DecidableEq, Repr

/-- One entry of `interestedUsers`. -/
structure Interest where
  user : Id
  message : String
  contactInfo : String
  timestamp : Date
  deriving DecidableEq, Repr

/-- The Animal document (`animalSchema`). `status` is a string, as in the
source: an unvalidated update can store any string. `posterId` is required by
the schema, but an unvalidated update can store `null` or remove the path:
then it is `none`. -/
structure Animal where
  id : Id
  type : String
  name : String
  breed : String
  age : String
  gender : String
  size : String
  color : String
  description : String
  specialNotes : String
  photos : List String
  location : Location
  currentLocation : String
  status : String
  urgent : Bool
  needsFoster : Bool
  medicalNeeds : String
  posterId : Option Id
  adopterId : Option Id
  interestedUsers : List Interest
  adoptionDate : Option Date
  createdAt : Date
  deriving DecidableEq, Repr

/-- The Adoption document (`adoptionSchema`). -/
structure Adoption where
  id : Id
  animal : Id
  adopter : Id
  poster : Id
  status : String
  adopterMessage : String
  adopterContact : String
  adoptionDate : Option Date
  notes : String
  createdAt : Date
  deriving DecidableEq, Repr

/-- The persistent store: the three collections and the ObjectId counter. -/
structure Store where
  users : List User
  animals : List Animal
  adoptions : List Adoption
  nextId : Id
  deriving DecidableEq, Repr

/-- An HTTP response: status code and the message or error text. -/
structure Response where
  code : Nat
  text : String
  deriving DecidableEq, Repr

/-- One call of `sendEmail(to, subject, text)`; the text is not modelled. -/
structure Mail where
  recipient : String
  subject : String
  deriving DecidableEq, Repr

/-- What a handler leaves behind. -/
structure Outcome where
  store : Store
  response : Response
  mails : List Mail
  deriving DecidableEq, Repr

/-- The store before any request. -/
def emptyStore : Store := ⟨[], [], [], 0⟩

/-! ## Store primitives -/

/-- Replace the first element satisfying `p` by its image under `f`
(`findByIdAndUpdate`, `doc.save()` on a loaded document). -/
def updateFirst {α : Type} (p : α → Bool) (f : α → α) : List α → List α
  | [] => []
  | x :: xs => if p x then f x :: xs else x :: updateFirst p f xs

/-- `User.findById`, also what `populate` of a user reference resolves to. -/
def findUser (s : Store) (i : Id) : Option User :=
  s.users.find? (fun u => u.id == i)

/-- What `populate` leaves in a user reference: the stored user, or `null`
when the reference is `null` or matches no user. -/
def populate (s : Store) (ref : Option Id) : Option User :=
  ref.bind (findUser s)

/-- `Animal.findById`. -/
def findAnimal (s : Store) (i : Id) : Option Animal :=
  s.animals.find? (fun a => a.id == i)

/-- `Adoption.findById`. -/
def findAdoption (s : Store) (i : Id) : Option Adoption :=
  s.adoptions.find? (fun d => d.id == i)

/-- The `$inc` of `stats.animalsRescued`. -/
def User.addRescued (u : User) (k : Int) : User :=
  { u with animalsRescued := u.animalsRescued + k }

/-- The `$inc` of `stats.animalsAdopted`. -/
def User.addAdopted (u : User) (k : Int) : User :=
  { u with animalsAdopted := u.animalsAdopted + k }

/-- The three paths both confirmation routes write on an Animal. -/
def Animal.confirm (a : Animal) (adopter : Id) (now : Date) : Animal :=
  { a with status := "adopted", adopterId := some adopter, adoptionDate := some now }

/-- An Animal with its `interestedUsers` replaced. -/
def Animal.withInterested (a : Animal) (l : List Interest) : Animal :=
  { a with interestedUsers := l }

/-- The assignments `adoption.status = status` and `adoption.notes = ...`. -/
def Adoption.setStatus (d : Adoption) (status notes : String) : Adoption :=
  { d with status := status, notes := notes }

/-- The assignment `adoption.adoptionDate = new Date()`. -/
def Adoption.setDate (d : Adoption) (now : Date) : Adoption :=
  { d with adoptionDate := some now }

/-- A handler that answers without writing and without mail. -/
def reply (s : Store) (code : Nat) (text : String) : Outcome :=
  ⟨s, ⟨code, text⟩, []⟩

/-! ## Schema validation, as run by `save()` -/

def animalTypes : List String := ["dog", "cat"]
def animalAges : List String := ["puppy/kitten", "young", "adult", "senior", "unknown"]
def animalGenders : List String := ["male", "female", "unknown"]
def animalSizes : List String := ["small", "medium", "large", "unknown"]
def animalStatuses : List String := ["available", "under_consideration", "adopted"]
def adoptionStatuses : List String := ["pending", "approved", "completed", "cancelled"]

/-- The validators of `animalSchema`: enums, the required type, the required
address, and `required` on every photo string. -/
def validAnimal (a : Animal) : Bool :=
  decide (a.type ∈ animalTypes) && decide (a.age ∈ animalAges) &&
  decide (a.gender ∈ animalGenders) && decide (a.size ∈ animalSizes) &&
  decide (a.status ∈ animalStatuses) && a.photos.all (fun p => p != "") &&
  (a.location.address != "")

/-- The validators of `adoptionSchema`: the status enum and the required
contact string. -/
def validAdoption (d : Adoption) : Bool :=
  decide (d.status ∈ adoptionStatuses) && (d.adopterContact != "")

/-- The first argument of `res.status(500).json` is `error.message`; its text
comes from the library that threw and is not modelled. -/
def serverError (s : Store) : Outcome := reply s 500 "error.message"

/-! ## Requests -/

/-- One file part of a multipart request as multer sees it: the form field it
came in, its MIME type, its size in bytes, and the name the disk storage
gives the stored file. -/
structure Upload where
  fieldname : String
  mimetype : String
  size : Nat
  filename : String
  deriving DecidableEq, Repr

/-- An image of 1 KiB sent in the field `photos`. -/
def Upload.image (filename : String) : Upload := ⟨"photos", "image/png", 1024, filename⟩

/-- The `location` field of a create request after `JSON.parse`. -/
structure LocationReq where
  address : Option String
  lat : Option Int
  lng : Option Int
  city : Option String
  state : Option String
  deriving DecidableEq, Repr

/-- The body and files of `POST /animals`. An absent body field is `none`;
`location = none` stands for an absent field and for a string that
`JSON.parse` rejects (both end in the `catch`). `files` are the file parts of
the request, in the order sent. -/
structure CreateReq where
  type : Option String
  name : Option String
  breed : Option String
  age : Option String
  gender : Option String
  size : Option String
  color : Option String
  description : Option String
  specialNotes : Option String
  location : Option LocationReq
  currentLocation : Option String
  urgent : Option String
  needsFoster : Option String
  medicalNeeds : Option String
  files : List Upload
  deriving DecidableEq, Repr

/-- What the update document of `PUT /animals/:id` does to one schema path.
`set v`: the path is a plain key of the body or a key of its `$set` object
(Mongoose moves plain keys under `$set`). `clear`: the path is named under
`$unset` or is overwritten with `null`. Any other update operator of the body
(`$rename`, `$currentDate`, `$push`, ...) also leaves, overwrites or removes
the paths it names and is carried as the writes it amounts to. -/
inductive Write (α : Type) where
  | keep
  | set (v : α)
  | clear
  deriving DecidableEq, Repr

/-- The value of a path after a write; `cleared` is what a loaded document
shows for a removed path. -/
def Write.over {α : Type} (w : Write α) (old cleared : α) : α :=
  match w with
  | .keep => old
  | .set v => v
  | .clear => cleared

/-- The value of a nullable path after a write. -/
def Write.overRef {α : Type} (w : Write α) (old : Option α) : Option α :=
  match w with
  | .keep => old
  | .set v => some v
  | .clear => none

/-- A value written to `urgent` or `needsFoster`. As a plain key of the body
the handler replaces it by its comparison with the string 'true'; under
`$set` the handler does not see it and Mongoose casts it to a boolean. -/
inductive Flag where
  | plain (v : String)
  | cast (b : Bool)
  deriving DecidableEq, Repr

/-- The boolean that is stored for a written flag. -/
def Flag.value : Flag → Bool
  | .plain v => v == "true"
  | .cast b => b

/-- The body of `PUT /animals/:id` as `findByIdAndUpdate` receives it, by
schema path: plain keys, `$set` and `$unset` (and what other operators amount
to) are all carried; keys that name no schema path are dropped by strict
mode. `location = .set none` is a plain string that `JSON.parse` rejects.
`rejected` holds for an update document on which `findByIdAndUpdate` throws: a
value that cannot be cast to the type of its path, two operators on one path,
a write to `_id`. The timestamp `createdAt` is immutable: Mongoose drops a
write to it, so it is no path of the patch. -/
structure AnimalPatch where
  type : Write String
  name : Write String
  breed : Write String
  age : Write String
  gender : Write String
  size : Write String
  color : Write String
  description : Write String
  specialNotes : Write String
  photos : Write (List String)
  location : Write (Option Location)
  currentLocation : Write String
  status : Write String
  urgent : Write Flag
  needsFoster : Write Flag
  medicalNeeds : Write String
  posterId : Write Id
  adopterId : Write Id
  interestedUsers : Write (List Interest)
  adoptionDate : Write Date
  rejected : Bool
  deriving DecidableEq, Repr

/-- The patch that carries no field. -/
def AnimalPatch.empty : AnimalPatch :=
  ⟨.keep, .keep, .keep, .keep, .keep, .keep, .keep, .keep, .keep, .keep, .keep, .keep,
   .keep, .keep, .keep, .keep, .keep, .keep, .keep, .keep, false⟩

/-- The request body in which only `type`, `location` and `files` are given. -/
def CreateReq.minimal (type : String) (loc : LocationReq) (files : List Upload) : CreateReq :=
  ⟨some type, none, none, none, none, none, none, none, none, some loc, none, none,
   none, none, files⟩

/-! ## Listing service: `server/routes/animals.js` -/

/-- The uploaded files as photo references (`req.files.map`). -/
def photoRefs (files : List Upload) : List String :=
  files.map (fun f => "/uploads/" ++ f.filename)

/-- The document `new Animal(...)` builds in `POST /animals`, schema defaults
applied. A missing required string is the empty string, which the validators
reject like a missing one. -/
def newAnimal (id : Id) (poster : Id) (r : CreateReq) (loc : Location) (now : Date) : Animal :=
  { id := id
    type := r.type.getD ""
    name := r.name.getD ""
    breed := r.breed.getD ""
    age := r.age.getD "unknown"
    gender := r.gender.getD "unknown"
    size := r.size.getD "unknown"
    color := r.color.getD ""
    description := r.description.getD ""
    specialNotes := r.specialNotes.getD ""
    photos := photoRefs r.files
    location := loc
    currentLocation := r.currentLocation.getD ""
    status := "available"
    urgent := r.urgent == some "true"
    needsFoster := r.needsFoster == some "true"
    medicalNeeds := r.medicalNeeds.getD ""
    posterId := some poster
    adopterId := none
    interestedUsers := []
    adoptionDate := none
    createdAt := now }

/-- The route `POST /animals` (create). -/
def create (s : Store) (user : User) (r : CreateReq) (now : Date) : Outcome :=
  let photos := photoRefs r.files
  if photos.length = 0 then reply s 400 "At least one photo is required"
  else
    match r.location with
    | none => serverError s
    | some l =>
      match l.address, l.lat, l.lng with
      | some address, some lat, some lng =>
        let animal := newAnimal s.nextId user.id r ⟨address, lat, lng, l.city, l.state⟩ now
        if validAnimal animal then
          ⟨{ s with
              animals := s.animals ++ [animal]
              users := updateFirst (fun u => u.id == user.id) (fun u => u.addRescued 1)
                s.users
              nextId := s.nextId + 1 },
            ⟨201, "Animal listed successfully"⟩,
            [⟨user.email, "Animal Listing Created - Stray2Stay"⟩]⟩
        else serverError s
      | _, _, _ => serverError s

/-- What a loaded document shows for a removed `location`: no address, which
the `required` validator rejects. -/
def Location.missing : Location := ⟨"", 0, 0, none, none⟩

/-- The write that `findByIdAndUpdate(id, updateData)` performs in
`PUT /animals/:id`: every written path is overwritten, every cleared path
reads afterwards as its schema default (no value for the two references and
the date, the empty string for the required `type`); when files were uploaded
the handler sets the plain key `photos` to the list read before the update
followed by the new references. -/
def applyPatch (p : AnimalPatch) (files : List Upload) (oldPhotos : List String)
    (a : Animal) : Animal :=
  { a with
    type := p.type.over a.type ""
    name := p.name.over a.name ""
    breed := p.breed.over a.breed ""
    age := p.age.over a.age "unknown"
    gender := p.gender.over a.gender "unknown"
    size := p.size.over a.size "unknown"
    color := p.color.over a.color ""
    description := p.description.over a.description ""
    specialNotes := p.specialNotes.over a.specialNotes ""
    photos := if files.length > 0 then oldPhotos ++ photoRefs files
              else p.photos.over a.photos []
    location := match p.location with
                | .set (some l) => l
                | .clear => Location.missing
                | _ => a.location
    currentLocation := p.currentLocation.over a.currentLocation ""
    status := p.status.over a.status "available"
    urgent := match p.urgent with
              | .keep => a.urgent
              | .set v => v.value
              | .clear => false
    needsFoster := match p.needsFoster with
                   | .keep => a.needsFoster
                   | .set v => v.value
                   | .clear => false
    medicalNeeds := p.medicalNeeds.over a.medicalNeeds ""
    posterId := p.posterId.overRef a.posterId
    adopterId := p.adopterId.overRef a.adopterId
    interestedUsers := p.interestedUsers.over a.interestedUsers []
    adoptionDate := p.adoptionDate.overRef a.adoptionDate }

/-- The route `PUT /animals/:id` (update). Reading `toString` of a `null`
posterId throws. -/
def update (s : Store) (user : User) (id : Id) (p : AnimalPatch) (files : List Upload) :
    Outcome :=
  match findAnimal s id with
  | none => reply s 404 "Animal not found"
  | some animal =>
    match animal.posterId with
    | none => serverError s
    | some poster =>
      if poster != user.id then reply s 403 "Not authorized to update this listing"
      else if p.location == .set none then serverError s
      else if p.rejected then serverError s
      else
        ⟨{ s with
            animals := updateFirst (fun a => a.id == id)
              (applyPatch p files animal.photos) s.animals },
          ⟨200, "Animal updated successfully"⟩, []⟩

/-- The route `DELETE /animals/:id` (delete). -/
def delete (s : Store) (user : User) (id : Id) : Outcome :=
  match findAnimal s id with
  | none => reply s 404 "Animal not found"
  | some animal =>
    match animal.posterId with
    | none => serverError s
    | some poster =>
      if poster != user.id then reply s 403 "Not authorized to delete this listing"
      else
        ⟨{ s with
            animals := s.animals.eraseP (fun a => a.id == id)
            users := updateFirst (fun u => u.id == user.id) (fun u => u.addRescued (-1))
              s.users },
          ⟨200, "Animal listing deleted successfully"⟩, []⟩

/-- The route `POST /animals/:id/interest` (expressInterest). -/
def expressInterest (s : Store) (user : User) (id : Id) (message contactInfo : String)
    (now : Date) : Outcome :=
  match findAnimal s id with
  | none => reply s 404 "Animal not found"
  | some animal =>
    if animal.status == "adopted" then reply s 400 "Animal has already been adopted"
    else
      match populate s animal.posterId with
      | none => serverError s
      | some poster =>
        if poster.id == user.id then
          reply s 400 "Cannot express interest in your own listing"
        else if animal.interestedUsers.any (fun i => i.user == user.id) then
          reply s 400 "You have already expressed interest in this animal"
        else
          let interested := animal.interestedUsers ++ [⟨user.id, message, contactInfo, now⟩]
          if validAnimal (animal.withInterested interested) then
            ⟨{ s with
                animals := updateFirst (fun a => a.id == id)
                  (fun a => a.withInterested interested) s.animals },
              ⟨200, "Interest expressed successfully"⟩,
              if poster.adoptionInterest then
                [⟨poster.email, "Someone is interested in adopting your rescued animal!"⟩]
              else []⟩
          else serverError s

/-- The route `PATCH /animals/:id/adopt` (markAdopted). -/
def markAdopted (s : Store) (user : User) (id : Id) (adopterId : Id) (now : Date) :
    Outcome :=
  match findAnimal s id with
  | none => reply s 404 "Animal not found"
  | some animal =>
    match populate s animal.posterId with
    | none => serverError s
    | some poster =>
      if poster.id != user.id then reply s 403 "Not authorized to update this listing"
      else
        match findUser s adopterId with
        | none => reply s 404 "Adopter not found"
        | some adopter =>
          if validAnimal (animal.confirm adopterId now) then
            ⟨{ s with
                animals := updateFirst (fun a => a.id == id)
                  (fun a => a.confirm adopterId now) s.animals
                users := updateFirst (fun u => u.id == adopterId) (fun u => u.addAdopted 1)
                  s.users },
              ⟨200, "Animal marked as adopted successfully"⟩,
              [⟨adopter.email, "Congratulations! Adoption Confirmed - Stray2Stay"⟩]⟩
          else serverError s

/-! ## Adoption workflow: `server/routes/adoptions.js` -/

/-- The document `new Adoption(...)` builds in `POST /adoptions`, schema
defaults applied (status pending, no adoption date, empty notes). An absent
`message` and the empty string give the same document; an absent
`contactInfo` and the empty string are both rejected by `required`. -/
def newAdoption (id animalId adopter poster : Id) (message contactInfo : String)
    (now : Date) : Adoption :=
  { id := id
    animal := animalId
    adopter := adopter
    poster := poster
    status := "pending"
    adopterMessage := message
    adopterContact := contactInfo
    adoptionDate := none
    notes := ""
    createdAt := now }

/-- The query of `Adoption.findOne` in `POST /adoptions`: same animal, same
adopter, status pending or approved. -/
def isActiveFor (animalId adopter : Id) (d : Adoption) : Bool :=
  d.animal == animalId && d.adopter == adopter &&
  (d.status == "pending" || d.status == "approved")

/-- The route `POST /adoptions` (requestAdoption). -/
def requestAdoption (s : Store) (user : User) (animalId : Id) (message contactInfo : String)
    (now : Date) : Outcome :=
  match findAnimal s animalId with
  | none => reply s 404 "Animal not found"
  | some animal =>
    if animal.status == "adopted" then reply s 400 "Animal has already been adopted"
    else
      match populate s animal.posterId with
      | none => serverError s
      | some poster =>
        if poster.id == user.id then reply s 400 "Cannot adopt your own listing"
        else
          match s.adoptions.find? (isActiveFor animalId user.id) with
          | some _ => reply s 400 "Adoption request already exists"
          | none =>
            let adoption := newAdoption s.nextId animalId user.id poster.id message
              contactInfo now
            if validAdoption adoption then
              ⟨{ s with adoptions := s.adoptions ++ [adoption], nextId := s.nextId + 1 },
                ⟨201, "Adoption request created successfully"⟩,
                [⟨poster.email, "New Adoption Request - Stray2Stay"⟩]⟩
            else serverError s

/-- JavaScript truthiness of the optional `notes` string. -/
def truthy : Option String → Bool
  | some n => n != ""
  | none => false

/-- The notes after `if (notes) adoption.notes = notes`. -/
def notesAfter (notes : Option String) (old : String) : String :=
  if truthy notes then notes.getD "" else old

/-- The route `PATCH /adoptions/:id/status` (updateStatus). The body field
`status` is a string. The animal and the adopter are populated references:
for `completed` they are read before any write; for the other statuses they
are first read after `adoption.save()`, when the mail text is built. -/
def updateStatus (s : Store) (user : User) (id : Id) (status : String)
    (notes : Option String) (now : Date) : Outcome :=
  match findAdoption s id with
  | none => reply s 404 "Adoption not found"
  | some adoption =>
    match findUser s adoption.poster with
    | none => serverError s
    | some poster =>
      if poster.id != user.id then reply s 403 "Not authorized"
      else
        let notes1 := notesAfter notes adoption.notes
        if status == "completed" then
          match findAnimal s adoption.animal, findUser s adoption.adopter with
          | some animal, some adopter =>
            let s1 : Store :=
              { s with
                animals := updateFirst (fun a => a.id == animal.id)
                  (fun a => a.confirm adopter.id now) s.animals }
            if validAdoption ((adoption.setStatus status notes1).setDate now) then
              ⟨{ s1 with
                  adoptions := updateFirst (fun d => d.id == id)
                    (fun d => (d.setStatus status notes1).setDate now) s1.adoptions },
                ⟨200, "Adoption status updated successfully"⟩,
                [⟨adopter.email, "Adoption Request Update - Stray2Stay"⟩]⟩
            else ⟨s1, ⟨500, "error.message"⟩, []⟩
          | _, _ => serverError s
        else
          if validAdoption (adoption.setStatus status notes1) then
            let s1 : Store :=
              { s with
                adoptions := updateFirst (fun d => d.id == id)
                  (fun d => d.setStatus status notes1) s.adoptions }
            match findAnimal s adoption.animal, findUser s adoption.adopter with
            | some _, some adopter =>
              ⟨s1, ⟨200, "Adoption status updated successfully"⟩,
                [⟨adopter.email, "Adoption Request Update - Stray2Stay"⟩]⟩
            | _, _ => ⟨s1, ⟨500, "error.message"⟩, []⟩
          else serverError s

/-! ## The service as a whole -/

/-- Modelled from the spec: registration (the auth routes and `models/User.js`
are not part of the sources). A user is created with a fresh id, a unique
email and both counters at zero, and is never deleted. -/
def register (s : Store) (name email : String) (adoptionInterest : Bool) : Outcome :=
  if s.users.any (fun u => u.email == email) then reply s 400 "User already exists"
  else
    ⟨{ s with
        users := s.users ++ [⟨s.nextId, name, email, adoptionInterest, 0, 0⟩]
        nextId := s.nextId + 1 },
      ⟨201, "User registered successfully"⟩, []⟩

/-- Modelled from the spec: the middleware `authenticateToken`
(`middleware/auth.js` is not part of the sources): the identity provider
resolves the request to a stored user, attached as `req.user`, or the request
is refused before the handler runs. -/
def authenticateToken (s : Store) (caller : Id) (handler : User → Outcome) : Outcome :=
  match findUser s caller with
  | none => reply s 401 "Access denied"
  | some user => handler user

/-- The `fileSize` limit of the multer configuration, in bytes. -/
def fileSizeLimit : Nat := 5 * 1024 * 1024

/-- The first error multer raises on the file parts of a request, read in the
order sent, with `left` files still allowed in the field `photos`: a part in
another field or beyond the allowed count is an unexpected field; then the
`fileFilter` of the configuration refuses a MIME type that does not start
with `image/`; then a file above the size limit is too large. -/
def uploadError : Nat → List Upload → Option String
  | _, [] => none
  | left, f :: rest =>
    if f.fieldname != "photos" || left == 0 then some "Unexpected field"
    else if f.mimetype.data.take 6 != "image/".data then some "Only image files are allowed"
    else if f.size > fileSizeLimit then some "File too large"
    else uploadError (left - 1) rest

/-- The middleware `upload.array('photos', 5)`: on the first error multer
hands the error to Express, which answers 500 before the handler runs. The
text kept here is the message of the error; how Express renders it is not
modelled. -/
def uploadArray (s : Store) (files : List Upload) (handler : Outcome) : Outcome :=
  match uploadError 5 files with
  | some e => reply s 500 e
  | none => handler

/-- A state-changing request to the service, `caller` being the identity the
token resolves to. -/
inductive Op where
  | register (name email : String) (adoptionInterest : Bool)
  | create (caller : Id) (r : CreateReq)
  | update (caller : Id) (id : Id) (p : AnimalPatch) (files : List Upload)
  | delete (caller : Id) (id : Id)
  | expressInterest (caller : Id) (id : Id) (message contactInfo : String)
  | markAdopted (caller : Id) (id : Id) (adopterId : Id)
  | requestAdoption (caller : Id) (animalId : Id) (message contactInfo : String)
  | updateStatus (caller : Id) (id : Id) (status : String) (notes : Option String)
  deriving DecidableEq, Repr

/-- Serve one request at time `now`. -/
def serve (s : Store) (now : Date) : Op → Outcome
  | .register name email flag => register s name email flag
  | .create caller r =>
    authenticateToken s caller (fun u => uploadArray s r.files (create s u r now))
  | .update caller id p files =>
    authenticateToken s caller (fun u => uploadArray s files (update s u id p files))
  | .delete caller id => authenticateToken s caller (fun u => delete s u id)
  | .expressInterest caller id m c =>
    authenticateToken s caller (fun u => expressInterest s u id m c now)
  | .markAdopted caller id adopterId =>
    authenticateToken s caller (fun u => markAdopted s u id adopterId now)
  | .requestAdoption caller animalId m c =>
    authenticateToken s caller (fun u => requestAdoption s u animalId m c now)
  | .updateStatus caller id status notes =>
    authenticateToken s caller (fun u => updateStatus s u id status notes now)

/-- The store after serving a sequence of timed requests, oldest first. -/
def run (s : Store) : List (Date × Op) → Store
  | [] => s
  | (now, op) :: rest => run (serve s now op).store rest

/-- The states the service can be in: the empty store and whatever a request
leaves behind. -/
inductive Reachable : Store → Prop where
  | init : Reachable emptyStore
  | step (s : Store) (now : Date) (op : Op) : Reachable s → Reachable (serve s now op).store

/-- Reachability through the requests that satisfy `ok` in the state they are
served in. -/
inductive ReachableVia (ok : Store → Op → Prop) : Store → Prop where
  | init : ReachableVia ok emptyStore
  | step (s : Store) (now : Date) (op : Op) :
      ReachableVia ok s → ok s op → ReachableVia ok (serve s now op).store

/-- What one request can do to the store, as a relation: either nothing, or
exactly one of the writes below, each with the guards that were passed. -/
inductive Step (s : Store) (now : Date) : Op → Store → Prop where
  | idle (op : Op) : Step s now op s
  | register (name email : String) (flag : Bool) :
      Step s now (.register name email flag)
        { s with
          users := s.users ++ [⟨s.nextId, name, email, flag, 0, 0⟩]
          nextId := s.nextId + 1 }
  | create (caller : Id) (r : CreateReq) (u : User) (loc : Location)
      (hu : findUser s caller = some u)
      (hv : validAnimal (newAnimal s.nextId u.id r loc now) = true)
      (hf : r.files ≠ []) :
      Step s now (.create caller r)
        { s with
          animals := s.animals ++ [newAnimal s.nextId u.id r loc now]
          users := updateFirst (fun x => x.id == u.id) (fun x => x.addRescued 1) s.users
          nextId := s.nextId + 1 }
  | update (caller id : Id) (p : AnimalPatch) (files : List Upload) (u : User) (a : Animal)
      (hu : findUser s caller = some u) (ha : findAnimal s id = some a)
      (hp : a.posterId = some u.id) :
      Step s now (.update caller id p files)
        { s with
          animals := updateFirst (fun x => x.id == id) (applyPatch p files a.photos)
            s.animals }
  | delete (caller id : Id) (u : User) (a : Animal)
      (hu : findUser s caller = some u) (ha : findAnimal s id = some a)
      (hp : a.posterId = some u.id) :
      Step s now (.delete caller id)
        { s with
          animals := s.animals.eraseP (fun x => x.id == id)
          users := updateFirst (fun x => x.id == u.id) (fun x => x.addRescued (-1)) s.users }
  | expressInterest (caller id : Id) (m c : String) (u : User) (a : Animal) (poster : User)
      (hu : findUser s caller = some u) (ha : findAnimal s id = some a)
      (hs : a.status ≠ "adopted") (hposter : populate s a.posterId = some poster)
      (hne : poster.id ≠ u.id)
      (hnew : a.interestedUsers.any (fun i => i.user == u.id) = false)
      (hv : validAnimal (a.withInterested (a.interestedUsers ++ [⟨u.id, m, c, now⟩])) = true) :
      Step s now (.expressInterest caller id m c)
        { s with
          animals := updateFirst (fun x => x.id == id)
            (fun x => x.withInterested (a.interestedUsers ++ [⟨u.id, m, c, now⟩])) s.animals }
  | markAdopted (caller id adopterId : Id) (u : User) (a : Animal) (poster adopter : User)
      (hu : findUser s caller = some u) (ha : findAnimal s id = some a)
      (hposter : populate s a.posterId = some poster) (he : poster.id = u.id)
      (hadopter : findUser s adopterId = some adopter)
      (hv : validAnimal (a.confirm adopterId now) = true) :
      Step s now (.markAdopted caller id adopterId)
        { s with
          animals := updateFirst (fun x => x.id == id) (fun x => x.confirm adopterId now)
            s.animals
          users := updateFirst (fun x => x.id == adopterId) (fun x => x.addAdopted 1)
            s.users }
  | requestAdoption (caller animalId : Id) (m c : String) (u : User) (a : Animal)
      (poster : User)
      (hu : findUser s caller = some u) (ha : findAnimal s animalId = some a)
      (hs : a.status ≠ "adopted") (hposter : populate s a.posterId = some poster)
      (hne : poster.id ≠ u.id)
      (hdup : s.adoptions.find? (isActiveFor animalId u.id) = none) (hc : c ≠ "") :
      Step s now (.requestAdoption caller animalId m c)
        { s with
          adoptions := s.adoptions ++ [newAdoption s.nextId animalId u.id poster.id m c now]
          nextId := s.nextId + 1 }
  | setStatus (caller id : Id) (status : String) (notes : Option String) (u : User)
      (d : Adoption) (poster : User)
      (hu : findUser s caller = some u) (hd : findAdoption s id = some d)
      (hposter : findUser s d.poster = some poster) (he : poster.id = u.id)
      (hne : status ≠ "completed")
      (hv : validAdoption (d.setStatus status (notesAfter notes d.notes)) = true) :
      Step s now (.updateStatus caller id status notes)
        { s with
          adoptions := updateFirst (fun x => x.id == id)
            (fun x => x.setStatus status (notesAfter notes d.notes)) s.adoptions }
  | complete (caller id : Id) (notes : Option String) (saved : Bool) (u : User)
      (d : Adoption) (poster : User) (a : Animal) (adopter : User)
      (hu : findUser s caller = some u) (hd : findAdoption s id = some d)
      (hposter : findUser s d.poster = some poster) (he : poster.id = u.id)
      (ha : findAnimal s d.animal = some a) (hadopter : findUser s d.adopter = some adopter)
      (hv : validAdoption ((d.setStatus "completed" (notesAfter notes d.notes)).setDate now)
        = saved) :
      Step s now (.updateStatus caller id "completed" notes)
        { s with
          animals := updateFirst (fun x => x.id == a.id) (fun x => x.confirm adopter.id now)
            s.animals
          adoptions :=
            if saved then
              updateFirst (fun x => x.id == id)
                (fun x => (x.setStatus "completed" (notesAfter notes d.notes)).setDate now)
                s.adoptions
            else s.adoptions }

/-- What holds of the Adoption collection in every state of the service:
poster and adopter resolve to stored users, the document passes its schema,
and its id is below the ObjectId counter. -/
def WellFormed (s : Store) : Prop :=
  ∀ d ∈ s.adoptions, (findUser s d.poster).isSome = true ∧
    (findUser s d.adopter).isSome = true ∧ validAdoption d = true ∧ d.id < s.nextId

/-! ## The properties under study and the concrete scenarios -/

/-- Every adopted Animal names its adopter and its adoption date. -/
def AdoptedHasAdopter (s : Store) : Prop :=
  ∀ a ∈ s.animals, a.status = "adopted" → a.adopterId ≠ none ∧ a.adoptionDate ≠ none

/-- A request other than an update that writes the status adopted (as a plain
key or under `$set`), or that clears `adopterId` or `adoptionDate` (by `null`
or by `$unset`). -/
def keepsAdoptionFields : Store → Op → Prop
  | _, .update _ _ p _ =>
    p.status ≠ .set "adopted" ∧ p.adopterId ≠ .clear ∧ p.adoptionDate ≠ .clear
  | _, _ => True

/-- At most one pending or approved Adoption per (animal, adopter) pair. -/
def AtMostOneActive (s : Store) : Prop :=
  ∀ animalId adopter : Id, s.adoptions.countP (isActiveFor animalId adopter) ≤ 1

/-- A request other than an updateStatus that moves an Adoption which is
neither pending nor approved to pending or approved. -/
def noReactivation : Store → Op → Prop
  | s, .updateStatus _ id status _ =>
    (status = "pending" ∨ status = "approved") →
      ∀ d, findAdoption s id = some d → (d.status = "pending" ∨ d.status = "approved")
  | _, _ => True

/-- A location that passes validation. -/
def mainStreet : LocationReq := ⟨some "1 Main St", some 0, some 0, none, none⟩

/-- Poster P (id 0) registers, lists a dog (id 1), adopter U (id 2) registers. -/
def listed : Store :=
  run emptyStore
    [(0, .register "P" "p@x" true),
     (1, .create 0 (CreateReq.minimal "dog" mainStreet [.image "a.png"])),
     (2, .register "U" "u@x" true)]

/-- After `listed`, U files an adoption request (id 3) on the dog. -/
def requested : Store :=
  run listed [(3, .requestAdoption 2 1 "hi" "u@x")]

/-- The patch that only writes `status`. -/
def statusPatch (status : String) : AnimalPatch :=
  { AnimalPatch.empty with status := .set status }

/-- The patch that only writes `posterId`. -/
def posterPatch (poster : Id) : AnimalPatch :=
  { AnimalPatch.empty with posterId := .set poster }

/-- Adoption ids stay below the counter, and the Adoption with id `k`, if any,
is the request of `adopter` on `animalId`. -/
def TracksRequest (k animalId adopter : Id) (s : Store) : Prop :=
  k < s.nextId ∧
  ∀ d ∈ s.adoptions, d.id < s.nextId ∧ (d.id = k → d.animal = animalId ∧ d.adopter = adopter)

/-- Ids are never reused: user ids and animal ids lie below the ObjectId
counter and occur once in their collection. -/
def IdsFresh (s : Store) : Prop :=
  (∀ u ∈ s.users, u.id < s.nextId) ∧ (s.users.map User.id).Nodup ∧
  (∀ a ∈ s.animals, a.id < s.nextId) ∧ (s.animals.map Animal.id).Nodup

/-- The id was handed out and no stored Animal carries it. -/
def Gone (id : Id) (s : Store) : Prop :=
  id < s.nextId ∧ ∀ a ∈ s.animals, a.id ≠ id

/-- A request other than an update that changes the posterId of the Animal it
addresses, be it by a plain key, by `$set`, by `null` or by `$unset`. -/
def keepsPoster : Store → Op → Prop
  | s, .update _ id p _ =>
    ∀ a, findAnimal s id = some a → p.posterId.overRef a.posterId = a.posterId
  | _, _ => True

/-- The number of stored Animals whose posterId is `i`. -/
def rescuesOf (s : Store) (i : Id) : Nat :=
  s.animals.countP (fun a => a.posterId == some i)

/-- Every poster id was handed out, and the rescue counter of every user is
the number of stored Animals the user is poster of. -/
def RescuedMatches (s : Store) : Prop :=
  (∀ a ∈ s.animals, ∀ i, a.posterId = some i → i < s.nextId) ∧
  ∀ u ∈ s.users, u.animalsRescued = (rescuesOf s u.id : Int)

/-- Both counters of every user are at least zero. -/
def StatsNonneg (s : Store) : Prop :=
  ∀ u ∈ s.users, 0 ≤ u.animalsRescued ∧ 0 ≤ u.animalsAdopted

/-- The store in which P has rewritten the posterId of the dog to 9, an id
that belongs to no user. -/
def orphaned : Store :=
  run listed [(3, .update 0 1 (posterPatch 9) [])]

/-- Six images sent in the field `photos`. -/
def sixImages : List Upload :=
  [.image "1.png", .image "2.png", .image "3.png", .image "4.png", .image "5.png",
   .image "6.png"]

/-- The store in which P has removed the posterId of the dog by an update with
`$unset` (or `null`). -/
def ownerless : Store :=
  run listed [(3, .update 0 1 { AnimalPatch.empty with posterId := .clear } [])]

/-- The patch that only writes `type`. -/
def typePatch (type : String) : AnimalPatch :=
  { AnimalPatch.empty with type := .set type }

/-! ## The catalogue route: `GET /animals` -/

/-- The query string of `GET /animals`; an absent parameter is `none`. Each
parameter is a single string: a repeated or bracketed parameter, which the
query parser turns into an array or an object, is outside this definition. -/
structure ListQuery where
  type : Option String
  status : Option String
  urgent : Option String
  needsFoster : Option String
  deriving DecidableEq, Repr

/-- The filter object the handler builds from the query. -/
structure AnimalFilter where
  type : Option String
  status : Option String
  urgent : Option Bool
  needsFoster : Option Bool
  deriving DecidableEq, Repr

/-- The four `if` lines that fill `filter`: `type` and `status` are copied when
truthy, `urgent` and `needsFoster` become `true` only for the string
`'true'`. -/
def buildFilter (q : ListQuery) : AnimalFilter :=
  { type := if truthy q.type then q.type else none
    status := if truthy q.status then q.status else none
    urgent := if q.urgent == some "true" then some true else none
    needsFoster := if q.needsFoster == some "true" then some true else none }

/-- Whether a document satisfies the equality filter: every key of the filter
is matched, an absent key does not constrain. -/
def matchesFilter (f : AnimalFilter) (a : Animal) : Bool :=
  (match f.type with
   | some t => a.type == t
   | none => true) &&
  (match f.status with
   | some st => a.status == st
   | none => true) &&
  (match f.urgent with
   | some b => a.urgent == b
   | none => true) &&
  (match f.needsFoster with
   | some b => a.needsFoster == b
   | none => true)

/-- The filter in the words of the claim, stated on the query itself and not
on the filter object the handler builds: a record meets the query when it
agrees with every filter key that is present in it. `type` and `status` are
present when given and non-empty; `urgent` and `needsFoster` are present when
they are the string 'true'. -/
def meetsQuery (q : ListQuery) (a : Animal) : Bool :=
  (match q.type with
   | some t => t == "" || a.type == t
   | none => true) &&
  (match q.status with
   | some st => st == "" || a.status == st
   | none => true) &&
  (q.urgent != some "true" || a.urgent) &&
  (q.needsFoster != some "true" || a.needsFoster)

/-- The order of `.sort` on `urgent` descending, then `createdAt` descending:
urgent documents first, then newer before older. -/
def listedBefore (a b : Animal) : Prop :=
  (a.urgent = true ∧ b.urgent = false) ∨ (a.urgent = b.urgent ∧ b.createdAt ≤ a.createdAt)

instance listedBeforeDecidable : DecidableRel listedBefore :=
  fun a b => inferInstanceAs (Decidable
    ((a.urgent = true ∧ b.urgent = false) ∨ (a.urgent = b.urgent ∧ b.createdAt ≤ a.createdAt)))

/-- The documents `Animal.find(filter)` and `countDocuments(filter)` select. -/
def matching (s : Store) (q : ListQuery) : List Animal :=
  s.animals.filter (matchesFilter (buildFilter q))

/-- The selected documents after `.sort`. The database is deterministic here:
the sort is stable on the stored order, so equal keys keep that order in every
request. -/
def ordered (s : Store) (q : ListQuery) : List Animal :=
  (matching s q).insertionSort listedBefore

/-- The `pagination` object of the response. -/
structure Pagination where
  page : Nat
  limit : Nat
  total : Nat
  pages : Nat
  deriving DecidableEq, Repr

/-- The response of `GET /animals`. -/
structure Listing where
  animals : List Animal
  pagination : Pagination
  deriving DecidableEq, Repr

/-- The route `GET /animals` (list) for the parsed values `page` and `limit`,
taken as integers at least 1: `skip` is `(page - 1) * limit`, and
`Math.ceil(total / limit)` is the integer ceiling. Page 0 (a negative skip)
and limit 0 (no limit in the database) are outside this definition. -/
def list (s : Store) (q : ListQuery) (page limit : Nat) : Listing :=
  { animals := ((ordered s q).drop ((page - 1) * limit)).take limit
    pagination :=
      { page := page
        limit := limit
        total := (matching s q).length
        pages := ((matching s q).length + limit - 1) / limit } }

/-- The route with its defaults `page = 1` and `limit = 12`. -/
def listRoute (s : Store) (q : ListQuery) (page limit : Option Nat) : Listing :=
  list s q (page.getD 1) (limit.getD 12)

/-- The query without any parameter. -/
def ListQuery.all : ListQuery := ⟨none, none, none, none⟩

/-! ## The statistics route: `GET /stats` -/

/-- The five counts of `overview`. -/
structure Overview where
  totalAnimals : Nat
  totalAdoptions : Nat
  totalUsers : Nat
  availableAnimals : Nat
  urgentAnimals : Nat
  deriving DecidableEq, Repr

/-- The five `countDocuments` calls of `GET /stats`. -/
def overview (s : Store) : Overview :=
  { totalAnimals := s.animals.length
    totalAdoptions := s.animals.countP (fun a => a.status == "adopted")
    totalUsers := s.users.length
    availableAnimals := s.animals.countP (fun a => a.status == "available")
    urgentAnimals := s.animals.countP (fun a => a.urgent == true && a.status == "available") }

/-- The adoption rate as the exact quotient, before the rounding of double
arithmetic and the formatting by `toFixed(1)`: the guard of the source, then
`totalAdoptions / totalAnimals * 100`. -/
def adoptionRateExact (o : Overview) : ℚ :=
  if o.totalAnimals > 0 then (o.totalAdoptions : ℚ) / (o.totalAnimals : ℚ) * 100 else 0

/-! ### The adoption rate in double arithmetic -/

/-- The integer nearest to a rational, a tie going to the even neighbour. -/
def roundHalfEven (x : ℚ) : ℤ :=
  if x - ⌊x⌋ < 1 / 2 then ⌊x⌋
  else if 1 / 2 < x - ⌊x⌋ then ⌊x⌋ + 1
  else if ⌊x⌋ % 2 = 0 then ⌊x⌋ else ⌊x⌋ + 1

/-- The result of an arithmetic operation on JavaScript numbers whose exact
value is `x`: the IEEE-754 double nearest to `x`, with 53 significant bits and
ties to even. The exponent range is not modelled: the values met here lie
between 2^-1022 and 2^1023. -/
def toDouble (x : ℚ) : ℚ :=
  if 0 < x then (roundHalfEven (x / 2 ^ (Int.log 2 x - 52)) : ℚ) * 2 ^ (Int.log 2 x - 52)
  else if x < 0 then
    -((roundHalfEven (-x / 2 ^ (Int.log 2 (-x) - 52)) : ℚ) * 2 ^ (Int.log 2 (-x) - 52))
  else 0

/-- The digits of `x.toFixed(1)` for a double `x` with `0 ≤ x < 10^21`: the
integer `n` for which `n / 10 - x` is as close to zero as possible, the larger
one when there are two; the string shows `n` with its last digit after the
point. -/
def toFixed1 (x : ℚ) : ℕ := ⌊x * 10 + 1 / 2⌋₊

/-- The value of the field `adoptionRate`: the number 0, or the string that
`toFixed(1)` returns, held as its count of tenths. -/
inductive Rate where
  | zero
  | fixed (tenths : ℕ)
  deriving DecidableEq, Repr

/-- The field as it is serialised in the response. -/
def Rate.text : Rate → String
  | .zero => "0"
  | .fixed n => toString (n / 10) ++ "." ++ toString (n % 10)

/-- The expression
`totalAnimals > 0 ? ((totalAdoptions / totalAnimals) * 100).toFixed(1) : 0`:
a double division, a double multiplication and the formatting. Both counts
are below 2^53 and so are exact as doubles. -/
def adoptionRate (o : Overview) : Rate :=
  if o.totalAnimals > 0 then
    .fixed (toFixed1 (toDouble (toDouble ((o.totalAdoptions : ℚ) / (o.totalAnimals : ℚ)) * 100)))
  else .zero

/-- The claimed value, in the words of the claim: the exact quotient times 100
rounded to one decimal place (to the nearest tenth, a tie going up), as a
count of tenths. -/
def roundedRate (o : Overview) : ℕ := ⌊adoptionRateExact o * 10 + 1 / 2⌋₊

/-- An Animal with the given id and status, every other path at a valid
value. -/
def sampleAnimal (id : Id) (status : String) : Animal :=
  { newAnimal id 0 (CreateReq.minimal "dog" mainStreet [.image "a.png"])
      ⟨"1 Main St", 0, 0, none, none⟩ 0 with status := status }

/-- A store with 80 Animals, of which the first 23 are adopted. -/
def shelter : Store :=
  ⟨[], (List.range 80).map (fun i => sampleAnimal i (if i < 23 then "adopted" else "available")),
    [], 80⟩

/-! ## Mail delivery: `server/utils/email.js` -/

/-- How an awaited call ends. -/
inductive Completion where
  | returned
  | raised
  deriving DecidableEq, Repr

/-- The call `transporter.sendMail(mailOptions)`: it resolves or rejects, as
the transport decides. -/
def sendMail (transport : Mail → Bool) (m : Mail) : Completion :=
  if transport m then .returned else .raised

/-- A `try` block with a `catch` that itself completes as `handler`. -/
def tryCatch (body handler : Completion) : Completion :=
  match body with
  | .returned => .returned
  | .raised => handler

/-- The function `sendEmail`: its whole body is one `try`, and the `catch`
logs the error and returns. -/
def sendEmail (transport : Mail → Bool) (m : Mail) : Completion :=
  tryCatch (sendMail transport m) .returned

/-- The tail of a handler: after its writes it awaits `sendEmail` for each
mail it sends and then answers; had an awaited call raised, the `catch` of the
handler would answer 500 with the writes kept. -/
def awaitMails (transport : Mail → Bool) (o : Outcome) : Outcome :=
  if o.mails.all (fun m => sendEmail transport m == .returned) then o
  else ⟨o.store, ⟨500, "error.message"⟩, o.mails⟩

/-- Serve one request with a given mail transport. -/
def serveWith (transport : Mail → Bool) (s : Store) (now : Date) (op : Op) : Outcome :=
  awaitMails transport (serve s now op)

/-- A request other than an update. -/
def noUpdate : Store → Op → Prop
  | _, .update _ _ _ _ => False
  | _, _ => True

/-- Every Adoption has an adopter other than its poster. -/
def AdopterIsNotPoster (s : Store) : Prop :=
  ∀ d ∈ s.adoptions, d.adopter ≠ d.poster

/-! ## Lemmas on the store primitives -/
theorem updateFirst_cons_pos {α : Type} (p : α → Bool) (f : α → α) (x : α) (xs : List α)
    (h : p x = true) : updateFirst p f (x :: xs) = f x :: xs := by
  simp [updateFirst, h]

theorem updateFirst_cons_neg {α : Type} (p : α → Bool) (f : α → α) (x : α) (xs : List α)
    (h : ¬ p x = true) : updateFirst p f (x :: xs) = x :: updateFirst p f xs := by
  simp [updateFirst, h]

theorem find_cons_pos {α : Type} (p : α → Bool) (x : α) (xs : List α) (h : p x = true) :
    (x :: xs).find? p = some x := by
  simp [List.find?, h]

theorem find_cons_neg {α : Type} (p : α → Bool) (x : α) (xs : List α) (h : ¬ p x = true) :
    (x :: xs).find? p = xs.find? p := by
  simp [List.find?, h]

theorem mem_updateFirst {α : Type} (p : α → Bool) (f : α → α) (l : List α) (y : α)
    (h : y ∈ updateFirst p f l) : y ∈ l ∨ ∃ x, l.find? p = some x ∧ y = f x := by
  induction l with
  | nil => simp [updateFirst] at h
  | cons x xs ih =>
    by_cases hp : p x = true
    · rw [updateFirst_cons_pos p f x xs hp, List.mem_cons] at h
      rcases h with h | h
      · exact Or.inr ⟨x, find_cons_pos _ _ _ hp, h⟩
      · exact Or.inl (List.mem_cons_of_mem _ h)
    · rw [updateFirst_cons_neg p f x xs hp, List.mem_cons] at h
      rcases h with h | h
      · exact Or.inl (by simp [h])
      · rcases ih h with h | ⟨z, hz, hy⟩
        · exact Or.inl (List.mem_cons_of_mem _ h)
        · exact Or.inr ⟨z, by rw [find_cons_neg _ _ _ hp]; exact hz, hy⟩

theorem updateFirst_of_find_none {α : Type} (p : α → Bool) (f : α → α) (l : List α)
    (h : l.find? p = none) : updateFirst p f l = l := by
  induction l with
  | nil => rfl
  | cons x xs ih =>
    by_cases hp : p x = true
    · rw [find_cons_pos _ _ _ hp] at h; cases h
    · rw [find_cons_neg _ _ _ hp] at h
      rw [updateFirst_cons_neg p f x xs hp, ih h]

/-- Looking up key `j` after the first document with key `i` was rewritten by
a key-preserving `f`. -/
theorem find_updateFirst {α : Type} (key : α → Nat) (f : α → α) (i j : Nat) (l : List α)
    (hf : ∀ x, key (f x) = key x) :
    (updateFirst (fun x => key x == i) f l).find? (fun x => key x == j) =
      if j = i then (l.find? (fun x => key x == j)).map f
      else l.find? (fun x => key x == j) := by
  induction l with
  | nil => simp [updateFirst]
  | cons x xs ih =>
    by_cases hi : key x = i
    · have hpi : (fun x => key x == i) x = true := by simp [hi]
      rw [updateFirst_cons_pos _ f x xs hpi]
      by_cases hj : j = i
      · have hpj : (fun x => key x == j) x = true := by simp [hi, hj]
        have hpj' : (fun x => key x == j) (f x) = true := by simp [hf, hi, hj]
        rw [find_cons_pos (fun x => key x == j) x xs hpj,
          find_cons_pos (fun x => key x == j) (f x) xs hpj', if_pos hj]
        rfl
      · have hpj : ¬ (fun x => key x == j) x = true := by
          simp only [beq_iff_eq]; intro h; exact hj (h ▸ hi)
        have hpj' : ¬ (fun x => key x == j) (f x) = true := by
          simp only [beq_iff_eq, hf]; intro h; exact hj (h ▸ hi)
        rw [find_cons_neg (fun x => key x == j) x xs hpj,
          find_cons_neg (fun x => key x == j) (f x) xs hpj', if_neg hj]
    · have hpi : ¬ (fun x => key x == i) x = true := by simp [hi]
      rw [updateFirst_cons_neg _ f x xs hpi]
      by_cases hx : key x = j
      · have hpj : (fun x => key x == j) x = true := by simp [hx]
        have hji : ¬ j = i := fun h => hi (hx.trans h)
        rw [find_cons_pos (fun x => key x == j) x xs hpj,
          find_cons_pos (fun x => key x == j) x _ hpj, if_neg hji]
      · have hpj : ¬ (fun x => key x == j) x = true := by simp [hx]
        rw [find_cons_neg (fun x => key x == j) x xs hpj,
          find_cons_neg (fun x => key x == j) x _ hpj, ih]

theorem countP_updateFirst_le {α : Type} (p q : α → Bool) (f : α → α) (l : List α)
    (h : ∀ x, l.find? p = some x → q (f x) = true → q x = true) :
    (updateFirst p f l).countP q ≤ l.countP q := by
  induction l with
  | nil => simp [updateFirst]
  | cons x xs ih =>
    by_cases hp : p x = true
    · have hx := h x (find_cons_pos _ _ _ hp)
      rw [updateFirst_cons_pos p f x xs hp, List.countP_cons, List.countP_cons]
      by_cases hq : q (f x) = true
      · simp [hq, hx hq]
      · simp [hq]
    · have ih' := ih (fun y hy => h y (by rw [find_cons_neg _ _ _ hp]; exact hy))
      rw [updateFirst_cons_neg p f x xs hp, List.countP_cons, List.countP_cons]
      omega

theorem populate_some (s : Store) (i : Id) : populate s (some i) = findUser s i := rfl

theorem populate_none (s : Store) : populate s none = none := rfl

theorem populate_eq_some {s : Store} {ref : Option Id} {u : User}
    (h : populate s ref = some u) : ∃ i, ref = some i ∧ findUser s i = some u := by
  cases ref with
  | none => cases h
  | some i => exact ⟨i, rfl, h⟩

theorem findUser_id {s : Store} {i : Id} {u : User} (h : findUser s i = some u) : u.id = i := by
  have := List.find?_some h
  simpa using this

theorem populate_id {s : Store} {ref : Option Id} {u : User}
    (h : populate s ref = some u) : ref = some u.id := by
  obtain ⟨i, hi, hf⟩ := populate_eq_some h
  rw [hi, findUser_id hf]

theorem poster_ne_caller {s : Store} {ref : Option Id} {poster u : User} {caller : Id}
    (hp : populate s ref = some poster) (hu : findUser s caller = some u)
    (hne : ref ≠ some caller) : ¬ poster.id = u.id := by
  intro h
  apply hne
  rw [populate_id hp, h, findUser_id hu]

theorem validAdoption_newAdoption (id animalId adopter poster : Id) (m c : String) (now : Date) :
    validAdoption (newAdoption id animalId adopter poster m c now) = (c != "") := by
  simp [validAdoption, newAdoption, adoptionStatuses]

/-- The two ways `requestAdoption` can end: nothing written and no 201, or
one pending Adoption appended, with all four guards passed. -/
theorem requestAdoption_cases (s : Store) (user : User) (animalId : Id) (m c : String)
    (now : Date) :
    ((requestAdoption s user animalId m c now).store = s ∧
      (requestAdoption s user animalId m c now).response.code ≠ 201) ∨
    (∃ a poster, findAnimal s animalId = some a ∧ a.status ≠ "adopted" ∧
      populate s a.posterId = some poster ∧ poster.id ≠ user.id ∧
      s.adoptions.find? (isActiveFor animalId user.id) = none ∧ c ≠ "" ∧
      requestAdoption s user animalId m c now =
        ⟨{ s with adoptions := s.adoptions ++
              [newAdoption s.nextId animalId user.id poster.id m c now]
                  nextId := s.nextId + 1 },
          ⟨201, "Adoption request created successfully"⟩,
          [⟨poster.email, "New Adoption Request - Stray2Stay"⟩]⟩) := by
  cases ha : findAnimal s animalId with
  | none => left; simp [requestAdoption, ha, reply]
  | some a =>
    by_cases hst : a.status = "adopted"
    · left; simp [requestAdoption, ha, hst, reply]
    · cases hp : populate s a.posterId with
      | none => left; simp [requestAdoption, ha, hp, hst, reply, serverError]
      | some poster =>
        by_cases hself : poster.id = user.id
        · left; simp [requestAdoption, ha, hp, hst, hself, reply]
        · cases hd : s.adoptions.find? (isActiveFor animalId user.id) with
          | some d => left; simp [requestAdoption, ha, hp, hst, hself, hd, reply]
          | none =>
            by_cases hc : c = ""
            · left
              simp [requestAdoption, ha, hp, hst, hself, hd, hc, validAdoption_newAdoption,
                reply, serverError]
            · right
              refine ⟨a, poster, rfl, hst, hp, hself, rfl, hc, ?_⟩
              simp [requestAdoption, ha, hp, hst, hself, hd, hc, validAdoption_newAdoption]


theorem step_idle_of_eq {s : Store} {now : Date} {op : Op} {s1 : Store} (h : s1 = s) :
    Step s now op s1 := h ▸ Step.idle op

theorem serve_step (s : Store) (now : Date) (op : Op) : Step s now op (serve s now op).store := by
  cases op with
  | register name email flag =>
    by_cases h : s.users.any (fun u => u.email == email) = true
    · exact step_idle_of_eq (by simp only [serve, register, h, if_true, reply])
    · have e : (serve s now (.register name email flag)).store =
          { s with
            users := s.users ++ [⟨s.nextId, name, email, flag, 0, 0⟩]
            nextId := s.nextId + 1 } := by
        simp only [serve, register, h]
        simp
      rw [e]; exact Step.register _ _ _
  | create caller r =>
    cases hu : findUser s caller with
    | none => exact step_idle_of_eq (by simp [serve, authenticateToken, hu, reply])
    | some u =>
      cases hfl : uploadError 5 r.files with
      | some e =>
        exact step_idle_of_eq (by
          simp [serve, authenticateToken, hu, uploadArray, hfl, reply])
      | none =>
      by_cases hf : r.files = []
      · exact step_idle_of_eq (by
          simp [serve, authenticateToken, hu, uploadArray, uploadError, create, photoRefs, hf,
            reply])
      · cases hl : r.location with
        | none =>
          exact step_idle_of_eq (by
            simp [serve, authenticateToken, hu, uploadArray, hfl, create, photoRefs, hf,
                    hl, reply, serverError])
        | some l =>
          cases h1 : l.address with
          | none =>
            exact step_idle_of_eq (by
              simp [serve, authenticateToken, hu, uploadArray, hfl, create, photoRefs, hf,
                    hl, h1, reply,
                serverError])
          | some address =>
            cases h2 : l.lat with
            | none =>
              exact step_idle_of_eq (by
                simp [serve, authenticateToken, hu, uploadArray, hfl, create, photoRefs, hf,
                    hl, h1, h2, reply,
                  serverError])
            | some lat =>
              cases h3 : l.lng with
              | none =>
                exact step_idle_of_eq (by
                  simp [serve, authenticateToken, hu, uploadArray, hfl, create, photoRefs, hf,
                    hl, h1, h2, h3,
                    reply, serverError])
              | some lng =>
                by_cases hv : validAnimal
                    (newAnimal s.nextId u.id r ⟨address, lat, lng, l.city, l.state⟩ now) = true
                · have e : (serve s now (.create caller r)).store =
                      { s with
                        animals := s.animals ++
                          [newAnimal s.nextId u.id r ⟨address, lat, lng, l.city, l.state⟩ now]
                        users := updateFirst (fun x => x.id == u.id) (fun x => x.addRescued 1)
                          s.users
                        nextId := s.nextId + 1 } := by
                    simp [serve, authenticateToken, hu, uploadArray, hfl, create, photoRefs, hf,
                    hl, h1, h2, h3,
                      hv]
                  rw [e]; exact Step.create _ _ _ _ hu hv hf
                · exact step_idle_of_eq (by
                    simp [serve, authenticateToken, hu, uploadArray, hfl, create, photoRefs, hf,
                    hl, h1, h2, h3,
                      hv, reply, serverError])
  | update caller id p files =>
    cases hu : findUser s caller with
    | none => exact step_idle_of_eq (by simp [serve, authenticateToken, hu, reply])
    | some u =>
      cases hfl : uploadError 5 files with
      | some e =>
        exact step_idle_of_eq (by
          simp [serve, authenticateToken, hu, uploadArray, hfl, reply])
      | none =>
      cases ha : findAnimal s id with
      | none =>
        exact step_idle_of_eq (by
          simp [serve, authenticateToken, hu, uploadArray, hfl, update, ha, reply])
      | some a =>
        cases hpo : a.posterId with
        | none =>
          exact step_idle_of_eq (by
            simp [serve, authenticateToken, hu, uploadArray, hfl, update, ha, hpo, reply,
              serverError])
        | some poster =>
        by_cases hp : poster = u.id
        · by_cases hl : p.location = .set none
          · exact step_idle_of_eq (by
              simp [serve, authenticateToken, hu, uploadArray, hfl, update, ha, hpo, hp, hl,
                reply, serverError])
          · by_cases hrej : p.rejected = true
            · exact step_idle_of_eq (by
                simp [serve, authenticateToken, hu, uploadArray, hfl, update, ha, hpo, hp, hl,
                  hrej, reply, serverError])
            · have e : (serve s now (.update caller id p files)).store =
                  { s with
                    animals := updateFirst (fun x => x.id == id) (applyPatch p files a.photos)
                      s.animals } := by
                simp [serve, authenticateToken, hu, uploadArray, hfl, update, ha, hpo, hp, hl,
                  hrej]
              rw [e]; exact Step.update _ _ _ _ _ _ hu ha (by rw [hpo, hp])
        · exact step_idle_of_eq (by
            simp [serve, authenticateToken, hu, uploadArray, hfl, update, ha, hpo, hp, reply])
  | delete caller id =>
    cases hu : findUser s caller with
    | none => exact step_idle_of_eq (by simp [serve, authenticateToken, hu, reply])
    | some u =>
      cases ha : findAnimal s id with
      | none => exact step_idle_of_eq (by simp [serve, authenticateToken, hu, delete, ha, reply])
      | some a =>
        cases hpo : a.posterId with
        | none =>
          exact step_idle_of_eq (by
            simp [serve, authenticateToken, hu, delete, ha, hpo, reply, serverError])
        | some poster =>
        by_cases hp : poster = u.id
        · have e : (serve s now (.delete caller id)).store =
              { s with
                animals := s.animals.eraseP (fun x => x.id == id)
                users := updateFirst (fun x => x.id == u.id) (fun x => x.addRescued (-1))
                  s.users } := by
            simp [serve, authenticateToken, hu, delete, ha, hpo, hp]
          rw [e]; exact Step.delete _ _ _ _ hu ha (by rw [hpo, hp])
        · exact step_idle_of_eq (by
            simp [serve, authenticateToken, hu, delete, ha, hpo, hp, reply])
  | expressInterest caller id m c =>
    cases hu : findUser s caller with
    | none => exact step_idle_of_eq (by simp [serve, authenticateToken, hu, reply])
    | some u =>
      cases ha : findAnimal s id with
      | none =>
        exact step_idle_of_eq (by simp [serve, authenticateToken, hu, expressInterest, ha, reply])
      | some a =>
        by_cases hs : a.status = "adopted"
        · exact step_idle_of_eq (by
            simp [serve, authenticateToken, hu, expressInterest, ha, hs, reply])
        · cases hposter : populate s a.posterId with
          | none =>
            exact step_idle_of_eq (by
              simp [serve, authenticateToken, hu, expressInterest, ha, hs, hposter, reply,
                serverError])
          | some poster =>
            by_cases hne : poster.id = u.id
            · exact step_idle_of_eq (by
                simp [serve, authenticateToken, hu, expressInterest, ha, hs, hposter, hne, reply])
            · by_cases hnew : a.interestedUsers.any (fun i => i.user == u.id) = true
              · exact step_idle_of_eq (by
                  simp only [serve, authenticateToken, hu, expressInterest, ha, hposter]
                  simp [hs, hne, hnew, reply])
              · by_cases hv : validAnimal
                    (a.withInterested (a.interestedUsers ++ [⟨u.id, m, c, now⟩])) = true
                · have e : (serve s now (.expressInterest caller id m c)).store =
                      { s with
                        animals := updateFirst (fun x => x.id == id)
                          (fun x => x.withInterested (a.interestedUsers ++ [⟨u.id, m, c, now⟩]))
                          s.animals } := by
                    simp only [serve, authenticateToken, hu, expressInterest, ha, hposter]
                    simp [hs, hne, hnew, hv]
                  rw [e]
                  exact Step.expressInterest _ _ _ _ _ _ _ hu ha hs hposter hne
                    (by simpa using hnew) hv
                · exact step_idle_of_eq (by
                    simp only [serve, authenticateToken, hu, expressInterest, ha, hposter]
                    simp [hs, hne, hnew, hv, reply, serverError])
  | markAdopted caller id adopterId =>
    cases hu : findUser s caller with
    | none => exact step_idle_of_eq (by simp [serve, authenticateToken, hu, reply])
    | some u =>
      cases ha : findAnimal s id with
      | none =>
        exact step_idle_of_eq (by simp [serve, authenticateToken, hu, markAdopted, ha, reply])
      | some a =>
        cases hposter : populate s a.posterId with
        | none =>
          exact step_idle_of_eq (by
            simp [serve, authenticateToken, hu, markAdopted, ha, hposter, reply, serverError])
        | some poster =>
          by_cases he : poster.id = u.id
          · cases hadopter : findUser s adopterId with
            | none =>
              exact step_idle_of_eq (by
                simp [serve, authenticateToken, hu, markAdopted, ha, hposter, he, hadopter,
                  reply])
            | some adopter =>
              by_cases hv : validAnimal (a.confirm adopterId now) = true
              · have e : (serve s now (.markAdopted caller id adopterId)).store =
                    { s with
                      animals := updateFirst (fun x => x.id == id)
                        (fun x => x.confirm adopterId now) s.animals
                      users := updateFirst (fun x => x.id == adopterId)
                        (fun x => x.addAdopted 1) s.users } := by
                  simp [serve, authenticateToken, hu, markAdopted, ha, hposter, he, hadopter,
                    hv]
                rw [e]; exact Step.markAdopted _ _ _ _ _ _ _ hu ha hposter he hadopter hv
              · exact step_idle_of_eq (by
                  simp [serve, authenticateToken, hu, markAdopted, ha, hposter, he, hadopter,
                    hv, reply, serverError])
          · exact step_idle_of_eq (by
              simp [serve, authenticateToken, hu, markAdopted, ha, hposter, he, reply])
  | requestAdoption caller animalId m c =>
    cases hu : findUser s caller with
    | none => exact step_idle_of_eq (by simp [serve, authenticateToken, hu, reply])
    | some u =>
      rcases requestAdoption_cases s u animalId m c now with ⟨h, _⟩ |
        ⟨a, poster, ha, hs, hposter, hne, hdup, hc, h⟩
      · exact step_idle_of_eq (by simpa [serve, authenticateToken, hu] using h)
      · have e : (serve s now (.requestAdoption caller animalId m c)).store =
            { s with
              adoptions := s.adoptions ++
                [newAdoption s.nextId animalId u.id poster.id m c now]
              nextId := s.nextId + 1 } := by
          simp [serve, authenticateToken, hu, h]
        rw [e]; exact Step.requestAdoption _ _ _ _ _ _ _ hu ha hs hposter hne hdup hc
  | updateStatus caller id status notes =>
    cases hu : findUser s caller with
    | none => exact step_idle_of_eq (by simp [serve, authenticateToken, hu, reply])
    | some u =>
      cases hd : findAdoption s id with
      | none =>
        exact step_idle_of_eq (by simp [serve, authenticateToken, hu, updateStatus, hd, reply])
      | some d =>
        cases hposter : findUser s d.poster with
        | none =>
          exact step_idle_of_eq (by
            simp [serve, authenticateToken, hu, updateStatus, hd, hposter, reply, serverError])
        | some poster =>
          by_cases he : poster.id = u.id
          · by_cases hst : status = "completed"
            · subst hst
              cases ha : findAnimal s d.animal with
              | none =>
                exact step_idle_of_eq (by
                  simp [serve, authenticateToken, hu, updateStatus, hd, hposter, he, ha, reply,
                    serverError])
              | some a =>
                cases hadopter : findUser s d.adopter with
                | none =>
                  exact step_idle_of_eq (by
                    simp [serve, authenticateToken, hu, updateStatus, hd, hposter, he, ha,
                      hadopter, reply, serverError])
                | some adopter =>
                  have e : (serve s now (.updateStatus caller id "completed" notes)).store =
                      { s with
                        animals := updateFirst (fun x => x.id == a.id)
                          (fun x => x.confirm adopter.id now) s.animals
                        adoptions :=
                          if validAdoption ((d.setStatus "completed"
                              (notesAfter notes d.notes)).setDate now) then
                            updateFirst (fun x => x.id == id)
                              (fun x => (x.setStatus "completed"
                                (notesAfter notes d.notes)).setDate now) s.adoptions
                          else s.adoptions } := by
                    simp only [serve, authenticateToken, hu, updateStatus, hd, hposter, ha,
                      hadopter]
                    by_cases hv : validAdoption ((d.setStatus "completed"
                        (notesAfter notes d.notes)).setDate now) = true
                    · simp [he, hv]
                    · simp [he, hv]
                  rw [e]
                  exact Step.complete _ _ _ _ _ _ _ _ _ hu hd hposter he ha hadopter rfl
            · by_cases hv : validAdoption (d.setStatus status (notesAfter notes d.notes)) = true
              · have e : (serve s now (.updateStatus caller id status notes)).store =
                    { s with
                      adoptions := updateFirst (fun x => x.id == id)
                        (fun x => x.setStatus status (notesAfter notes d.notes))
                        s.adoptions } := by
                  simp only [serve, authenticateToken, hu, updateStatus, hd, hposter]
                  cases findAnimal s d.animal <;> cases findUser s d.adopter <;>
                    simp [he, hst, hv]
                rw [e]; exact Step.setStatus _ _ _ _ _ _ _ hu hd hposter he hst hv
              · exact step_idle_of_eq (by
                  simp [serve, authenticateToken, hu, updateStatus, hd, hposter, he, hst, hv,
                    reply, serverError])
          · exact step_idle_of_eq (by
              simp [serve, authenticateToken, hu, updateStatus, hd, hposter, he, reply])

/-! ## Users are never lost -/

theorem findUser_updateFirst_isSome (s : Store) (i j : Id) (f : User → User)
    (hf : ∀ u, (f u).id = u.id) (h : (findUser s j).isSome = true) :
    ((updateFirst (fun x => x.id == i) f s.users).find? (fun u => u.id == j)).isSome = true := by
  rw [find_updateFirst User.id f i j s.users hf]
  unfold findUser at h
  split
  · cases hx : s.users.find? (fun u => u.id == j) with
    | none => rw [hx] at h; cases h
    | some u => rfl
  · exact h

theorem find_append_isSome {α : Type} (p : α → Bool) (l l2 : List α)
    (h : (l.find? p).isSome = true) : ((l ++ l2).find? p).isSome = true := by
  rw [List.find?_append]
  cases hx : l.find? p with
  | none => rw [hx] at h; cases h
  | some u => rfl

theorem step_findUser {s : Store} {now : Date} {op : Op} {s1 : Store} (h : Step s now op s1)
    (i : Id) (hi : (findUser s i).isSome = true) : (findUser s1 i).isSome = true := by
  cases h with
  | idle => exact hi
  | register name email flag => exact find_append_isSome _ _ _ hi
  | create caller r u loc hu hv hf =>
    exact findUser_updateFirst_isSome s u.id i _ (fun _ => rfl) hi
  | update => exact hi
  | delete caller id u a hu ha hp =>
    exact findUser_updateFirst_isSome s u.id i _ (fun _ => rfl) hi
  | expressInterest => exact hi
  | markAdopted caller id adopterId u a poster adopter =>
    exact findUser_updateFirst_isSome s adopterId i _ (fun _ => rfl) hi
  | requestAdoption => exact hi
  | setStatus => exact hi
  | complete => exact hi

theorem step_nextId {s : Store} {now : Date} {op : Op} {s1 : Store} (h : Step s now op s1) :
    s.nextId ≤ s1.nextId := by
  cases h <;> simp

/-- Every Adoption after a step is an old one, the freshly requested one, or
the rewritten image of the one that was looked up. -/
theorem step_adoptions {s : Store} {now : Date} {op : Op} {s1 : Store} (h : Step s now op s1)
    (d1 : Adoption) (hd1 : d1 ∈ s1.adoptions) :
    d1 ∈ s.adoptions ∨
    (∃ caller animalId m c u a poster, op = .requestAdoption caller animalId m c ∧
      findUser s caller = some u ∧ findAnimal s animalId = some a ∧
      populate s a.posterId = some poster ∧ poster.id ≠ u.id ∧ c ≠ "" ∧
      s1.nextId = s.nextId + 1 ∧
      d1 = newAdoption s.nextId animalId u.id poster.id m c now) ∨
    (∃ caller id status notes d, op = .updateStatus caller id status notes ∧
      findAdoption s id = some d ∧ validAdoption d1 = true ∧
      d1.id = d.id ∧ d1.animal = d.animal ∧ d1.adopter = d.adopter ∧ d1.poster = d.poster ∧
      d1.status = status) := by
  cases h with
  | idle => exact Or.inl hd1
  | register => exact Or.inl hd1
  | create => exact Or.inl hd1
  | update => exact Or.inl hd1
  | delete => exact Or.inl hd1
  | expressInterest => exact Or.inl hd1
  | markAdopted => exact Or.inl hd1
  | requestAdoption caller animalId m c u a poster hu ha hs hposter hne hdup hc =>
    simp only [List.mem_append, List.mem_singleton] at hd1
    rcases hd1 with h | h
    · exact Or.inl h
    · exact Or.inr (Or.inl ⟨caller, animalId, m, c, u, a, poster, rfl, hu, ha, hposter, hne, hc,
        rfl, h⟩)
  | setStatus caller id status notes u d poster hu hd hposter he hne hv =>
    rcases mem_updateFirst _ _ _ _ hd1 with h | ⟨x, hx, hy⟩
    · exact Or.inl h
    · have hxd : x = d := by
        have : findAdoption s id = some x := hx
        rw [hd] at this; exact (Option.some.inj this).symm
      subst hxd
      exact Or.inr (Or.inr ⟨caller, id, status, notes, x, rfl, hd, by rw [hy]; exact hv,
        by rw [hy]; rfl, by rw [hy]; rfl, by rw [hy]; rfl, by rw [hy]; rfl, by rw [hy]; rfl⟩)
  | complete caller id notes saved u d poster a adopter hu hd hposter he ha hadopter hv =>
    cases saved with
    | false => exact Or.inl hd1
    | true =>
      rcases mem_updateFirst _ _ _ _ hd1 with h | ⟨x, hx, hy⟩
      · exact Or.inl h
      · have hxd : x = d := by
          have : findAdoption s id = some x := hx
          rw [hd] at this; exact (Option.some.inj this).symm
        subst hxd
        exact Or.inr (Or.inr ⟨caller, id, "completed", notes, x, rfl, hd, by rw [hy]; exact hv,
          by rw [hy]; rfl, by rw [hy]; rfl, by rw [hy]; rfl, by rw [hy]; rfl, by rw [hy]; rfl⟩)

theorem mem_of_find {α : Type} (p : α → Bool) (l : List α) (x : α) (h : l.find? p = some x) :
    x ∈ l := List.mem_of_find?_eq_some h

theorem step_wellFormed {s : Store} {now : Date} {op : Op} {s1 : Store} (h : Step s now op s1)
    (hw : WellFormed s) : WellFormed s1 := by
  intro d1 hd1
  have hn := step_nextId h
  rcases step_adoptions h d1 hd1 with hold | ⟨caller, animalId, m, c, u, a, poster, _, hu, ha,
      hposter, hne, hc, hnext, hd⟩ | ⟨caller, id, status, notes, d, _, hd, hv, hid, _, had, hpo, _⟩
  · obtain ⟨h1, h2, h3, h4⟩ := hw d1 hold
    exact ⟨step_findUser h _ h1, step_findUser h _ h2, h3, Nat.lt_of_lt_of_le h4 hn⟩
  · subst hd
    obtain ⟨pid, _, hfound⟩ := populate_eq_some hposter
    have hpid : poster.id = pid := findUser_id hfound
    have huid : u.id = caller := findUser_id hu
    refine ⟨step_findUser h _ ?_, step_findUser h _ ?_, ?_, ?_⟩
    · show (findUser s poster.id).isSome = true
      rw [hpid, hfound]; rfl
    · show (findUser s u.id).isSome = true
      rw [huid, hu]; rfl
    · rw [validAdoption_newAdoption]; simpa using hc
    · show s.nextId < s1.nextId
      rw [hnext]; exact Nat.lt_succ_self _
  · have hmem : d ∈ s.adoptions := mem_of_find _ _ _ hd
    obtain ⟨h1, h2, _, h4⟩ := hw d hmem
    refine ⟨step_findUser h _ (by rw [hpo]; exact h1), step_findUser h _ (by rw [had]; exact h2),
      hv, by rw [hid]; exact Nat.lt_of_lt_of_le h4 hn⟩

theorem reachable_wellFormed {s : Store} (h : Reachable s) : WellFormed s := by
  induction h with
  | init => intro d hd; cases hd
  | step s now op _ ih => exact step_wellFormed (serve_step s now op) ih

theorem reachable_run {s : Store} (h : Reachable s) (tr : List (Date × Op)) :
    Reachable (run s tr) := by
  induction tr generalizing s with
  | nil => exact h
  | cons x rest ih => exact ih (Reachable.step s x.1 x.2 h)

theorem reachableVia_reachable {ok : Store → Op → Prop} {s : Store} (h : ReachableVia ok s) :
    Reachable s := by
  induction h with
  | init => exact Reachable.init
  | step s now op _ _ ih => exact Reachable.step s now op ih

/-! ## Animals across one step -/

theorem step_animals {s : Store} {now : Date} {op : Op} {s1 : Store} (h : Step s now op s1)
    (a1 : Animal) (h1 : a1 ∈ s1.animals) :
    a1 ∈ s.animals ∨
    (∃ id poster r loc, a1 = newAnimal id poster r loc now) ∨
    (∃ caller id p files photos x, op = .update caller id p files ∧ x ∈ s.animals ∧
      a1 = applyPatch p files photos x) ∨
    (∃ x l, x ∈ s.animals ∧ a1 = x.withInterested l) ∨
    (∃ x adopter, x ∈ s.animals ∧ a1 = x.confirm adopter now) := by
  cases h with
  | idle => exact Or.inl h1
  | register => exact Or.inl h1
  | create caller r u loc hu hv hf =>
    simp only [List.mem_append, List.mem_singleton] at h1
    rcases h1 with h | h
    · exact Or.inl h
    · exact Or.inr (Or.inl ⟨_, _, _, _, h⟩)
  | update caller id p files u a hu ha hp =>
    rcases mem_updateFirst _ _ _ _ h1 with h | ⟨x, hx, hy⟩
    · exact Or.inl h
    · exact Or.inr (Or.inr (Or.inl ⟨caller, id, p, files, a.photos, x, rfl,
        mem_of_find _ _ _ hx, hy⟩))
  | delete caller id u a hu ha hp => exact Or.inl (List.mem_of_mem_eraseP h1)
  | expressInterest caller id m c u a poster =>
    rcases mem_updateFirst _ _ _ _ h1 with h | ⟨x, hx, hy⟩
    · exact Or.inl h
    · exact Or.inr (Or.inr (Or.inr (Or.inl ⟨x, _, mem_of_find _ _ _ hx, hy⟩)))
  | markAdopted caller id adopterId u a poster adopter =>
    rcases mem_updateFirst _ _ _ _ h1 with h | ⟨x, hx, hy⟩
    · exact Or.inl h
    · exact Or.inr (Or.inr (Or.inr (Or.inr ⟨x, _, mem_of_find _ _ _ hx, hy⟩)))
  | requestAdoption => exact Or.inl h1
  | setStatus => exact Or.inl h1
  | complete caller id notes saved u d poster a adopter =>
    rcases mem_updateFirst _ _ _ _ h1 with h | ⟨x, hx, hy⟩
    · exact Or.inl h
    · exact Or.inr (Or.inr (Or.inr (Or.inr ⟨x, _, mem_of_find _ _ _ hx, hy⟩)))

/-! ## C1 -/

/-- C1, as stated, fails: after the poster sends an update whose body carries
status adopted, the reachable store holds an adopted Animal without adopter
and without adoption date. -/
theorem C1_counterexample :
    Reachable (run listed [(3, .update 0 1 (statusPatch "adopted") [])]) ∧
    ¬ AdoptedHasAdopter (run listed [(3, .update 0 1 (statusPatch "adopted") [])]) := by
  refine ⟨reachable_run (reachable_run Reachable.init _) _, ?_⟩
  unfold AdoptedHasAdopter
  decide

/-- C1, amended: in every state reachable through requests in which no update
writes the status adopted (as a plain key, under `$set` or by another
operator) and no update clears adopterId or adoptionDate (by null, by `$unset`
or by another operator), every adopted Animal has a non-null adopterId and a
non-null adoptionDate. -/
theorem C1_adopted_has_adopter (s : Store) (h : ReachableVia keepsAdoptionFields s) :
    AdoptedHasAdopter s := by
  induction h with
  | init => intro a ha; cases ha
  | step s now op _ hok ih =>
    intro a1 h1 hst
    rcases step_animals (serve_step s now op) a1 h1 with hold | ⟨id, poster, r, loc, rfl⟩ |
        ⟨caller, id, p, files, photos, x, rfl, hx, rfl⟩ | ⟨x, l, hx, rfl⟩ | ⟨x, adopter, hx, rfl⟩
    · exact ih a1 hold hst
    · simp [newAnimal] at hst
    · obtain ⟨k1, k2, k3⟩ := hok
      have hxs : x.status = "adopted" := by
        cases hps : p.status with
        | keep => simpa [applyPatch, hps, Write.over] using hst
        | set v =>
          have : v = "adopted" := by simpa [applyPatch, hps, Write.over] using hst
          exact absurd (by rw [hps, this]) k1
        | clear => simp [applyPatch, hps, Write.over] at hst
      obtain ⟨i1, i2⟩ := ih x hx hxs
      constructor
      · cases hpa : p.adopterId with
        | keep => simpa [applyPatch, hpa, Write.overRef] using i1
        | set v => simp [applyPatch, hpa, Write.overRef]
        | clear => exact absurd hpa k2
      · cases hpa : p.adoptionDate with
        | keep => simpa [applyPatch, hpa, Write.overRef] using i2
        | set v => simp [applyPatch, hpa, Write.overRef]
        | clear => exact absurd hpa k3
    · exact ih x hx hst
    · simp [Animal.confirm]

/-- Witness for C1: the store after the poster marks the dog adopted by U and
then removes its name by an update with `$unset`. -/
theorem C1_adopted_has_adopter_witness :
    AdoptedHasAdopter
      (serve (serve (serve (serve (serve emptyStore 0 (.register "P" "p@x" true)).store 1
        (.create 0 (CreateReq.minimal "dog" mainStreet [.image "a.png"]))).store 2
        (.register "U" "u@x" true)).store 3 (.markAdopted 0 1 2)).store 4
        (.update 0 1 { AnimalPatch.empty with name := .clear } [])).store :=
  C1_adopted_has_adopter _
    (ReachableVia.step _ _ _ (ReachableVia.step _ _ _ (ReachableVia.step _ _ _
      (ReachableVia.step _ _ _ (ReachableVia.step _ _ _ ReachableVia.init trivial) trivial)
      trivial) trivial) (by simp [keepsAdoptionFields, AnimalPatch.empty]))

/-! ## C2 -/

theorem find_append_of_some {α : Type} (p : α → Bool) (l l2 : List α) (x : α)
    (h : l.find? p = some x) : (l ++ l2).find? p = some x := by
  rw [List.find?_append, h]; rfl

/-- What a step other than a delete does to a stored Animal: it is still there,
unchanged or rewritten by one of the four writes. -/
theorem step_findAnimal {s : Store} {now : Date} {op : Op} {s1 : Store} (h : Step s now op s1)
    (hop : ∀ caller i, op ≠ .delete caller i) (id : Id) (a : Animal)
    (ha : findAnimal s id = some a) :
    ∃ a1, findAnimal s1 id = some a1 ∧
      (a1 = a ∨
       (∃ caller i p files photos, op = .update caller i p files ∧
          a1 = applyPatch p files photos a) ∨
       (∃ l, a1 = a.withInterested l) ∨
       (∃ adopter, a1 = a.confirm adopter now)) := by
  have key : ∀ (i : Id) (f : Animal → Animal), (∀ x, (f x).id = x.id) →
      ∃ a1, (updateFirst (fun x => x.id == i) f s.animals).find? (fun x => x.id == id) = some a1 ∧
        (a1 = a ∨ a1 = f a) := by
    intro i f hf
    rw [find_updateFirst Animal.id f i id s.animals hf]
    have ha' : s.animals.find? (fun x => x.id == id) = some a := ha
    by_cases hi : id = i
    · rw [if_pos hi, ha']; exact ⟨f a, rfl, Or.inr rfl⟩
    · rw [if_neg hi, ha']; exact ⟨a, rfl, Or.inl rfl⟩
  cases h with
  | idle => exact ⟨a, ha, Or.inl rfl⟩
  | register => exact ⟨a, ha, Or.inl rfl⟩
  | create caller r u loc hu hv hf =>
    exact ⟨a, find_append_of_some _ _ _ _ ha, Or.inl rfl⟩
  | update caller i p files u x hu hx hp =>
    obtain ⟨a1, h1, h2⟩ := key i (applyPatch p files x.photos) (fun _ => rfl)
    refine ⟨a1, h1, ?_⟩
    rcases h2 with h2 | h2
    · exact Or.inl h2
    · exact Or.inr (Or.inl ⟨caller, i, p, files, x.photos, rfl, h2⟩)
  | delete caller i u x hu hx hp => exact absurd rfl (hop caller i)
  | expressInterest caller i m c u x poster =>
    obtain ⟨a1, h1, h2⟩ := key i
      (fun y => y.withInterested (x.interestedUsers ++ [⟨u.id, m, c, now⟩])) (fun _ => rfl)
    refine ⟨a1, h1, ?_⟩
    rcases h2 with h2 | h2
    · exact Or.inl h2
    · exact Or.inr (Or.inr (Or.inl ⟨_, h2⟩))
  | markAdopted caller i adopterId u x poster adopter =>
    obtain ⟨a1, h1, h2⟩ := key i (fun y => y.confirm adopterId now) (fun _ => rfl)
    refine ⟨a1, h1, ?_⟩
    rcases h2 with h2 | h2
    · exact Or.inl h2
    · exact Or.inr (Or.inr (Or.inr ⟨_, h2⟩))
  | requestAdoption => exact ⟨a, ha, Or.inl rfl⟩
  | setStatus => exact ⟨a, ha, Or.inl rfl⟩
  | complete caller i notes saved u d poster x adopter =>
    obtain ⟨a1, h1, h2⟩ := key x.id (fun y => y.confirm adopter.id now) (fun _ => rfl)
    refine ⟨a1, h1, ?_⟩
    rcases h2 with h2 | h2
    · exact Or.inl h2
    · exact Or.inr (Or.inr (Or.inr ⟨_, h2⟩))

/-- C2, as stated, fails: the dog was marked adopted, and an update by the
poster whose body carries status available makes it available again. -/
theorem C2_counterexample :
    (findAnimal (run listed [(3, .markAdopted 0 1 2)]) 1).map (fun a => a.status)
      = some "adopted" ∧
    (findAnimal (serve (run listed [(3, .markAdopted 0 1 2)]) 4
      (.update 0 1 (statusPatch "available") [])).store 1).map (fun a => a.status)
      = some "available" := by
  decide

/-- C2, amended: for every request other than a delete and other than an
update that writes a status different from adopted or clears the status (by a
plain key, `$set`, null, `$unset` or another operator), an Animal that is
adopted before the request is still stored and still adopted after it. -/
theorem C2_adopted_stays_adopted (s : Store) (now : Date) (op : Op) (id : Id) (a : Animal)
    (hop : ∀ caller i, op ≠ .delete caller i)
    (hpatch : ∀ caller i p files, op = .update caller i p files →
      p.status = .keep ∨ p.status = .set "adopted")
    (ha : findAnimal s id = some a) (hs : a.status = "adopted") :
    ∃ a1, findAnimal (serve s now op).store id = some a1 ∧ a1.status = "adopted" := by
  obtain ⟨a1, h1, h2⟩ := step_findAnimal (serve_step s now op) hop id a ha
  refine ⟨a1, h1, ?_⟩
  rcases h2 with rfl | ⟨caller, i, p, files, photos, hop2, rfl⟩ | ⟨l, rfl⟩ | ⟨adopter, rfl⟩
  · exact hs
  · rcases hpatch caller i p files hop2 with hp | hp
    · simp [applyPatch, hp, hs, Write.over]
    · simp [applyPatch, hp, Write.over]
  · exact hs
  · rfl

/-- Witness for C2: the poster renames the adopted dog and removes its
adopter; it stays adopted. -/
theorem C2_adopted_stays_adopted_witness :
    ∃ a1, findAnimal (serve (run listed [(3, .markAdopted 0 1 2)]) 4
      (.update 0 1 { AnimalPatch.empty with name := .set "Rex", adopterId := .clear }
        [])).store 1 = some a1 ∧
      a1.status = "adopted" :=
  C2_adopted_stays_adopted (run listed [(3, .markAdopted 0 1 2)]) 4
    (.update 0 1 { AnimalPatch.empty with name := .set "Rex", adopterId := .clear } []) 1
    ((run listed [(3, .markAdopted 0 1 2)]).animals.head (by decide))
    (by intro caller i h; cases h)
    (by intro caller i p files h; cases h; exact Or.inl rfl) (by decide) (by decide)

/-! ## C3 -/

theorem countP_eq_zero_of_find_none {α : Type} (p : α → Bool) (l : List α)
    (h : l.find? p = none) : l.countP p = 0 := by
  rw [List.countP_eq_zero]
  intro x hx hp
  have := List.find?_eq_none.mp h x hx
  exact this hp

theorem isActiveFor_setStatus (animalId adopter : Id) (d : Adoption) (status notes : String)
    (h : isActiveFor animalId adopter (d.setStatus status notes) = true) :
    (status = "pending" ∨ status = "approved") ∧ d.animal = animalId ∧ d.adopter = adopter := by
  simp [isActiveFor, Adoption.setStatus] at h
  exact ⟨h.2, h.1.1, h.1.2⟩

/-- C3, as stated, fails: U requests the dog, the poster cancels the request, U
requests again, and the poster sets the first request back to pending; the
reachable store then holds two pending Adoptions for the same pair. -/
theorem C3_counterexample :
    Reachable (run requested
      [(4, .updateStatus 0 3 "cancelled" none), (5, .requestAdoption 2 1 "again" "u@x"),
       (6, .updateStatus 0 3 "pending" none)]) ∧
    ¬ AtMostOneActive (run requested
      [(4, .updateStatus 0 3 "cancelled" none), (5, .requestAdoption 2 1 "again" "u@x"),
       (6, .updateStatus 0 3 "pending" none)]) := by
  refine ⟨reachable_run (reachable_run (reachable_run Reachable.init _) _) _, ?_⟩
  intro h
  have h2 := h 1 2
  revert h2
  decide

/-- C3, amended: in every state reachable through requests in which no
updateStatus moves an Adoption that is neither pending nor approved to pending
or approved, there is at most one pending or approved Adoption for each
(animal, adopter) pair. -/
theorem C3_at_most_one_active (s : Store) (h : ReachableVia noReactivation s) :
    AtMostOneActive s := by
  induction h with
  | init => intro animalId adopter; simp [emptyStore]
  | step s now op _ hok ih =>
    intro animalId adopter
    have hstep := serve_step s now op
    generalize (serve s now op).store = s1 at hstep
    have hold := ih animalId adopter
    cases hstep with
    | idle => exact hold
    | register => exact hold
    | create => exact hold
    | update => exact hold
    | delete => exact hold
    | expressInterest => exact hold
    | markAdopted => exact hold
    | requestAdoption caller aid m c u a poster hu ha hs hposter hne hdup hc =>
      show (s.adoptions ++ [newAdoption s.nextId aid u.id poster.id m c now]).countP
        (isActiveFor animalId adopter) ≤ 1
      rw [List.countP_append]
      by_cases hq : isActiveFor animalId adopter
          (newAdoption s.nextId aid u.id poster.id m c now) = true
      · have hsame : aid = animalId ∧ u.id = adopter := by
          simp [isActiveFor, newAdoption] at hq
          exact hq
        rw [← hsame.1, ← hsame.2, countP_eq_zero_of_find_none _ _ hdup]
        simp [List.countP_cons]
        split <;> omega
      · have : [newAdoption s.nextId aid u.id poster.id m c now].countP
            (isActiveFor animalId adopter) = 0 := by
          simp [List.countP_cons, hq]
        rw [this]; exact hold
    | setStatus caller id status notes u d poster hu hd hposter he hne hv =>
      refine Nat.le_trans (countP_updateFirst_le _ _ _ _ ?_) hold
      intro x hx hq
      have hxd : x = d := by
        have : findAdoption s id = some x := hx
        rw [hd] at this; exact (Option.some.inj this).symm
      subst hxd
      obtain ⟨h1, h2, h3⟩ := isActiveFor_setStatus _ _ _ _ _ hq
      have := hok h1 x hd
      simp [isActiveFor, h2, h3]
      exact this
    | complete caller id notes saved u d poster a adopter1 hu hd hposter he ha hadopter hv =>
      cases saved with
      | false => exact hold
      | true =>
        refine Nat.le_trans (countP_updateFirst_le _ _ _ _ ?_) hold
        intro x hx hq
        simp [isActiveFor, Adoption.setStatus, Adoption.setDate] at hq

/-- Witness for C3: U files one request on the dog and the poster approves it. -/
theorem C3_at_most_one_active_witness :
    AtMostOneActive
      (serve (serve (serve (serve (serve emptyStore 0 (.register "P" "p@x" true)).store 1
        (.create 0 (CreateReq.minimal "dog" mainStreet [.image "a.png"]))).store 2
        (.register "U" "u@x" true)).store 3 (.requestAdoption 2 1 "hi" "u@x")).store 4
        (.updateStatus 0 3 "approved" none)).store :=
  C3_at_most_one_active _
    (ReachableVia.step _ _ _ (ReachableVia.step _ _ _ (ReachableVia.step _ _ _
      (ReachableVia.step _ _ _ (ReachableVia.step _ _ _ ReachableVia.init trivial) trivial)
      trivial) trivial)
      (by
        intro _ d hd
        have h2 : findAdoption requested 3 = some (newAdoption 3 1 2 0 "hi" "u@x" 3) := by
          decide
        have h3 : d = newAdoption 3 1 2 0 "hi" "u@x" 3 :=
          Option.some.inj (hd.symm.trans h2)
        rw [h3]; exact Or.inl rfl))

/-! ## C4, C5, C7: requestAdoption -/

theorem findAnimal_id {s : Store} {i : Id} {a : Animal} (h : findAnimal s i = some a) :
    a.id = i := by
  have := List.find?_some h
  simpa using this

theorem findAdoption_id {s : Store} {i : Id} {d : Adoption} (h : findAdoption s i = some d) :
    d.id = i := by
  have := List.find?_some h
  simpa using this

/-- The outcome of an authenticated requestAdoption, branch by branch, in the
order of the source. -/
theorem serve_requestAdoption (s : Store) (now : Date) (caller animalId : Id) (m c : String)
    (u : User) (hu : findUser s caller = some u) :
    (findAnimal s animalId = none →
      serve s now (.requestAdoption caller animalId m c) = reply s 404 "Animal not found") ∧
    (∀ a, findAnimal s animalId = some a → a.status = "adopted" →
      serve s now (.requestAdoption caller animalId m c)
        = reply s 400 "Animal has already been adopted") ∧
    (∀ a, findAnimal s animalId = some a → a.status ≠ "adopted" →
      populate s a.posterId = none →
      serve s now (.requestAdoption caller animalId m c) = serverError s) ∧
    (∀ a, findAnimal s animalId = some a → a.status ≠ "adopted" → a.posterId = some caller →
      serve s now (.requestAdoption caller animalId m c)
        = reply s 400 "Cannot adopt your own listing") ∧
    (∀ a poster d, findAnimal s animalId = some a → a.status ≠ "adopted" →
      a.posterId ≠ some caller → populate s a.posterId = some poster →
      s.adoptions.find? (isActiveFor animalId caller) = some d →
      serve s now (.requestAdoption caller animalId m c)
        = reply s 400 "Adoption request already exists") ∧
    (∀ a poster, findAnimal s animalId = some a → a.status ≠ "adopted" →
      a.posterId ≠ some caller → populate s a.posterId = some poster →
      s.adoptions.find? (isActiveFor animalId caller) = none → c = "" →
      serve s now (.requestAdoption caller animalId m c) = serverError s) ∧
    (∀ a poster, findAnimal s animalId = some a → a.status ≠ "adopted" →
      a.posterId ≠ some caller → populate s a.posterId = some poster →
      s.adoptions.find? (isActiveFor animalId caller) = none → c ≠ "" →
      serve s now (.requestAdoption caller animalId m c) =
        ⟨{ s with
            adoptions := s.adoptions ++
              [newAdoption s.nextId animalId caller poster.id m c now]
            nextId := s.nextId + 1 },
          ⟨201, "Adoption request created successfully"⟩,
          [⟨poster.email, "New Adoption Request - Stray2Stay"⟩]⟩) := by
  have hid := findUser_id hu
  refine ⟨?_, ?_, ?_, ?_, ?_, ?_, ?_⟩
  · intro ha
    simp [serve, authenticateToken, hu, requestAdoption, ha]
  · intro a ha hs
    simp [serve, authenticateToken, hu, requestAdoption, ha, hs]
  · intro a ha hs hp
    simp [serve, authenticateToken, hu, requestAdoption, ha, hs, hp]
  · intro a ha hs hp
    have hp2 : populate s a.posterId = some u := by rw [hp]; exact hu
    simp [serve, authenticateToken, hu, requestAdoption, ha, hs, hp2]
  · intro a poster d ha hs hne hp hd
    have hne2 : ¬ poster.id = u.id := poster_ne_caller hp hu hne
    rw [← hid] at hd
    simp [serve, authenticateToken, hu, requestAdoption, ha, hs, hp, hne2, hd]
  · intro a poster ha hs hne hp hd hc
    have hne2 : ¬ poster.id = u.id := poster_ne_caller hp hu hne
    rw [← hid] at hd
    simp [serve, authenticateToken, hu, requestAdoption, ha, hs, hp, hne2, hd, hc,
      validAdoption_newAdoption]
  · intro a poster ha hs hne hp hd hc
    have hne2 : ¬ poster.id = u.id := poster_ne_caller hp hu hne
    subst hid
    simp [serve, authenticateToken, hu, requestAdoption, ha, hs, hp, hne2, hd, hc,
      validAdoption_newAdoption]

theorem find_isActiveFor_none_iff (s : Store) (animalId caller : Id) :
    s.adoptions.find? (isActiveFor animalId caller) = none ↔
      ∀ d ∈ s.adoptions, isActiveFor animalId caller d = false := by
  rw [List.find?_eq_none]
  constructor
  · intro h d hd; simpa using h d hd
  · intro h d hd; simpa using h d hd

/-- An authenticated requestAdoption answers 201 exactly when every guard is
passed, the poster reference resolves and the contact string is non-empty. -/
theorem requestAdoption_created_iff (s : Store) (now : Date) (caller animalId : Id)
    (m c : String) (u : User) (hu : findUser s caller = some u) :
    (serve s now (.requestAdoption caller animalId m c)).response.code = 201 ↔
      ∃ a poster, findAnimal s animalId = some a ∧ a.status ≠ "adopted" ∧
        a.posterId ≠ some caller ∧ populate s a.posterId = some poster ∧
        (∀ d ∈ s.adoptions, isActiveFor animalId caller d = false) ∧ c ≠ "" := by
  obtain ⟨b1, b2, b3, b4, b5, b6, b7⟩ := serve_requestAdoption s now caller animalId m c u hu
  constructor
  · intro h201
    cases ha : findAnimal s animalId with
    | none => rw [b1 ha] at h201; simp [reply] at h201
    | some a =>
      by_cases hs : a.status = "adopted"
      · rw [b2 a ha hs] at h201; simp [reply] at h201
      · by_cases hp : a.posterId = some caller
        · rw [b4 a ha hs hp] at h201; simp [reply] at h201
        · cases hposter : populate s a.posterId with
          | none => rw [b3 a ha hs hposter] at h201; simp [serverError, reply] at h201
          | some poster =>
            cases hf : s.adoptions.find? (isActiveFor animalId caller) with
            | some d1 =>
              rw [b5 a poster d1 ha hs hp hposter hf] at h201; simp [reply] at h201
            | none =>
              by_cases hc : c = ""
              · rw [b6 a poster ha hs hp hposter hf hc] at h201
                simp [serverError, reply] at h201
              · exact ⟨a, poster, rfl, hs, hp, hposter,
                  (find_isActiveFor_none_iff s animalId caller).mp hf, hc⟩
  · rintro ⟨a, poster, ha, hs, hp, hposter, hnone, hc⟩
    rw [b7 a poster ha hs hp hposter
      ((find_isActiveFor_none_iff s animalId caller).mpr hnone) hc]

/-- C4, as stated, fails. First input: the dog is stored and not adopted, U is
not its poster, and no Adoption exists at all, yet a request with an empty
contactInfo does not succeed: the required adopterContact fails validation on
save and the request ends with status 500. Second input: the poster has
rewritten posterId of the dog to an id that is no user; the same holds of a
request with a contact, which ends with status 500 when the null poster is
read. -/
theorem C4_counterexample :
    ((∃ a, findAnimal listed 1 = some a ∧ a.status ≠ "adopted" ∧ a.posterId ≠ some 2) ∧
      listed.adoptions = [] ∧
      (serve listed 3 (.requestAdoption 2 1 "hi" "")).response.code = 500) ∧
    ((∃ a, findAnimal (run listed [(3, .update 0 1 (posterPatch 9) [])]) 1 = some a ∧
        a.status ≠ "adopted" ∧ a.posterId ≠ some 2) ∧
      (run listed [(3, .update 0 1 (posterPatch 9) [])]).adoptions = [] ∧
      (serve (run listed [(3, .update 0 1 (posterPatch 9) [])]) 4
        (.requestAdoption 2 1 "hi" "u@x")).response.code = 500) := by
  decide

/-- C4, amended: requestAdoption checks its preconditions in this order and the
first failure wins: animal missing gives 404 NotFound; status adopted gives the
already-adopted conflict; posterId equal to the caller gives the self-adoption
conflict; an existing pending or approved Adoption for (animal, caller) gives
the duplicate-request conflict (when the poster reference resolves). It
succeeds exactly when none of these holds, the poster reference resolves to a
stored user and contactInfo is non-empty; whenever it does not succeed the
store is unchanged, so no Adoption is created. -/
theorem C4_requestAdoption_guards (s : Store) (now : Date) (caller animalId : Id)
    (m c : String) (u : User) (hu : findUser s caller = some u) :
    (findAnimal s animalId = none →
      (serve s now (.requestAdoption caller animalId m c)).response
        = ⟨404, "Animal not found"⟩) ∧
    (∀ a, findAnimal s animalId = some a → a.status = "adopted" →
      (serve s now (.requestAdoption caller animalId m c)).response
        = ⟨400, "Animal has already been adopted"⟩) ∧
    (∀ a, findAnimal s animalId = some a → a.status ≠ "adopted" → a.posterId = some caller →
      (serve s now (.requestAdoption caller animalId m c)).response
        = ⟨400, "Cannot adopt your own listing"⟩) ∧
    (∀ a poster, findAnimal s animalId = some a → a.status ≠ "adopted" →
      a.posterId ≠ some caller → populate s a.posterId = some poster →
      (∃ d ∈ s.adoptions, isActiveFor animalId caller d = true) →
      (serve s now (.requestAdoption caller animalId m c)).response
        = ⟨400, "Adoption request already exists"⟩) ∧
    ((serve s now (.requestAdoption caller animalId m c)).response.code = 201 ↔
      ∃ a poster, findAnimal s animalId = some a ∧ a.status ≠ "adopted" ∧
        a.posterId ≠ some caller ∧ populate s a.posterId = some poster ∧
        (∀ d ∈ s.adoptions, isActiveFor animalId caller d = false) ∧ c ≠ "") ∧
    ((serve s now (.requestAdoption caller animalId m c)).response.code ≠ 201 →
      (serve s now (.requestAdoption caller animalId m c)).store = s) := by
  obtain ⟨b1, b2, b3, b4, b5, b6, b7⟩ := serve_requestAdoption s now caller animalId m c u hu
  refine ⟨?_, ?_, ?_, ?_, ?_, ?_⟩
  · intro ha; rw [b1 ha]; rfl
  · intro a ha hs; rw [b2 a ha hs]; rfl
  · intro a ha hs hp; rw [b4 a ha hs hp]; rfl
  · intro a poster ha hs hne hp ⟨d, hd, hact⟩
    cases hf : s.adoptions.find? (isActiveFor animalId caller) with
    | none =>
      have := (find_isActiveFor_none_iff s animalId caller).mp hf d hd
      rw [this] at hact; cases hact
    | some d1 => rw [b5 a poster d1 ha hs hne hp hf]; rfl
  · exact requestAdoption_created_iff s now caller animalId m c u hu
  · intro hne
    cases ha : findAnimal s animalId with
    | none => rw [b1 ha]; rfl
    | some a =>
      by_cases hs : a.status = "adopted"
      · rw [b2 a ha hs]; rfl
      · by_cases hp : a.posterId = some caller
        · rw [b4 a ha hs hp]; rfl
        · cases hposter : populate s a.posterId with
          | none => rw [b3 a ha hs hposter]; rfl
          | some poster =>
            cases hf : s.adoptions.find? (isActiveFor animalId caller) with
            | some d1 => rw [b5 a poster d1 ha hs hp hposter hf]; rfl
            | none =>
              by_cases hc : c = ""
              · rw [b6 a poster ha hs hp hposter hf hc]; rfl
              · rw [b7 a poster ha hs hp hposter hf hc] at hne
                exact absurd rfl hne

/-- Witness for C4: in the store where U already has a pending request on the
dog, a second request by U gets the duplicate-request conflict. -/
theorem C4_requestAdoption_guards_witness :
    (serve requested 4 (.requestAdoption 2 1 "again" "u@x")).response
      = ⟨400, "Adoption request already exists"⟩ :=
  (C4_requestAdoption_guards requested 4 2 1 "again" "u@x" ⟨2, "U", "u@x", true, 0, 0⟩
    (by decide)).2.2.2.1 (requested.animals.head (by decide)) ⟨0, "P", "p@x", true, 1, 0⟩
    (by decide) (by decide) (by decide) (by decide)
    ⟨newAdoption 3 1 2 0 "hi" "u@x" 3, by decide, by decide⟩

/-! ### C5 -/

/-- C5: for every stored user and every stored animal whose posterId is that
user, requestAdoption by that user is answered with status 400 (a conflict:
neither success nor 404), whatever the status of the animal and whatever
Adoptions exist, and the store is unchanged, so no Adoption is created. -/
theorem C5_own_animal_conflict (s : Store) (now : Date) (caller animalId : Id) (m c : String)
    (u : User) (a : Animal) (hu : findUser s caller = some u)
    (ha : findAnimal s animalId = some a) (hp : a.posterId = some caller) :
    (serve s now (.requestAdoption caller animalId m c)).response.code = 400 ∧
    (serve s now (.requestAdoption caller animalId m c)).store = s := by
  obtain ⟨_, b2, _, b4, _⟩ := serve_requestAdoption s now caller animalId m c u hu
  by_cases hs : a.status = "adopted"
  · rw [b2 a ha hs]; exact ⟨rfl, rfl⟩
  · rw [b4 a ha hs hp]; exact ⟨rfl, rfl⟩

/-- Witness for C5: the poster P requests the dog P listed. -/
theorem C5_own_animal_conflict_witness :
    (serve listed 3 (.requestAdoption 0 1 "mine" "p@x")).response.code = 400 ∧
    (serve listed 3 (.requestAdoption 0 1 "mine" "p@x")).store = listed :=
  C5_own_animal_conflict listed 3 0 1 "mine" "p@x" ⟨0, "P", "p@x", true, 1, 0⟩
    (listed.animals.head (by decide)) (by decide) (by decide) (by decide)

/-! ### C7 -/

/-- C7: a successful requestAdoption appends exactly one Adoption whose animal
is the requested animal, whose adopter is the caller, whose poster is the
posterId of the animal at that moment, with status pending, no adoption date
and the given message and contactInfo; the Animal and User collections are
unchanged. -/
theorem C7_requestAdoption_success (s : Store) (now : Date) (caller animalId : Id)
    (m c : String)
    (h : (serve s now (.requestAdoption caller animalId m c)).response.code = 201) :
    ∃ a d, findAnimal s animalId = some a ∧
      (serve s now (.requestAdoption caller animalId m c)).store.adoptions
        = s.adoptions ++ [d] ∧
      d.animal = animalId ∧ d.adopter = caller ∧ a.posterId = some d.poster ∧
      d.status = "pending" ∧ d.adoptionDate = none ∧ d.adopterMessage = m ∧
      d.adopterContact = c ∧
      (serve s now (.requestAdoption caller animalId m c)).store.animals = s.animals ∧
      (serve s now (.requestAdoption caller animalId m c)).store.users = s.users := by
  cases hu : findUser s caller with
  | none => simp [serve, authenticateToken, hu, reply] at h
  | some u =>
    obtain ⟨a, poster, ha, hs, hp, hposter, hnone, hc⟩ :=
      (requestAdoption_created_iff s now caller animalId m c u hu).mp h
    obtain ⟨_, _, _, _, _, _, b7⟩ := serve_requestAdoption s now caller animalId m c u hu
    have e := b7 a poster ha hs hp hposter
      ((find_isActiveFor_none_iff s animalId caller).mpr hnone) hc
    refine ⟨a, newAdoption s.nextId animalId caller poster.id m c now, ha, ?_, rfl, rfl,
      populate_id hposter, rfl, rfl, rfl, rfl, ?_, ?_⟩ <;> rw [e]

/-- Witness for C7: the first request of U on the dog. -/
theorem C7_requestAdoption_success_witness :
    ∃ a d, findAnimal listed 1 = some a ∧
      (serve listed 3 (.requestAdoption 2 1 "hi" "u@x")).store.adoptions
        = listed.adoptions ++ [d] ∧
      d.animal = 1 ∧ d.adopter = 2 ∧ a.posterId = some d.poster ∧
      d.status = "pending" ∧ d.adoptionDate = none ∧ d.adopterMessage = "hi" ∧
      d.adopterContact = "u@x" ∧
      (serve listed 3 (.requestAdoption 2 1 "hi" "u@x")).store.animals = listed.animals ∧
      (serve listed 3 (.requestAdoption 2 1 "hi" "u@x")).store.users = listed.users :=
  C7_requestAdoption_success listed 3 2 1 "hi" "u@x" (by decide)

/-! ## C6: the duplicate guard along a run -/

theorem step_tracksRequest {s : Store} {now : Date} {op : Op} {s1 : Store}
    (h : Step s now op s1) (k animalId adopter : Id) (hj : TracksRequest k animalId adopter s) :
    TracksRequest k animalId adopter s1 := by
  have hn := step_nextId h
  refine ⟨Nat.lt_of_lt_of_le hj.1 hn, ?_⟩
  intro d1 hd1
  rcases step_adoptions h d1 hd1 with hold | ⟨caller, aid, m, c, u, a, poster, _, _, _, _, _, _,
      hnext, hd⟩ | ⟨caller, id, status, notes, d, _, hd, _, hid, han, had, _, _⟩
  · exact ⟨Nat.lt_of_lt_of_le (hj.2 d1 hold).1 hn, (hj.2 d1 hold).2⟩
  · subst hd
    refine ⟨?_, ?_⟩
    · show s.nextId < s1.nextId
      rw [hnext]; exact Nat.lt_succ_self _
    · intro hk
      have hk' : s.nextId = k := hk
      exact absurd hj.1 (by rw [hk']; exact Nat.lt_irrefl _)
  · obtain ⟨i1, i2⟩ := hj.2 d (mem_of_find _ _ _ hd)
    refine ⟨by rw [hid]; exact Nat.lt_of_lt_of_le i1 hn, ?_⟩
    intro hk
    rw [han, had]
    exact i2 (by rw [← hid]; exact hk)

theorem run_tracksRequest (tr : List (Date × Op)) (s : Store) (k animalId adopter : Id)
    (hj : TracksRequest k animalId adopter s) : TracksRequest k animalId adopter (run s tr) := by
  induction tr generalizing s with
  | nil => exact hj
  | cons x rest ih => exact ih _ (step_tracksRequest (serve_step s x.1 x.2) _ _ _ hj)

theorem run_findUser (tr : List (Date × Op)) (s : Store) (i : Id)
    (h : (findUser s i).isSome = true) : (findUser (run s tr) i).isSome = true := by
  induction tr generalizing s with
  | nil => exact h
  | cons x rest ih => exact ih _ (step_findUser (serve_step s x.1 x.2) i h)

/-- C6: let requestAdoption by an adopter on an animal succeed in a state of
the service, creating the Adoption with the id the counter stood at. After any
sequence of further requests that leaves this Adoption pending or approved and
leaves the animal stored under the same poster, a second requestAdoption by
the same adopter on the same animal is answered 400 and leaves the store
unchanged, so the number of Adoptions does not grow. -/
theorem C6_duplicate_guard (s0 : Store) (t1 t2 : Date) (caller animalId : Id)
    (m c m2 c2 : String) (tr : List (Date × Op)) (a0 : Animal) (hr : Reachable s0)
    (h1 : (serve s0 t1 (.requestAdoption caller animalId m c)).response.code = 201)
    (ha0 : findAnimal s0 animalId = some a0)
    (hactive : ∃ d,
      findAdoption (run (serve s0 t1 (.requestAdoption caller animalId m c)).store tr) s0.nextId
        = some d ∧ (d.status = "pending" ∨ d.status = "approved"))
    (hanimal : ∃ a2,
      findAnimal (run (serve s0 t1 (.requestAdoption caller animalId m c)).store tr) animalId
        = some a2 ∧ a2.posterId = a0.posterId) :
    (serve (run (serve s0 t1 (.requestAdoption caller animalId m c)).store tr) t2
      (.requestAdoption caller animalId m2 c2)).response.code = 400 ∧
    (serve (run (serve s0 t1 (.requestAdoption caller animalId m c)).store tr) t2
      (.requestAdoption caller animalId m2 c2)).store
      = run (serve s0 t1 (.requestAdoption caller animalId m c)).store tr ∧
    (serve (run (serve s0 t1 (.requestAdoption caller animalId m c)).store tr) t2
      (.requestAdoption caller animalId m2 c2)).store.adoptions.length
      = (run (serve s0 t1 (.requestAdoption caller animalId m c)).store tr).adoptions.length := by
  cases hu : findUser s0 caller with
  | none => simp [serve, authenticateToken, hu, reply] at h1
  | some u =>
    obtain ⟨a, poster, ha, hs, hp, hposter, hnone, hc⟩ :=
      (requestAdoption_created_iff s0 t1 caller animalId m c u hu).mp h1
    obtain ⟨_, _, _, _, _, _, b7⟩ := serve_requestAdoption s0 t1 caller animalId m c u hu
    have e := b7 a poster ha hs hp hposter
      ((find_isActiveFor_none_iff s0 animalId caller).mpr hnone) hc
    have haa : a = a0 := Option.some.inj (ha.symm.trans ha0)
    subst haa
    -- the store after the first request
    have hj1 : TracksRequest s0.nextId animalId caller
        (serve s0 t1 (.requestAdoption caller animalId m c)).store := by
      rw [e]
      refine ⟨Nat.lt_succ_self _, ?_⟩
      intro d hd
      simp only [List.mem_append, List.mem_singleton] at hd
      rcases hd with hd | hd
      · have hlt := (reachable_wellFormed hr d hd).2.2.2
        exact ⟨Nat.lt_succ_of_lt hlt, fun hk => absurd hlt (by rw [hk]; exact Nat.lt_irrefl _)⟩
      · subst hd
        exact ⟨Nat.lt_succ_self _, fun _ => ⟨rfl, rfl⟩⟩
    have hu1 : (findUser (serve s0 t1 (.requestAdoption caller animalId m c)).store caller).isSome
        = true := by
      rw [e]; show (findUser s0 caller).isSome = true; rw [hu]; rfl
    have hpid : a.posterId = some poster.id := populate_id hposter
    have hfound : findUser s0 poster.id = some poster := by
      have h0 := hposter
      rw [hpid, populate_some] at h0
      exact h0
    have hp1 : (findUser (serve s0 t1 (.requestAdoption caller animalId m c)).store
        poster.id).isSome = true := by
      rw [e]; show (findUser s0 poster.id).isSome = true; rw [hfound]; rfl
    generalize (serve s0 t1 (.requestAdoption caller animalId m c)).store = s1
      at hactive hanimal hj1 hu1 hp1 ⊢
    have hj2 := run_tracksRequest tr s1 _ _ _ hj1
    have hu2 := run_findUser tr s1 caller hu1
    have hp2 := run_findUser tr s1 poster.id hp1
    generalize run s1 tr = s2 at hactive hanimal hj2 hu2 hp2 ⊢
    obtain ⟨d, hd, hdst⟩ := hactive
    obtain ⟨a2, ha2, hpost⟩ := hanimal
    have hdmem : d ∈ s2.adoptions := mem_of_find _ _ _ hd
    obtain ⟨hda, hdad⟩ := (hj2.2 d hdmem).2 (findAdoption_id hd)
    have hact : isActiveFor animalId caller d = true := by
      simp [isActiveFor, hda, hdad]; exact hdst
    have hstore : (serve s2 t2 (.requestAdoption caller animalId m2 c2)).response.code = 400 ∧
        (serve s2 t2 (.requestAdoption caller animalId m2 c2)).store = s2 := by
      cases hu2' : findUser s2 caller with
      | none => rw [hu2'] at hu2; cases hu2
      | some u2 =>
        obtain ⟨_, c2', _, _, c5, _, _⟩ :=
          serve_requestAdoption s2 t2 caller animalId m2 c2 u2 hu2'
        by_cases hs2 : a2.status = "adopted"
        · rw [c2' a2 ha2 hs2]; exact ⟨rfl, rfl⟩
        · cases hp2' : populate s2 a2.posterId with
          | none =>
            rw [hpost, hpid, populate_some] at hp2'
            rw [hp2'] at hp2; cases hp2
          | some poster2 =>
            cases hf : s2.adoptions.find? (isActiveFor animalId caller) with
            | none =>
              have := (find_isActiveFor_none_iff s2 animalId caller).mp hf d hdmem
              rw [this] at hact; cases hact
            | some d2 =>
              rw [c5 a2 poster2 d2 ha2 hs2 (by rw [hpost]; exact hp) hp2' hf]
              exact ⟨rfl, rfl⟩
    exact ⟨hstore.1, hstore.2, by rw [hstore.2]⟩

/-- Witness for C6: U requests the dog, the poster approves, a third user
registers and expresses interest, and U requests the dog again. -/
theorem C6_duplicate_guard_witness :
    (serve (run (serve listed 3 (.requestAdoption 2 1 "hi" "u@x")).store
        [(4, .updateStatus 0 3 "approved" none), (5, .register "V" "v@x" false),
         (6, .expressInterest 4 1 "me too" "v@x")]) 7
      (.requestAdoption 2 1 "again" "u@x")).response.code = 400 ∧
    (serve (run (serve listed 3 (.requestAdoption 2 1 "hi" "u@x")).store
        [(4, .updateStatus 0 3 "approved" none), (5, .register "V" "v@x" false),
         (6, .expressInterest 4 1 "me too" "v@x")]) 7
      (.requestAdoption 2 1 "again" "u@x")).store
      = run (serve listed 3 (.requestAdoption 2 1 "hi" "u@x")).store
        [(4, .updateStatus 0 3 "approved" none), (5, .register "V" "v@x" false),
         (6, .expressInterest 4 1 "me too" "v@x")] ∧
    (serve (run (serve listed 3 (.requestAdoption 2 1 "hi" "u@x")).store
        [(4, .updateStatus 0 3 "approved" none), (5, .register "V" "v@x" false),
         (6, .expressInterest 4 1 "me too" "v@x")]) 7
      (.requestAdoption 2 1 "again" "u@x")).store.adoptions.length
      = (run (serve listed 3 (.requestAdoption 2 1 "hi" "u@x")).store
        [(4, .updateStatus 0 3 "approved" none), (5, .register "V" "v@x" false),
         (6, .expressInterest 4 1 "me too" "v@x")]).adoptions.length :=
  C6_duplicate_guard listed 3 7 2 1 "hi" "u@x" "again" "u@x"
    [(4, .updateStatus 0 3 "approved" none), (5, .register "V" "v@x" false),
     (6, .expressInterest 4 1 "me too" "v@x")]
    (listed.animals.head (by decide)) (reachable_run Reachable.init _) (by decide) (by decide)
    ⟨(newAdoption 3 1 2 0 "hi" "u@x" 3).setStatus "approved" "", by decide, by decide⟩
    ⟨(run (serve listed 3 (.requestAdoption 2 1 "hi" "u@x")).store
        [(4, .updateStatus 0 3 "approved" none), (5, .register "V" "v@x" false),
         (6, .expressInterest 4 1 "me too" "v@x")]).animals.head (by decide),
      by decide, by decide⟩

/-! ## C8, C9, C10: updateStatus -/

/-- C8: in every state of the service, updateStatus by an authenticated caller
who is not the stored poster of the Adoption is answered 403 Not authorized for
every newStatus and every notes, and the whole store (the Adoption, the
referenced Animal, all users) is unchanged; on a missing adoption id the answer
is 404 and the store is unchanged. -/
theorem C8_updateStatus_only_poster (s : Store) (now : Date) (caller id : Id)
    (status : String) (notes : Option String) (u : User) (hr : Reachable s)
    (hu : findUser s caller = some u) :
    (findAdoption s id = none →
      serve s now (.updateStatus caller id status notes) = reply s 404 "Adoption not found") ∧
    (∀ d, findAdoption s id = some d → d.poster ≠ caller →
      serve s now (.updateStatus caller id status notes) = reply s 403 "Not authorized") := by
  constructor
  · intro hd
    simp [serve, authenticateToken, hu, updateStatus, hd]
  · intro d hd hne
    obtain ⟨h1, _, _, _⟩ := reachable_wellFormed hr d (mem_of_find _ _ _ hd)
    cases hp : findUser s d.poster with
    | none => rw [hp] at h1; cases h1
    | some poster =>
      have hpid := findUser_id hp
      have hid := findUser_id hu
      have hne2 : ¬ poster.id = u.id := by rw [hpid, hid]; exact hne
      simp [serve, authenticateToken, hu, updateStatus, hd, hp, hne2]

/-- Witness for C8: the adopter U tries to complete the request U filed. -/
theorem C8_updateStatus_only_poster_witness :
    serve requested 4 (.updateStatus 2 3 "completed" none) = reply requested 403 "Not authorized" :=
  (C8_updateStatus_only_poster requested 4 2 3 "completed" none ⟨2, "U", "u@x", true, 0, 0⟩
    (reachable_run (reachable_run Reachable.init _) _) (by decide)).2
    (requested.adoptions.head (by decide)) (by decide) (by decide)

/-- The outcome of updateStatus by the poster in a state of the service, when
the referenced Animal is still stored and the new status is one of the four
of the schema. -/
theorem serve_updateStatus_poster (s : Store) (now : Date) (id : Id) (status : String)
    (notes : Option String) (d : Adoption) (a : Animal) (hr : Reachable s)
    (hd : findAdoption s id = some d) (ha : findAnimal s d.animal = some a)
    (hst : status ∈ adoptionStatuses) :
    ∃ adopter, findUser s d.adopter = some adopter ∧
      serve s now (.updateStatus d.poster id status notes) =
        if status = "completed" then
          ⟨{ s with
              animals := updateFirst (fun x => x.id == d.animal)
                (fun x => x.confirm d.adopter now) s.animals
              adoptions := updateFirst (fun x => x.id == id)
                (fun x => (x.setStatus status (notesAfter notes d.notes)).setDate now)
                s.adoptions },
            ⟨200, "Adoption status updated successfully"⟩,
            [⟨adopter.email, "Adoption Request Update - Stray2Stay"⟩]⟩
        else
          ⟨{ s with
              adoptions := updateFirst (fun x => x.id == id)
                (fun x => x.setStatus status (notesAfter notes d.notes)) s.adoptions },
            ⟨200, "Adoption status updated successfully"⟩,
            [⟨adopter.email, "Adoption Request Update - Stray2Stay"⟩]⟩ := by
  obtain ⟨h1, h2, h3, _⟩ := reachable_wellFormed hr d (mem_of_find _ _ _ hd)
  cases hp : findUser s d.poster with
  | none => rw [hp] at h1; cases h1
  | some poster =>
    cases hadopter : findUser s d.adopter with
    | none => rw [hadopter] at h2; cases h2
    | some adopter =>
      refine ⟨adopter, rfl, ?_⟩
      have haid := findAnimal_id ha
      have hadid := findUser_id hadopter
      have hc : d.adopterContact ≠ "" := by
        simp [validAdoption] at h3; exact h3.2
      have hv1 : validAdoption (d.setStatus status (notesAfter notes d.notes)) = true := by
        simp [validAdoption, Adoption.setStatus, hst, hc]
      have hv2 : validAdoption ((d.setStatus status (notesAfter notes d.notes)).setDate now)
          = true := by
        simp [validAdoption, Adoption.setStatus, Adoption.setDate, hst, hc]
      by_cases hcomp : status = "completed"
      · simp [serve, authenticateToken, updateStatus, hd, hp, ha, hadopter, hcomp, haid, hadid]
        simp [hcomp] at hv2
        simp [hv2]
      · simp [serve, authenticateToken, updateStatus, hd, hp, ha, hadopter, hcomp, hv1]

theorem find_updateFirst_same {α : Type} (key : α → Nat) (f : α → α) (i : Nat) (l : List α)
    (x : α) (hf : ∀ y, key (f y) = key y) (h : l.find? (fun y => key y == i) = some x) :
    (updateFirst (fun y => key y == i) f l).find? (fun y => key y == i) = some (f x) := by
  rw [find_updateFirst key f i i l hf, if_pos rfl, h]; rfl

/-- C9: in every state of the service, when the poster of an Adoption whose
Animal is still stored calls updateStatus with newStatus completed, the request
succeeds; afterwards the Adoption has status completed and an adoption date,
and the referenced Animal has status adopted, adopterId equal to the adopter of
the Adoption, and an adoption date, whatever its status and adopterId were
before. -/
theorem C9_completed_adopts_animal (s : Store) (now : Date) (id : Id) (notes : Option String)
    (d : Adoption) (a : Animal) (hr : Reachable s) (hd : findAdoption s id = some d)
    (ha : findAnimal s d.animal = some a) :
    (serve s now (.updateStatus d.poster id "completed" notes)).response.code = 200 ∧
    (∃ d1, findAdoption (serve s now (.updateStatus d.poster id "completed" notes)).store id
        = some d1 ∧ d1.status = "completed" ∧ d1.adoptionDate = some now) ∧
    (∃ a1, findAnimal (serve s now (.updateStatus d.poster id "completed" notes)).store d.animal
        = some a1 ∧ a1.status = "adopted" ∧ a1.adopterId = some d.adopter ∧
        a1.adoptionDate = some now) := by
  obtain ⟨adopter, _, e⟩ := serve_updateStatus_poster s now id "completed" notes d a hr hd ha
    (by decide)
  rw [e, if_pos rfl]
  refine ⟨rfl, ⟨(d.setStatus "completed" (notesAfter notes d.notes)).setDate now, ?_, rfl, rfl⟩,
    ⟨a.confirm d.adopter now, ?_, rfl, rfl, rfl⟩⟩
  · exact find_updateFirst_same Adoption.id
      (fun x => (x.setStatus "completed" (notesAfter notes d.notes)).setDate now) id
      s.adoptions d (fun _ => rfl) hd
  · exact find_updateFirst_same Animal.id (fun x => x.confirm d.adopter now) d.animal
      s.animals a (fun _ => rfl) ha

/-- Witness for C9: the poster completes the request of U on the dog, which
was never marked adopted. -/
theorem C9_completed_adopts_animal_witness :
    (serve requested 4 (.updateStatus 0 3 "completed" none)).response.code = 200 ∧
    (∃ d1, findAdoption (serve requested 4 (.updateStatus 0 3 "completed" none)).store 3
        = some d1 ∧ d1.status = "completed" ∧ d1.adoptionDate = some 4) ∧
    (∃ a1, findAnimal (serve requested 4 (.updateStatus 0 3 "completed" none)).store 1
        = some a1 ∧ a1.status = "adopted" ∧ a1.adopterId = some 2 ∧
        a1.adoptionDate = some 4) :=
  C9_completed_adopts_animal requested 4 3 none (newAdoption 3 1 2 0 "hi" "u@x" 3)
    (requested.animals.head (by decide))
    (reachable_run (reachable_run Reachable.init _) _) (by decide) (by decide)

/-- C10, as stated, fails: after the poster deleted the dog, the request of U
is still pending; updateStatus by the poster with newStatus completed is
answered 500 and the Adoption stays pending. -/
theorem C10_counterexample :
    Reachable (run requested [(4, .delete 0 1)]) ∧
    (findAdoption (run requested [(4, .delete 0 1)]) 3).map (fun d => (d.poster, d.status))
      = some (0, "pending") ∧
    (serve (run requested [(4, .delete 0 1)]) 5
      (.updateStatus 0 3 "completed" none)).response.code = 500 ∧
    (findAdoption (serve (run requested [(4, .delete 0 1)]) 5
      (.updateStatus 0 3 "completed" none)).store 3).map (fun d => d.status)
      = some "pending" := by
  refine ⟨reachable_run (reachable_run (reachable_run Reachable.init _) _) _, ?_⟩
  decide

/-- C10, amended: updateStatus enforces no transition constraints: in every
state of the service, for an Adoption whose Animal is still stored, whatever
its current status, and every newStatus among pending, approved, completed and
cancelled, a call by the poster succeeds and the status of the Adoption becomes
newStatus. -/
theorem C10_any_transition (s : Store) (now : Date) (id : Id) (status : String)
    (notes : Option String) (d : Adoption) (a : Animal) (hr : Reachable s)
    (hd : findAdoption s id = some d) (ha : findAnimal s d.animal = some a)
    (hst : status ∈ adoptionStatuses) :
    (serve s now (.updateStatus d.poster id status notes)).response.code = 200 ∧
    ∃ d1, findAdoption (serve s now (.updateStatus d.poster id status notes)).store id
        = some d1 ∧ d1.status = status := by
  obtain ⟨adopter, _, e⟩ := serve_updateStatus_poster s now id status notes d a hr hd ha hst
  rw [e]
  by_cases hcomp : status = "completed"
  · rw [if_pos hcomp]
    refine ⟨rfl, (d.setStatus status (notesAfter notes d.notes)).setDate now, ?_, rfl⟩
    exact find_updateFirst_same Adoption.id
      (fun x => (x.setStatus status (notesAfter notes d.notes)).setDate now) id
      s.adoptions d (fun _ => rfl) hd
  · rw [if_neg hcomp]
    refine ⟨rfl, d.setStatus status (notesAfter notes d.notes), ?_, rfl⟩
    exact find_updateFirst_same Adoption.id
      (fun x => x.setStatus status (notesAfter notes d.notes)) id
      s.adoptions d (fun _ => rfl) hd

/-- Witness for C10: a completed Adoption is set back to pending by the poster. -/
theorem C10_any_transition_witness :
    (serve (run requested [(4, .updateStatus 0 3 "completed" none)]) 5
      (.updateStatus 0 3 "pending" none)).response.code = 200 ∧
    ∃ d1, findAdoption (serve (run requested [(4, .updateStatus 0 3 "completed" none)]) 5
      (.updateStatus 0 3 "pending" none)).store 3 = some d1 ∧ d1.status = "pending" :=
  C10_any_transition (run requested [(4, .updateStatus 0 3 "completed" none)]) 5 3 "pending"
    none (((newAdoption 3 1 2 0 "hi" "u@x" 3).setStatus "completed" "").setDate 4)
    ((run requested [(4, .updateStatus 0 3 "completed" none)]).animals.head (by decide))
    (reachable_run (reachable_run (reachable_run Reachable.init _) _) _)
    (by decide) (by decide) (by decide)

/-! ## The listing routes, branch by branch -/

/-- The outcome of an authenticated delete, in the order of the source. -/
theorem serve_delete (s : Store) (now : Date) (caller id : Id) (u : User)
    (hu : findUser s caller = some u) :
    (findAnimal s id = none →
      serve s now (.delete caller id) = reply s 404 "Animal not found") ∧
    (∀ a, findAnimal s id = some a → a.posterId = none →
      serve s now (.delete caller id) = serverError s) ∧
    (∀ a poster, findAnimal s id = some a → a.posterId = some poster → poster ≠ caller →
      serve s now (.delete caller id) = reply s 403 "Not authorized to delete this listing") ∧
    (∀ a, findAnimal s id = some a → a.posterId = some caller →
      serve s now (.delete caller id) =
        ⟨{ s with
            animals := s.animals.eraseP (fun x => x.id == id)
            users := updateFirst (fun x => x.id == caller) (fun x => x.addRescued (-1))
              s.users },
          ⟨200, "Animal listing deleted successfully"⟩, []⟩) := by
  have hid := findUser_id hu
  subst hid
  refine ⟨?_, ?_, ?_, ?_⟩
  · intro ha
    simp [serve, authenticateToken, hu, delete, ha]
  · intro a ha hp
    simp [serve, authenticateToken, hu, delete, ha, hp]
  · intro a poster ha hp hne
    simp [serve, authenticateToken, hu, delete, ha, hp, hne]
  · intro a ha hp
    simp [serve, authenticateToken, hu, delete, ha, hp]

/-- A request whose files the upload middleware refuses never reaches the
update handler. -/
theorem serve_update_refused (s : Store) (now : Date) (caller id : Id) (p : AnimalPatch)
    (files : List Upload) (u : User) (e : String) (hu : findUser s caller = some u)
    (hfl : uploadError 5 files = some e) :
    serve s now (.update caller id p files) = reply s 500 e := by
  simp [serve, authenticateToken, hu, uploadArray, hfl]

/-- The guards of an authenticated update that passed the upload middleware. -/
theorem serve_update (s : Store) (now : Date) (caller id : Id) (p : AnimalPatch)
    (files : List Upload) (u : User) (hu : findUser s caller = some u)
    (hfl : uploadError 5 files = none) :
    (findAnimal s id = none →
      serve s now (.update caller id p files) = reply s 404 "Animal not found") ∧
    (∀ a, findAnimal s id = some a → a.posterId = none →
      serve s now (.update caller id p files) = serverError s) ∧
    (∀ a poster, findAnimal s id = some a → a.posterId = some poster → poster ≠ caller →
      serve s now (.update caller id p files)
        = reply s 403 "Not authorized to update this listing") ∧
    (∀ a, findAnimal s id = some a → a.posterId = some caller →
      p.location = .set none ∨ p.rejected = true →
      serve s now (.update caller id p files) = serverError s) ∧
    (∀ a, findAnimal s id = some a → a.posterId = some caller → p.location ≠ .set none →
      p.rejected = false →
      serve s now (.update caller id p files) =
        ⟨{ s with
            animals := updateFirst (fun x => x.id == id) (applyPatch p files a.photos)
              s.animals },
          ⟨200, "Animal updated successfully"⟩, []⟩) := by
  have hid := findUser_id hu
  subst hid
  refine ⟨?_, ?_, ?_, ?_, ?_⟩
  · intro ha
    simp [serve, authenticateToken, hu, uploadArray, hfl, update, ha]
  · intro a ha hp
    simp [serve, authenticateToken, hu, uploadArray, hfl, update, ha, hp]
  · intro a poster ha hp hne
    simp [serve, authenticateToken, hu, uploadArray, hfl, update, ha, hp, hne]
  · intro a ha hp hl
    rcases hl with hl | hl
    · simp [serve, authenticateToken, hu, uploadArray, hfl, update, ha, hp, hl]
    · by_cases hl2 : p.location = .set none
      · simp [serve, authenticateToken, hu, uploadArray, hfl, update, ha, hp, hl2]
      · simp [serve, authenticateToken, hu, uploadArray, hfl, update, ha, hp, hl, hl2]
  · intro a ha hp hl hr
    simp [serve, authenticateToken, hu, uploadArray, hfl, update, ha, hp, hl, hr]

/-- The outcome of an authenticated markAdopted, in the order of the source. -/
theorem serve_markAdopted (s : Store) (now : Date) (caller id adopterId : Id) (u : User)
    (hu : findUser s caller = some u) :
    (findAnimal s id = none →
      serve s now (.markAdopted caller id adopterId) = reply s 404 "Animal not found") ∧
    (∀ a, findAnimal s id = some a → populate s a.posterId = none →
      serve s now (.markAdopted caller id adopterId) = serverError s) ∧
    (∀ a poster, findAnimal s id = some a → populate s a.posterId = some poster →
      a.posterId ≠ some caller →
      serve s now (.markAdopted caller id adopterId)
        = reply s 403 "Not authorized to update this listing") ∧
    (∀ a, findAnimal s id = some a → a.posterId = some caller → findUser s adopterId = none →
      serve s now (.markAdopted caller id adopterId) = reply s 404 "Adopter not found") ∧
    (∀ a adopter, findAnimal s id = some a → a.posterId = some caller →
      findUser s adopterId = some adopter → validAnimal (a.confirm adopterId now) = false →
      serve s now (.markAdopted caller id adopterId) = serverError s) ∧
    (∀ a adopter, findAnimal s id = some a → a.posterId = some caller →
      findUser s adopterId = some adopter → validAnimal (a.confirm adopterId now) = true →
      serve s now (.markAdopted caller id adopterId) =
        ⟨{ s with
            animals := updateFirst (fun x => x.id == id) (fun x => x.confirm adopterId now)
              s.animals
            users := updateFirst (fun x => x.id == adopterId) (fun x => x.addAdopted 1)
              s.users },
          ⟨200, "Animal marked as adopted successfully"⟩,
          [⟨adopter.email, "Congratulations! Adoption Confirmed - Stray2Stay"⟩]⟩) := by
  have hid := findUser_id hu
  subst hid
  refine ⟨?_, ?_, ?_, ?_, ?_, ?_⟩
  · intro ha
    simp [serve, authenticateToken, hu, markAdopted, ha]
  · intro a ha hp
    simp [serve, authenticateToken, hu, markAdopted, ha, hp]
  · intro a poster ha hp hne
    have hne2 : ¬ poster.id = u.id := poster_ne_caller hp hu hne
    simp [serve, authenticateToken, hu, markAdopted, ha, hp, hne2]
  · intro a ha hp had
    have hp2 : populate s a.posterId = some u := by rw [hp]; exact hu
    simp [serve, authenticateToken, hu, markAdopted, ha, hp2, had]
  · intro a adopter ha hp had hv
    have hp2 : populate s a.posterId = some u := by rw [hp]; exact hu
    simp [serve, authenticateToken, hu, markAdopted, ha, hp2, had, hv]
  · intro a adopter ha hp had hv
    have hp2 : populate s a.posterId = some u := by rw [hp]; exact hu
    simp [serve, authenticateToken, hu, markAdopted, ha, hp2, had, hv]

/-- The outcome of an authenticated expressInterest, in the order of the
source. -/
theorem serve_expressInterest (s : Store) (now : Date) (caller id : Id) (m c : String)
    (u : User) (hu : findUser s caller = some u) :
    (findAnimal s id = none →
      serve s now (.expressInterest caller id m c) = reply s 404 "Animal not found") ∧
    (∀ a, findAnimal s id = some a → a.status = "adopted" →
      serve s now (.expressInterest caller id m c)
        = reply s 400 "Animal has already been adopted") ∧
    (∀ a, findAnimal s id = some a → a.status ≠ "adopted" → populate s a.posterId = none →
      serve s now (.expressInterest caller id m c) = serverError s) ∧
    (∀ a, findAnimal s id = some a → a.status ≠ "adopted" → a.posterId = some caller →
      serve s now (.expressInterest caller id m c)
        = reply s 400 "Cannot express interest in your own listing") ∧
    (∀ a poster, findAnimal s id = some a → a.status ≠ "adopted" → a.posterId ≠ some caller →
      populate s a.posterId = some poster →
      a.interestedUsers.any (fun i => i.user == caller) = true →
      serve s now (.expressInterest caller id m c)
        = reply s 400 "You have already expressed interest in this animal") ∧
    (∀ a poster, findAnimal s id = some a → a.status ≠ "adopted" → a.posterId ≠ some caller →
      populate s a.posterId = some poster →
      a.interestedUsers.any (fun i => i.user == caller) = false →
      validAnimal (a.withInterested (a.interestedUsers ++ [⟨caller, m, c, now⟩])) = false →
      serve s now (.expressInterest caller id m c) = serverError s) ∧
    (∀ a poster, findAnimal s id = some a → a.status ≠ "adopted" → a.posterId ≠ some caller →
      populate s a.posterId = some poster →
      a.interestedUsers.any (fun i => i.user == caller) = false →
      validAnimal (a.withInterested (a.interestedUsers ++ [⟨caller, m, c, now⟩])) = true →
      serve s now (.expressInterest caller id m c) =
        ⟨{ s with
            animals := updateFirst (fun x => x.id == id)
              (fun x => x.withInterested (a.interestedUsers ++ [⟨caller, m, c, now⟩]))
              s.animals },
          ⟨200, "Interest expressed successfully"⟩,
          if poster.adoptionInterest then
            [⟨poster.email, "Someone is interested in adopting your rescued animal!"⟩]
          else []⟩) := by
  have hid := findUser_id hu
  subst hid
  refine ⟨?_, ?_, ?_, ?_, ?_, ?_, ?_⟩
  · intro ha
    simp [serve, authenticateToken, hu, expressInterest, ha]
  · intro a ha hs
    simp [serve, authenticateToken, hu, expressInterest, ha, hs]
  · intro a ha hs hp
    simp [serve, authenticateToken, hu, expressInterest, ha, hs, hp]
  · intro a ha hs hp
    have hp2 : populate s a.posterId = some u := by rw [hp]; exact hu
    simp [serve, authenticateToken, hu, expressInterest, ha, hs, hp2]
  · intro a poster ha hs hne hp hany
    have hne2 : ¬ poster.id = u.id := poster_ne_caller hp hu hne
    simp only [serve, authenticateToken, hu, expressInterest, ha, hp]
    simp [hs, hne2, hany]
  · intro a poster ha hs hne hp hany hv
    have hne2 : ¬ poster.id = u.id := poster_ne_caller hp hu hne
    simp only [serve, authenticateToken, hu, expressInterest, ha, hp]
    simp [hs, hne2, hany, hv]
  · intro a poster ha hs hne hp hany hv
    have hne2 : ¬ poster.id = u.id := poster_ne_caller hp hu hne
    simp only [serve, authenticateToken, hu, expressInterest, ha, hp]
    simp [hs, hne2, hany, hv]

/-- The two ways an authenticated create can end: nothing written and no 201,
or one Animal appended and the rescue counter of the caller raised. -/
theorem serve_create_cases (s : Store) (now : Date) (caller : Id) (r : CreateReq) (u : User)
    (hu : findUser s caller = some u) :
    ((serve s now (.create caller r)).store = s ∧
      (serve s now (.create caller r)).response.code ≠ 201) ∨
    (∃ loc, r.files ≠ [] ∧ uploadError 5 r.files = none ∧
      validAnimal (newAnimal s.nextId caller r loc now) = true ∧
      serve s now (.create caller r) =
        ⟨{ s with
            animals := s.animals ++ [newAnimal s.nextId caller r loc now]
            users := updateFirst (fun x => x.id == caller) (fun x => x.addRescued 1) s.users
            nextId := s.nextId + 1 },
          ⟨201, "Animal listed successfully"⟩,
          [⟨u.email, "Animal Listing Created - Stray2Stay"⟩]⟩) := by
  have hid := findUser_id hu
  subst hid
  cases hfl : uploadError 5 r.files with
  | some e => left; simp [serve, authenticateToken, hu, uploadArray, hfl, reply]
  | none =>
  by_cases hf : r.files = []
  · left
    simp [serve, authenticateToken, hu, uploadArray, uploadError, create, photoRefs, hf, reply]
  cases hl : r.location with
  | none =>
    left
    simp [serve, authenticateToken, hu, uploadArray, hfl, create, photoRefs, hf, hl, reply,
      serverError]
  | some l =>
    cases h1 : l.address with
    | none =>
      left
      simp [serve, authenticateToken, hu, uploadArray, hfl, create, photoRefs, hf, hl, h1,
        reply, serverError]
    | some address =>
      cases h2 : l.lat with
      | none =>
        left
        simp [serve, authenticateToken, hu, uploadArray, hfl, create, photoRefs, hf, hl, h1,
          h2, reply, serverError]
      | some lat =>
        cases h3 : l.lng with
        | none =>
          left
          simp [serve, authenticateToken, hu, uploadArray, hfl, create, photoRefs, hf, hl, h1,
            h2, h3, reply, serverError]
        | some lng =>
          by_cases hv : validAnimal
              (newAnimal s.nextId u.id r ⟨address, lat, lng, l.city, l.state⟩ now) = true
          · right
            refine ⟨⟨address, lat, lng, l.city, l.state⟩, hf, rfl, hv, ?_⟩
            simp [serve, authenticateToken, hu, uploadArray, hfl, create, photoRefs, hf, hl,
              h1, h2, h3, hv]
          · left
            simp [serve, authenticateToken, hu, uploadArray, hfl, create, photoRefs, hf, hl,
              h1, h2, h3, hv, reply, serverError]

/-! ## C11 -/

/-- C11: a create by a stored user with an empty photo set is answered 400 with
the text that a photo is required, whatever the other fields are, and the
store is unchanged (no Animal persisted, no counter touched); conversely a
create either leaves the Animal collection as it was or appends one Animal,
and that Animal has at least one photo. -/
theorem C11_create_needs_photo (s : Store) (now : Date) (caller : Id) (r : CreateReq)
    (u : User) (hu : findUser s caller = some u) :
    (r.files = [] →
      serve s now (.create caller r) = reply s 400 "At least one photo is required") ∧
    ((serve s now (.create caller r)).store.animals = s.animals ∨
      ∃ a, (serve s now (.create caller r)).store.animals = s.animals ++ [a] ∧
        1 ≤ a.photos.length) := by
  constructor
  · intro hf
    simp [serve, authenticateToken, hu, uploadArray, uploadError, create, photoRefs, hf]
  · rcases serve_create_cases s now caller r u hu with ⟨h, _⟩ | ⟨loc, hf, _, _, e⟩
    · left; rw [h]
    · right
      refine ⟨newAnimal s.nextId caller r loc now, by rw [e], ?_⟩
      show 1 ≤ (photoRefs r.files).length
      cases hfiles : r.files with
      | nil => exact absurd hfiles hf
      | cons x xs => simp [photoRefs]

/-- Witness for C11: P sends a create without any file. -/
theorem C11_create_needs_photo_witness :
    serve listed 3 (.create 0 (CreateReq.minimal "dog" mainStreet []))
      = reply listed 400 "At least one photo is required" :=
  (C11_create_needs_photo listed 3 0 (CreateReq.minimal "dog" mainStreet [])
    ⟨0, "P", "p@x", true, 1, 0⟩ (by decide)).1 rfl

/-! ## C12 -/

/-- C12: a create answered 201 appends exactly one Animal to the collection,
with posterId the caller, status available, no adopter, no adoption date, no
interested user, and urgent true exactly when the urgent field of the request
is the string true; the rescue counter of the caller grows by exactly 1, every
other user is unchanged, and so are all Adoptions. -/
theorem C12_create_success (s : Store) (now : Date) (caller : Id) (r : CreateReq) (u : User)
    (hu : findUser s caller = some u)
    (h : (serve s now (.create caller r)).response.code = 201) :
    (∃ a, (serve s now (.create caller r)).store.animals = s.animals ++ [a] ∧
      a.posterId = some caller ∧ a.status = "available" ∧ a.adopterId = none ∧
      a.adoptionDate = none ∧ a.interestedUsers = [] ∧
      a.urgent = (r.urgent == some "true")) ∧
    findUser (serve s now (.create caller r)).store caller = some (u.addRescued 1) ∧
    (u.addRescued 1).animalsRescued = u.animalsRescued + 1 ∧
    (u.addRescued 1).animalsAdopted = u.animalsAdopted ∧
    (∀ i, i ≠ caller → findUser (serve s now (.create caller r)).store i = findUser s i) ∧
    (serve s now (.create caller r)).store.adoptions = s.adoptions := by
  rcases serve_create_cases s now caller r u hu with ⟨_, hne⟩ | ⟨loc, _, _, _, e⟩
  · exact absurd h hne
  · rw [e]
    refine ⟨⟨newAnimal s.nextId caller r loc now, rfl, rfl, rfl, rfl, rfl, rfl, rfl⟩, ?_, rfl,
      rfl, ?_, rfl⟩
    · exact find_updateFirst_same User.id (fun x => x.addRescued 1) caller s.users u
        (fun _ => rfl) hu
    · intro i hi
      show (updateFirst (fun x => x.id == caller) (fun x => x.addRescued 1) s.users).find?
        (fun x => x.id == i) = s.users.find? (fun x => x.id == i)
      rw [find_updateFirst User.id (fun x => x.addRescued 1) caller i s.users (fun _ => rfl),
        if_neg hi]

/-- Witness for C12: P lists a second animal, a cat. -/
theorem C12_create_success_witness :
    (∃ a,
      (serve listed 3 (.create 0 (CreateReq.minimal "cat" mainStreet [.image "c.png"]))).store.animals
        = listed.animals ++ [a] ∧
      a.posterId = some 0 ∧ a.status = "available" ∧ a.adopterId = none ∧
      a.adoptionDate = none ∧ a.interestedUsers = [] ∧
      a.urgent = ((CreateReq.minimal "cat" mainStreet [.image "c.png"]).urgent == some "true")) ∧
    findUser (serve listed 3 (.create 0 (CreateReq.minimal "cat" mainStreet [.image "c.png"]))).store 0
      = some ((⟨0, "P", "p@x", true, 1, 0⟩ : User).addRescued 1) ∧
    ((⟨0, "P", "p@x", true, 1, 0⟩ : User).addRescued 1).animalsRescued = (1 : Int) + 1 ∧
    ((⟨0, "P", "p@x", true, 1, 0⟩ : User).addRescued 1).animalsAdopted = 0 ∧
    (∀ i, i ≠ 0 →
      findUser (serve listed 3 (.create 0 (CreateReq.minimal "cat" mainStreet [.image "c.png"]))).store i
        = findUser listed i) ∧
    (serve listed 3 (.create 0 (CreateReq.minimal "cat" mainStreet [.image "c.png"]))).store.adoptions
      = listed.adoptions :=
  C12_create_success listed 3 0 (CreateReq.minimal "cat" mainStreet [.image "c.png"])
    ⟨0, "P", "p@x", true, 1, 0⟩ (by decide) (by decide)

/-! ## Fresh ids -/

theorem map_updateFirst {α β : Type} (key : α → β) (p : α → Bool) (f : α → α) (l : List α)
    (hf : ∀ x, key (f x) = key x) : (updateFirst p f l).map key = l.map key := by
  induction l with
  | nil => rfl
  | cons x xs ih =>
    by_cases hp : p x = true
    · rw [updateFirst_cons_pos p f x xs hp]; simp [hf]
    · rw [updateFirst_cons_neg p f x xs hp]; simp [ih]

/-- In a list without repeated keys, what `updateFirst` on key `i` yields is an
untouched element with another key or the image of the element with key
`i`. -/
theorem mem_updateFirst_nodup {α : Type} (key : α → Nat) (f : α → α) (i : Nat) (l : List α)
    (hn : (l.map key).Nodup) (y : α) (hy : y ∈ updateFirst (fun x => key x == i) f l) :
    (y ∈ l ∧ key y ≠ i) ∨ ∃ x, x ∈ l ∧ key x = i ∧ y = f x := by
  induction l with
  | nil => simp [updateFirst] at hy
  | cons x xs ih =>
    rw [List.map_cons, List.nodup_cons] at hn
    by_cases hi : key x = i
    · have hp : (fun x => key x == i) x = true := by simp [hi]
      rw [updateFirst_cons_pos _ f x xs hp, List.mem_cons] at hy
      rcases hy with hy | hy
      · exact Or.inr ⟨x, List.mem_cons_self _ _, hi, hy⟩
      · left
        refine ⟨List.mem_cons_of_mem _ hy, ?_⟩
        intro hk
        exact hn.1 (by rw [hi, ← hk]; exact List.mem_map_of_mem key hy)
    · have hp : ¬ (fun x => key x == i) x = true := by simp [hi]
      rw [updateFirst_cons_neg _ f x xs hp, List.mem_cons] at hy
      rcases hy with hy | hy
      · left; rw [hy]; exact ⟨List.mem_cons_self _ _, hi⟩
      · rcases ih hn.2 hy with ⟨h1, h2⟩ | ⟨z, hz, hk, he⟩
        · exact Or.inl ⟨List.mem_cons_of_mem _ h1, h2⟩
        · exact Or.inr ⟨z, List.mem_cons_of_mem _ hz, hk, he⟩

theorem eraseP_cons_pos {α : Type} (p : α → Bool) (x : α) (xs : List α) (h : p x = true) :
    (x :: xs).eraseP p = xs := by
  simp [List.eraseP_cons, h]

theorem eraseP_cons_neg {α : Type} (p : α → Bool) (x : α) (xs : List α) (h : ¬ p x = true) :
    (x :: xs).eraseP p = x :: xs.eraseP p := by
  simp [List.eraseP_cons, h]

theorem eraseP_key_gone {α : Type} (key : α → Nat) (i : Nat) (l : List α)
    (hn : (l.map key).Nodup) (hex : ∃ x ∈ l, key x = i) :
    ∀ y ∈ l.eraseP (fun x => key x == i), key y ≠ i := by
  induction l with
  | nil => obtain ⟨x, hx, _⟩ := hex; cases hx
  | cons x xs ih =>
    rw [List.map_cons, List.nodup_cons] at hn
    intro y hy
    by_cases hi : key x = i
    · have hp : (fun x => key x == i) x = true := by simp [hi]
      rw [eraseP_cons_pos (fun x => key x == i) x xs hp] at hy
      intro hk
      exact hn.1 (by rw [hi, ← hk]; exact List.mem_map_of_mem key hy)
    · have hp : ¬ (fun x => key x == i) x = true := by simp [hi]
      rw [eraseP_cons_neg (fun x => key x == i) x xs hp, List.mem_cons] at hy
      rcases hy with hy | hy
      · rw [hy]; exact hi
      · obtain ⟨z, hz, hk⟩ := hex
        rw [List.mem_cons] at hz
        rcases hz with hz | hz
        · exact absurd (hz ▸ hk) hi
        · exact ih hn.2 ⟨z, hz, hk⟩ y hy

theorem nodup_map_append_fresh {α : Type} (key : α → Nat) (l : List α) (x : α) (n : Nat)
    (hb : ∀ y ∈ l, key y < n) (hx : key x = n) (hn : (l.map key).Nodup) :
    ((l ++ [x]).map key).Nodup := by
  rw [List.map_append, List.map_singleton, List.nodup_append]
  refine ⟨hn, List.nodup_singleton _, ?_⟩
  intro k hk hk2
  rw [List.mem_singleton] at hk2
  obtain ⟨y, hy, hky⟩ := List.mem_map.mp hk
  have := hb y hy
  rw [hky, hk2, hx] at this
  exact Nat.lt_irrefl _ this

theorem step_idsFresh {s : Store} {now : Date} {op : Op} {s1 : Store} (h : Step s now op s1)
    (hw : IdsFresh s) : IdsFresh s1 := by
  obtain ⟨u1, u2, a1, a2⟩ := hw
  have usersUpd : ∀ (i : Id) (f : User → User), (∀ x, (f x).id = x.id) →
      (∀ u ∈ updateFirst (fun x => x.id == i) f s.users, u.id < s.nextId) ∧
      ((updateFirst (fun x => x.id == i) f s.users).map User.id).Nodup := by
    intro i f hf
    constructor
    · intro u hu
      rcases mem_updateFirst _ _ _ _ hu with h | ⟨x, hx, rfl⟩
      · exact u1 u h
      · rw [hf]; exact u1 x (mem_of_find _ _ _ hx)
    · rw [map_updateFirst User.id _ f s.users hf]; exact u2
  have animalsUpd : ∀ (i : Id) (f : Animal → Animal), (∀ x, (f x).id = x.id) →
      (∀ a ∈ updateFirst (fun x => x.id == i) f s.animals, a.id < s.nextId) ∧
      ((updateFirst (fun x => x.id == i) f s.animals).map Animal.id).Nodup := by
    intro i f hf
    constructor
    · intro a ha
      rcases mem_updateFirst _ _ _ _ ha with h | ⟨x, hx, rfl⟩
      · exact a1 a h
      · rw [hf]; exact a1 x (mem_of_find _ _ _ hx)
    · rw [map_updateFirst Animal.id _ f s.animals hf]; exact a2
  cases h with
  | idle => exact ⟨u1, u2, a1, a2⟩
  | register name email flag =>
    refine ⟨?_, nodup_map_append_fresh User.id s.users _ s.nextId u1 rfl u2, ?_, a2⟩
    · intro u hu
      simp only [List.mem_append, List.mem_singleton] at hu
      rcases hu with hu | hu
      · exact Nat.lt_succ_of_lt (u1 u hu)
      · rw [hu]; exact Nat.lt_succ_self _
    · intro a ha; exact Nat.lt_succ_of_lt (a1 a ha)
  | create caller r u loc hu hv hf =>
    obtain ⟨k1, k2⟩ := usersUpd u.id (fun x => x.addRescued 1) (fun _ => rfl)
    refine ⟨fun x hx => Nat.lt_succ_of_lt (k1 x hx), k2, ?_,
      nodup_map_append_fresh Animal.id s.animals _ s.nextId a1 rfl a2⟩
    intro a ha
    simp only [List.mem_append, List.mem_singleton] at ha
    rcases ha with ha | ha
    · exact Nat.lt_succ_of_lt (a1 a ha)
    · rw [ha]; exact Nat.lt_succ_self _
  | update caller id p files u a hu ha hp =>
    obtain ⟨k1, k2⟩ := animalsUpd id (applyPatch p files a.photos) (fun _ => rfl)
    exact ⟨u1, u2, k1, k2⟩
  | delete caller id u a hu ha hp =>
    obtain ⟨k1, k2⟩ := usersUpd u.id (fun x => x.addRescued (-1)) (fun _ => rfl)
    refine ⟨k1, k2, fun x hx => a1 x (List.mem_of_mem_eraseP hx), ?_⟩
    exact List.Nodup.sublist ((List.eraseP_sublist s.animals).map Animal.id) a2
  | expressInterest caller id m c u a poster =>
    obtain ⟨k1, k2⟩ := animalsUpd id
      (fun x => x.withInterested (a.interestedUsers ++ [⟨u.id, m, c, now⟩])) (fun _ => rfl)
    exact ⟨u1, u2, k1, k2⟩
  | markAdopted caller id adopterId u a poster adopter =>
    obtain ⟨k1, k2⟩ := animalsUpd id (fun x => x.confirm adopterId now) (fun _ => rfl)
    obtain ⟨k3, k4⟩ := usersUpd adopterId (fun x => x.addAdopted 1) (fun _ => rfl)
    exact ⟨k3, k4, k1, k2⟩
  | requestAdoption =>
    exact ⟨fun x hx => Nat.lt_succ_of_lt (u1 x hx), u2,
      fun x hx => Nat.lt_succ_of_lt (a1 x hx), a2⟩
  | setStatus => exact ⟨u1, u2, a1, a2⟩
  | complete caller id notes saved u d poster a adopter =>
    obtain ⟨k1, k2⟩ := animalsUpd a.id (fun x => x.confirm adopter.id now) (fun _ => rfl)
    exact ⟨u1, u2, k1, k2⟩

theorem reachable_idsFresh {s : Store} (h : Reachable s) : IdsFresh s := by
  induction h with
  | init =>
    refine ⟨?_, List.nodup_nil, ?_, List.nodup_nil⟩
    · intro u hu; cases hu
    · intro a ha; cases ha
  | step s now op _ ih => exact step_idsFresh (serve_step s now op) ih

/-- An id that was handed out and is no longer stored never comes back. -/
theorem step_gone {s : Store} {now : Date} {op : Op} {s1 : Store} (h : Step s now op s1)
    (id : Id) (hg : Gone id s) : Gone id s1 := by
  refine ⟨Nat.lt_of_lt_of_le hg.1 (step_nextId h), ?_⟩
  have upd : ∀ (i : Id) (f : Animal → Animal), (∀ x, (f x).id = x.id) →
      ∀ a ∈ updateFirst (fun x => x.id == i) f s.animals, a.id ≠ id := by
    intro i f hf a ha
    rcases mem_updateFirst _ _ _ _ ha with h | ⟨x, hx, rfl⟩
    · exact hg.2 a h
    · rw [hf]; exact hg.2 x (mem_of_find _ _ _ hx)
  cases h with
  | idle => exact hg.2
  | register => exact hg.2
  | create caller r u loc hu hv hf =>
    intro a ha
    simp only [List.mem_append, List.mem_singleton] at ha
    rcases ha with ha | ha
    · exact hg.2 a ha
    · rw [ha]
      show s.nextId ≠ id
      exact fun hk => Nat.lt_irrefl _ (hk ▸ hg.1)
  | update caller i p files u a hu ha hp =>
    exact upd i (applyPatch p files a.photos) (fun _ => rfl)
  | delete caller i u a hu ha hp => exact fun x hx => hg.2 x (List.mem_of_mem_eraseP hx)
  | expressInterest caller i m c u a poster =>
    exact upd i (fun x => x.withInterested (a.interestedUsers ++ [⟨u.id, m, c, now⟩]))
      (fun _ => rfl)
  | markAdopted caller i adopterId u a poster adopter =>
    exact upd i (fun x => x.confirm adopterId now) (fun _ => rfl)
  | requestAdoption => exact hg.2
  | setStatus => exact hg.2
  | complete caller i notes saved u d poster a adopter =>
    exact upd a.id (fun x => x.confirm adopter.id now) (fun _ => rfl)

theorem run_gone (tr : List (Date × Op)) (s : Store) (id : Id) (hg : Gone id s) :
    Gone id (run s tr) := by
  induction tr generalizing s with
  | nil => exact hg
  | cons x rest ih => exact ih _ (step_gone (serve_step s x.1 x.2) id hg)

/-! ## C13 -/

/-- C13: in every state of the service, after a delete of an animal id was
answered 200, and after any sequence of further requests, a delete of the same
id by any stored user is answered 404 Animal not found and leaves the whole
store unchanged, so no rescue counter is decremented again. -/
theorem C13_delete_idempotent (s0 : Store) (t1 t2 : Date) (caller caller2 id : Id)
    (tr : List (Date × Op)) (u2 : User) (hr : Reachable s0)
    (h1 : (serve s0 t1 (.delete caller id)).response.code = 200)
    (hu2 : findUser (run (serve s0 t1 (.delete caller id)).store tr) caller2 = some u2) :
    serve (run (serve s0 t1 (.delete caller id)).store tr) t2 (.delete caller2 id)
      = reply (run (serve s0 t1 (.delete caller id)).store tr) 404 "Animal not found" := by
  have hgone : Gone id (serve s0 t1 (.delete caller id)).store := by
    cases hu : findUser s0 caller with
    | none => simp [serve, authenticateToken, hu, reply] at h1
    | some u =>
      obtain ⟨d1, d0, d2, d3⟩ := serve_delete s0 t1 caller id u hu
      cases ha : findAnimal s0 id with
      | none => rw [d1 ha] at h1; simp [reply] at h1
      | some a =>
        cases hpo : a.posterId with
        | none => rw [d0 a ha hpo] at h1; simp [serverError, reply] at h1
        | some poster =>
        by_cases hp : poster = caller
        · rw [d3 a ha (by rw [hpo, hp])]
          obtain ⟨_, _, a1, a2⟩ := reachable_idsFresh hr
          have hmem : a ∈ s0.animals := mem_of_find _ _ _ ha
          have haid := findAnimal_id ha
          exact ⟨by rw [← haid]; exact a1 a hmem,
            eraseP_key_gone Animal.id id s0.animals a2 ⟨a, hmem, haid⟩⟩
        · rw [d2 a poster ha hpo hp] at h1; simp [reply] at h1
  have hg2 := run_gone tr _ id hgone
  generalize run (serve s0 t1 (.delete caller id)).store tr = s2 at hu2 hg2 ⊢
  have hnone : findAnimal s2 id = none := by
    unfold findAnimal
    rw [List.find?_eq_none]
    intro x hx
    simpa using hg2.2 x hx
  exact (serve_delete s2 t2 caller2 id u2 hu2).1 hnone

/-- Witness for C13: P deletes the dog, U registers interest in vain, and P
deletes the dog again. -/
theorem C13_delete_idempotent_witness :
    serve (run (serve listed 3 (.delete 0 1)).store [(4, .expressInterest 2 1 "hi" "u@x")]) 5
        (.delete 0 1)
      = reply (run (serve listed 3 (.delete 0 1)).store [(4, .expressInterest 2 1 "hi" "u@x")])
        404 "Animal not found" :=
  C13_delete_idempotent listed 3 5 0 0 1 [(4, .expressInterest 2 1 "hi" "u@x")]
    ⟨0, "P", "p@x", true, 0, 0⟩ (reachable_run Reachable.init _) (by decide) (by decide)

/-! ## C14 -/

theorem eraseP_split_of_find {α : Type} (p : α → Bool) (l : List α) (a : α)
    (h : l.find? p = some a) :
    ∃ l1 l2, l = l1 ++ a :: l2 ∧ l.eraseP p = l1 ++ l2 ∧ ∀ b ∈ l1, ¬ p b = true := by
  induction l with
  | nil => cases h
  | cons x xs ih =>
    by_cases hp : p x = true
    · rw [find_cons_pos p x xs hp] at h
      have hx : x = a := Option.some.inj h
      subst hx
      exact ⟨[], xs, rfl, eraseP_cons_pos p x xs hp, fun b hb => by cases hb⟩
    · rw [find_cons_neg p x xs hp] at h
      obtain ⟨l1, l2, e1, e2, e3⟩ := ih h
      refine ⟨x :: l1, l2, by rw [e1]; rfl, by rw [eraseP_cons_neg p x xs hp, e2]; rfl, ?_⟩
      intro b hb
      rw [List.mem_cons] at hb
      rcases hb with hb | hb
      · rw [hb]; exact hp
      · exact e3 b hb

/-- C14: a delete by a stored user of an Animal whose posterId is that user is
answered 200; the Animal collection loses exactly the Animal that was looked
up (the first one with that id), all other Animals staying in place; the
rescue counter of the caller drops by exactly 1 as an integer, without any
floor; every other user and all Adoptions are unchanged. -/
theorem C14_delete_effect (s : Store) (now : Date) (caller id : Id) (u : User) (a : Animal)
    (hu : findUser s caller = some u) (ha : findAnimal s id = some a)
    (hp : a.posterId = some caller) :
    (serve s now (.delete caller id)).response.code = 200 ∧
    (∃ l1 l2, s.animals = l1 ++ a :: l2 ∧
      (serve s now (.delete caller id)).store.animals = l1 ++ l2 ∧
      ∀ b ∈ l1, b.id ≠ id) ∧
    findUser (serve s now (.delete caller id)).store caller = some (u.addRescued (-1)) ∧
    (u.addRescued (-1)).animalsRescued = u.animalsRescued - 1 ∧
    (u.addRescued (-1)).animalsAdopted = u.animalsAdopted ∧
    (∀ i, i ≠ caller → findUser (serve s now (.delete caller id)).store i = findUser s i) ∧
    (serve s now (.delete caller id)).store.adoptions = s.adoptions := by
  rw [(serve_delete s now caller id u hu).2.2.2 a ha hp]
  refine ⟨rfl, ?_, ?_, rfl, rfl, ?_, rfl⟩
  · obtain ⟨l1, l2, e1, e2, e3⟩ := eraseP_split_of_find (fun x : Animal => x.id == id) s.animals a ha
    exact ⟨l1, l2, e1, e2, fun b hb => by simpa using e3 b hb⟩
  · exact find_updateFirst_same User.id (fun x => x.addRescued (-1)) caller s.users u
      (fun _ => rfl) hu
  · intro i hi
    show (updateFirst (fun x => x.id == caller) (fun x => x.addRescued (-1)) s.users).find?
      (fun x => x.id == i) = s.users.find? (fun x => x.id == i)
    rw [find_updateFirst User.id (fun x => x.addRescued (-1)) caller i s.users (fun _ => rfl),
      if_neg hi]

/-- Witness for C14: P hands the dog over to U by an update of posterId; U,
whose rescue counter is 0, deletes it and the counter becomes -1. -/
theorem C14_delete_effect_witness :
    (serve (run listed [(3, .update 0 1 (posterPatch 2) [])]) 4 (.delete 2 1)).response.code
      = 200 ∧
    findUser (serve (run listed [(3, .update 0 1 (posterPatch 2) [])]) 4 (.delete 2 1)).store 2
      = some ((⟨2, "U", "u@x", true, 0, 0⟩ : User).addRescued (-1)) ∧
    ((⟨2, "U", "u@x", true, 0, 0⟩ : User).addRescued (-1)).animalsRescued = (0 : Int) - 1 :=
  have h := C14_delete_effect (run listed [(3, .update 0 1 (posterPatch 2) [])]) 4 2 1
    ⟨2, "U", "u@x", true, 0, 0⟩
    ((run listed [(3, .update 0 1 (posterPatch 2) [])]).animals.head (by decide))
    (by decide) (by decide) (by decide)
  ⟨h.1, h.2.2.1, h.2.2.2.1⟩

/-! ## C15: the rescue counter counts the rescues -/

theorem countP_updateFirst_eq {α : Type} (p q : α → Bool) (f : α → α) (l : List α)
    (h : ∀ x, l.find? p = some x → q (f x) = q x) :
    (updateFirst p f l).countP q = l.countP q := by
  induction l with
  | nil => rfl
  | cons x xs ih =>
    by_cases hp : p x = true
    · rw [updateFirst_cons_pos p f x xs hp, List.countP_cons, List.countP_cons,
        h x (find_cons_pos p x xs hp)]
    · rw [updateFirst_cons_neg p f x xs hp, List.countP_cons, List.countP_cons,
        ih (fun y hy => h y (by rw [find_cons_neg p x xs hp]; exact hy))]

theorem countP_eraseP_of_find {α : Type} (p q : α → Bool) (l : List α) (a : α)
    (h : l.find? p = some a) :
    l.countP q = (l.eraseP p).countP q + (if q a = true then 1 else 0) := by
  obtain ⟨l1, l2, e1, e2, _⟩ := eraseP_split_of_find p l a h
  rw [e2, e1, List.countP_append, List.countP_append, List.countP_cons]
  omega

theorem rescuesOf_eq_zero (s : Store) (i : Id)
    (h : ∀ a ∈ s.animals, ∀ j, a.posterId = some j → j < i) : rescuesOf s i = 0 := by
  unfold rescuesOf
  rw [List.countP_eq_zero]
  intro a ha hq
  have h2 : a.posterId = some i := by simpa using hq
  exact Nat.lt_irrefl _ (h a ha i h2)

theorem step_rescuedMatches {s : Store} {now : Date} {op : Op} {s1 : Store}
    (h : Step s now op s1) (hok : keepsPoster s op) (hf : IdsFresh s)
    (hm : RescuedMatches s) : RescuedMatches s1 := by
  obtain ⟨u1, u2, _, _⟩ := hf
  obtain ⟨m1, m2⟩ := hm
  -- a rewrite of one Animal that keeps its poster
  have animalsUpd : ∀ (i : Id) (f : Animal → Animal),
      (∀ x, s.animals.find? (fun y => y.id == i) = some x → (f x).posterId = x.posterId) →
      (∀ a ∈ updateFirst (fun y => y.id == i) f s.animals,
        ∀ j, a.posterId = some j → j < s.nextId) ∧
      ∀ j, (updateFirst (fun y => y.id == i) f s.animals).countP
          (fun a => a.posterId == some j)
        = rescuesOf s j := by
    intro i f hfp
    constructor
    · intro a ha
      rcases mem_updateFirst _ _ _ _ ha with h | ⟨x, hx, rfl⟩
      · exact m1 a h
      · rw [hfp x hx]; exact m1 x (mem_of_find _ _ _ hx)
    · intro j
      exact countP_updateFirst_eq _ _ f s.animals (fun x hx => by rw [hfp x hx])
  cases h with
  | idle => exact ⟨m1, m2⟩
  | register name email flag =>
    refine ⟨fun a ha j hj => Nat.lt_succ_of_lt (m1 a ha j hj), ?_⟩
    intro u hu
    simp only [List.mem_append, List.mem_singleton] at hu
    rcases hu with hu | hu
    · exact m2 u hu
    · rw [hu]
      show (0 : Int) = ((rescuesOf s s.nextId : Nat) : Int)
      rw [rescuesOf_eq_zero s s.nextId m1]; rfl
  | create caller r u loc hu hv hfl =>
    have humem : u ∈ s.users := mem_of_find _ _ _ hu
    constructor
    · intro a ha j hj
      simp only [List.mem_append, List.mem_singleton] at ha
      rcases ha with ha | ha
      · exact Nat.lt_succ_of_lt (m1 a ha j hj)
      · rw [ha] at hj
        have hju : u.id = j := Option.some.inj hj
        rw [← hju]; exact Nat.lt_succ_of_lt (u1 u humem)
    · intro w hw
      show w.animalsRescued = (((s.animals ++ [newAnimal s.nextId u.id r loc now]).countP
        (fun a => a.posterId == some w.id) : Nat) : Int)
      rw [List.countP_append]
      rcases mem_updateFirst_nodup User.id _ u.id s.users u2 w hw with ⟨h1, h2⟩ | ⟨x, hx, hk, rfl⟩
      · have hz : [newAnimal s.nextId u.id r loc now].countP
            (fun a => a.posterId == some w.id) = 0 := by
          rw [List.countP_eq_zero]
          intro a ha hq
          rw [List.mem_singleton] at ha
          rw [ha] at hq
          have : u.id = w.id := by simpa [newAnimal] using hq
          exact h2 this.symm
        rw [hz, m2 w h1]; rfl
      · have hz : [newAnimal s.nextId u.id r loc now].countP
            (fun a => a.posterId == some (x.addRescued 1).id) = 1 := by
          show [newAnimal s.nextId u.id r loc now].countP
            (fun a => a.posterId == some x.id) = 1
          rw [hk]
          simp [List.countP_cons, newAnimal]
        rw [hz]
        show x.animalsRescued + 1 = _
        rw [m2 x hx]
        push_cast
        rfl
  | update caller id p files u a hu ha hp =>
    have hkeep : ∀ x, s.animals.find? (fun y => y.id == id) = some x →
        (applyPatch p files a.photos x).posterId = x.posterId := by
      intro x hx
      exact hok x hx
    obtain ⟨k1, k2⟩ := animalsUpd id (applyPatch p files a.photos) hkeep
    exact ⟨k1, fun w hw => by rw [m2 w hw]; exact congrArg Nat.cast (k2 w.id).symm⟩
  | delete caller id u a hu ha hp =>
    refine ⟨fun x hx => m1 x (List.mem_of_mem_eraseP hx), ?_⟩
    intro w hw
    show w.animalsRescued = (((s.animals.eraseP (fun x => x.id == id)).countP
      (fun a => a.posterId == some w.id) : Nat) : Int)
    have hc := fun j => countP_eraseP_of_find (fun x : Animal => x.id == id)
      (fun a => a.posterId == some j) s.animals a ha
    rcases mem_updateFirst_nodup User.id _ u.id s.users u2 w hw with ⟨h1, h2⟩ | ⟨x, hx, hk, rfl⟩
    · have h3 := hc w.id
      have hq : ¬ (a.posterId == some w.id) = true := by
        simp only [beq_iff_eq]; rw [hp]; exact fun hh => h2 (Option.some.inj hh).symm
      rw [if_neg hq, Nat.add_zero] at h3
      rw [m2 w h1]
      exact congrArg Nat.cast h3
    · have h3 := hc x.id
      have hq : (a.posterId == some x.id) = true := by
        simp only [beq_iff_eq]; rw [hp, hk]
      rw [if_pos hq] at h3
      show x.animalsRescued + -1 = _
      rw [m2 x hx]
      show ((s.animals.countP (fun a => a.posterId == some x.id) : Nat) : Int) + -1 = _
      rw [h3]
      push_cast
      show _ = (((s.animals.eraseP (fun x => x.id == id)).countP
        (fun a => a.posterId == some x.id) : Nat) : Int)
      omega
  | expressInterest caller id m c u a poster =>
    obtain ⟨k1, k2⟩ := animalsUpd id
      (fun x => x.withInterested (a.interestedUsers ++ [⟨u.id, m, c, now⟩])) (fun _ _ => rfl)
    exact ⟨k1, fun w hw => by rw [m2 w hw]; exact congrArg Nat.cast (k2 w.id).symm⟩
  | markAdopted caller id adopterId u a poster adopter =>
    obtain ⟨k1, k2⟩ := animalsUpd id (fun x => x.confirm adopterId now) (fun _ _ => rfl)
    refine ⟨k1, ?_⟩
    intro w hw
    rcases mem_updateFirst _ _ _ _ hw with h | ⟨x, hx, rfl⟩
    · rw [m2 w h]; exact congrArg Nat.cast (k2 w.id).symm
    · show x.animalsRescued = _
      rw [m2 x (mem_of_find _ _ _ hx)]; exact congrArg Nat.cast (k2 x.id).symm
  | requestAdoption => exact ⟨fun a ha j hj => Nat.lt_succ_of_lt (m1 a ha j hj), m2⟩
  | setStatus => exact ⟨m1, m2⟩
  | complete caller id notes saved u d poster a adopter =>
    obtain ⟨k1, k2⟩ := animalsUpd a.id (fun x => x.confirm adopter.id now) (fun _ _ => rfl)
    exact ⟨k1, fun w hw => by rw [m2 w hw]; exact congrArg Nat.cast (k2 w.id).symm⟩

theorem reachableVia_rescuedMatches {s : Store} (h : ReachableVia keepsPoster s) :
    RescuedMatches s := by
  induction h with
  | init =>
    refine ⟨?_, ?_⟩
    · intro a ha; cases ha
    · intro u hu; cases hu
  | step s now op hr hok ih =>
    exact step_rescuedMatches (serve_step s now op) hok
      (reachable_idsFresh (reachableVia_reachable hr)) ih

theorem step_adoptedNonneg {s : Store} {now : Date} {op : Op} {s1 : Store}
    (h : Step s now op s1) (hs : ∀ u ∈ s.users, 0 ≤ u.animalsAdopted) :
    ∀ u ∈ s1.users, 0 ≤ u.animalsAdopted := by
  have upd : ∀ (i : Id) (f : User → User), (∀ x, x.animalsAdopted ≤ (f x).animalsAdopted) →
      ∀ u ∈ updateFirst (fun x => x.id == i) f s.users, 0 ≤ u.animalsAdopted := by
    intro i f hf u hu
    rcases mem_updateFirst _ _ _ _ hu with h | ⟨x, hx, rfl⟩
    · exact hs u h
    · exact Int.le_trans (hs x (mem_of_find _ _ _ hx)) (hf x)
  cases h with
  | idle => exact hs
  | register name email flag =>
    intro u hu
    simp only [List.mem_append, List.mem_singleton] at hu
    rcases hu with hu | hu
    · exact hs u hu
    · rw [hu]
  | create caller r u loc =>
    exact upd u.id (fun x => x.addRescued 1) (fun _ => Int.le_refl _)
  | update => exact hs
  | delete caller id u a =>
    exact upd u.id (fun x => x.addRescued (-1)) (fun _ => Int.le_refl _)
  | expressInterest => exact hs
  | markAdopted caller id adopterId u a poster adopter =>
    exact upd adopterId (fun x => x.addAdopted 1)
      (fun x => by show x.animalsAdopted ≤ x.animalsAdopted + 1; omega)
  | requestAdoption => exact hs
  | setStatus => exact hs
  | complete => exact hs

theorem reachable_adoptedNonneg {s : Store} (h : Reachable s) :
    ∀ u ∈ s.users, 0 ≤ u.animalsAdopted := by
  induction h with
  | init => intro u hu; cases hu
  | step s now op _ ih => exact step_adoptedNonneg (serve_step s now op) ih

/-- C15, as stated, fails: P lists the dog and hands it over to U by an update
of posterId; U, whose rescue counter is 0, deletes it; in the reachable store
the rescue counter of U is -1. -/
theorem C15_counterexample :
    Reachable (run listed [(3, .update 0 1 (posterPatch 2) []), (4, .delete 2 1)]) ∧
    ¬ StatsNonneg (run listed [(3, .update 0 1 (posterPatch 2) []), (4, .delete 2 1)]) := by
  refine ⟨reachable_run (reachable_run Reachable.init _) _, ?_⟩
  unfold StatsNonneg
  decide

/-- C15, amended: in every state reachable from the empty store through
requests in which no update changes the posterId of an Animal (by a plain
key, `$set`, null, `$unset` or another operator), the counters animalsRescued
and animalsAdopted of every user are integers at least 0. -/
theorem C15_stats_nonneg (s : Store) (h : ReachableVia keepsPoster s) : StatsNonneg s := by
  intro u hu
  constructor
  · rw [(reachableVia_rescuedMatches h).2 u hu]
    exact Int.ofNat_nonneg _
  · exact reachable_adoptedNonneg (reachableVia_reachable h) u hu

/-- Witness for C15: P lists the dog, renames it, removes its status and
deletes it. -/
theorem C15_stats_nonneg_witness :
    StatsNonneg
      (serve (serve (serve (serve emptyStore 0 (.register "P" "p@x" true)).store 1
        (.create 0 (CreateReq.minimal "dog" mainStreet [.image "a.png"]))).store 2
        (.update 0 1 { AnimalPatch.empty with name := .set "Rex", status := .clear }
          [])).store 3
        (.delete 0 1)).store :=
  C15_stats_nonneg _
    (ReachableVia.step _ _ _ (ReachableVia.step _ _ _ (ReachableVia.step _ _ _
      (ReachableVia.step _ _ _ ReachableVia.init trivial) trivial)
      (fun _ _ => rfl)) trivial)

/-! ## C16 -/

/-- C16, as stated, fails. First input: the posterId of the dog is an id that
belongs to no user; markAdopted by U, whose id differs from it, is answered 500
and not 403, because the populated poster is null when its id is read. Second
and third input: an update by U, who is not the poster, that carries six
files, or one file that is not an image, is refused by the upload middleware
before the ownership check and answered 500. Fourth input: the posterId of
the dog was removed; delete by U is answered 500, because `toString` is read
of a null posterId. -/
theorem C16_counterexample :
    ((∃ a, findAnimal orphaned 1 = some a ∧ a.posterId ≠ some 2) ∧
      (serve orphaned 4 (.markAdopted 2 1 2)).response.code = 500) ∧
    ((∃ a, findAnimal listed 1 = some a ∧ a.posterId ≠ some 2) ∧
      (serve listed 3 (.update 2 1 AnimalPatch.empty sixImages)).response.code = 500 ∧
      (serve listed 3 (.update 2 1 AnimalPatch.empty
        [⟨"photos", "application/pdf", 1024, "a.pdf"⟩])).response.code = 500) ∧
    ((∃ a, findAnimal ownerless 1 = some a ∧ a.posterId ≠ some 2) ∧
      (serve ownerless 4 (.delete 2 1)).response.code = 500) := by
  decide

/-- C16, amended: let the caller be a stored user. On an existing Animal whose
posterId is the id of another user, delete is answered 403, update is answered
403 when the upload middleware accepts the files of the request, and
markAdopted is answered 403 when that posterId resolves to a stored user; the
store is unchanged. On a missing animal id the three routes answer 404 (update
again when the files are accepted) and leave the store unchanged. In the cases
left out the answer is 500 and the store is unchanged as well: an update whose
files the upload middleware refuses, whatever animal it addresses; update and
delete on an Animal whose posterId is null; markAdopted on an Animal whose
posterId is null or resolves to no stored user. -/
theorem C16_ownership_gating (s : Store) (now : Date) (caller id : Id) (u : User)
    (hu : findUser s caller = some u) :
    (findAnimal s id = none →
      (∀ p files, uploadError 5 files = none →
        serve s now (.update caller id p files) = reply s 404 "Animal not found") ∧
      serve s now (.delete caller id) = reply s 404 "Animal not found" ∧
      (∀ adopterId,
        serve s now (.markAdopted caller id adopterId) = reply s 404 "Animal not found")) ∧
    (∀ a poster, findAnimal s id = some a → a.posterId = some poster → poster ≠ caller →
      (∀ p files, uploadError 5 files = none →
        serve s now (.update caller id p files)
          = reply s 403 "Not authorized to update this listing") ∧
      serve s now (.delete caller id) = reply s 403 "Not authorized to delete this listing" ∧
      (∀ adopterId owner, findUser s poster = some owner →
        serve s now (.markAdopted caller id adopterId)
          = reply s 403 "Not authorized to update this listing")) ∧
    (∀ p files e, uploadError 5 files = some e →
      (serve s now (.update caller id p files)).response.code = 500 ∧
      (serve s now (.update caller id p files)).store = s) ∧
    (∀ a, findAnimal s id = some a → a.posterId = none →
      (∀ p files, uploadError 5 files = none →
        serve s now (.update caller id p files) = serverError s) ∧
      serve s now (.delete caller id) = serverError s) ∧
    (∀ a adopterId, findAnimal s id = some a → populate s a.posterId = none →
      serve s now (.markAdopted caller id adopterId) = serverError s) := by
  refine ⟨?_, ?_, ?_, ?_, ?_⟩
  · intro ha
    exact ⟨fun p files hfl => (serve_update s now caller id p files u hu hfl).1 ha,
      (serve_delete s now caller id u hu).1 ha,
      fun adopterId => (serve_markAdopted s now caller id adopterId u hu).1 ha⟩
  · intro a poster ha hp hne
    refine ⟨fun p files hfl =>
        (serve_update s now caller id p files u hu hfl).2.2.1 a poster ha hp hne,
      (serve_delete s now caller id u hu).2.2.1 a poster ha hp hne, ?_⟩
    intro adopterId owner ho
    have hpop : populate s a.posterId = some owner := by rw [hp]; exact ho
    have hne2 : a.posterId ≠ some caller := by
      rw [hp]; exact fun h => hne (Option.some.inj h)
    exact (serve_markAdopted s now caller id adopterId u hu).2.2.1 a owner ha hpop hne2
  · intro p files e he
    rw [serve_update_refused s now caller id p files u e hu he]
    exact ⟨rfl, rfl⟩
  · intro a ha hp
    exact ⟨fun p files hfl => (serve_update s now caller id p files u hu hfl).2.1 a ha hp,
      (serve_delete s now caller id u hu).2.1 a ha hp⟩
  · intro a adopterId ha hp
    exact (serve_markAdopted s now caller id adopterId u hu).2.1 a ha hp

/-- Witness for C16: U tries to delete the dog P listed. -/
theorem C16_ownership_gating_witness :
    serve listed 3 (.delete 2 1) = reply listed 403 "Not authorized to delete this listing" :=
  ((C16_ownership_gating listed 3 2 1 ⟨2, "U", "u@x", true, 0, 0⟩ (by decide)).2.1
    (listed.animals.head (by decide)) 0 (by decide) (by decide) (by decide)).2.1

/-! ## C17, C18: expressInterest -/

/-- An authenticated expressInterest answers 200 exactly when every guard is
passed, the poster reference resolves and the document passes validation. -/
theorem expressInterest_ok_iff (s : Store) (now : Date) (caller id : Id) (m c : String)
    (u : User) (hu : findUser s caller = some u) :
    (serve s now (.expressInterest caller id m c)).response.code = 200 ↔
      ∃ a poster, findAnimal s id = some a ∧ a.status ≠ "adopted" ∧ a.posterId ≠ some caller ∧
        populate s a.posterId = some poster ∧
        a.interestedUsers.any (fun i => i.user == caller) = false ∧
        validAnimal (a.withInterested (a.interestedUsers ++ [⟨caller, m, c, now⟩])) = true := by
  obtain ⟨b1, b2, b3, b4, b5, b6, b7⟩ := serve_expressInterest s now caller id m c u hu
  constructor
  · intro h
    cases ha : findAnimal s id with
    | none => rw [b1 ha] at h; simp [reply] at h
    | some a =>
      by_cases hs : a.status = "adopted"
      · rw [b2 a ha hs] at h; simp [reply] at h
      · by_cases hp : a.posterId = some caller
        · rw [b4 a ha hs hp] at h; simp [reply] at h
        · cases hposter : populate s a.posterId with
          | none => rw [b3 a ha hs hposter] at h; simp [serverError, reply] at h
          | some poster =>
            cases hany : a.interestedUsers.any (fun i => i.user == caller) with
            | true => rw [b5 a poster ha hs hp hposter hany] at h; simp [reply] at h
            | false =>
              cases hv : validAnimal
                  (a.withInterested (a.interestedUsers ++ [⟨caller, m, c, now⟩])) with
              | false =>
                rw [b6 a poster ha hs hp hposter hany hv] at h
                simp [serverError, reply] at h
              | true => exact ⟨a, poster, rfl, hs, hp, hposter, hany, hv⟩
  · rintro ⟨a, poster, ha, hs, hp, hposter, hany, hv⟩
    rw [b7 a poster ha hs hp hposter hany hv]

/-- Whenever an authenticated expressInterest does not answer 200, nothing was
written. -/
theorem expressInterest_failure_store (s : Store) (now : Date) (caller id : Id) (m c : String)
    (u : User) (hu : findUser s caller = some u)
    (h : (serve s now (.expressInterest caller id m c)).response.code ≠ 200) :
    (serve s now (.expressInterest caller id m c)).store = s := by
  obtain ⟨b1, b2, b3, b4, b5, b6, b7⟩ := serve_expressInterest s now caller id m c u hu
  cases ha : findAnimal s id with
  | none => rw [b1 ha]; rfl
  | some a =>
    by_cases hs : a.status = "adopted"
    · rw [b2 a ha hs]; rfl
    · by_cases hp : a.posterId = some caller
      · rw [b4 a ha hs hp]; rfl
      · cases hposter : populate s a.posterId with
        | none => rw [b3 a ha hs hposter]; rfl
        | some poster =>
          cases hany : a.interestedUsers.any (fun i => i.user == caller) with
          | true => rw [b5 a poster ha hs hp hposter hany]; rfl
          | false =>
            cases hv : validAnimal
                (a.withInterested (a.interestedUsers ++ [⟨caller, m, c, now⟩])) with
            | false => rw [b6 a poster ha hs hp hposter hany hv]; rfl
            | true =>
              rw [b7 a poster ha hs hp hposter hany hv] at h
              exact absurd rfl h

/-- C17, as stated, fails: the dog is stored and not adopted, U is not its
poster (its posterId is 9, which belongs to no user) and U does not occur in
interestedUsers, yet expressInterest by U does not succeed: it is answered 500,
because the populated poster is null when its id is read. -/
theorem C17_counterexample :
    (∃ a, findAnimal orphaned 1 = some a ∧ a.status ≠ "adopted" ∧ a.posterId ≠ some 2 ∧
      a.interestedUsers.any (fun i => i.user == 2) = false) ∧
    (serve orphaned 4 (.expressInterest 2 1 "hi" "u@x")).response.code = 500 := by
  decide

/-- C17, amended: expressInterest fails, in this order of precedence, with 404
when the animal is missing, with the already-adopted conflict when its status
is adopted, with the own-listing conflict when the caller is its poster, and
with the duplicate conflict when the caller already occurs in interestedUsers
(the poster reference resolving). It succeeds exactly when none of these
holds, the poster reference resolves to a stored user and the stored Animal
passes schema validation on save; whenever it does not succeed the store is
unchanged. -/
theorem C17_expressInterest_guards (s : Store) (now : Date) (caller id : Id) (m c : String)
    (u : User) (hu : findUser s caller = some u) :
    (findAnimal s id = none →
      (serve s now (.expressInterest caller id m c)).response = ⟨404, "Animal not found"⟩) ∧
    (∀ a, findAnimal s id = some a → a.status = "adopted" →
      (serve s now (.expressInterest caller id m c)).response
        = ⟨400, "Animal has already been adopted"⟩) ∧
    (∀ a, findAnimal s id = some a → a.status ≠ "adopted" → a.posterId = some caller →
      (serve s now (.expressInterest caller id m c)).response
        = ⟨400, "Cannot express interest in your own listing"⟩) ∧
    (∀ a poster, findAnimal s id = some a → a.status ≠ "adopted" → a.posterId ≠ some caller →
      populate s a.posterId = some poster →
      a.interestedUsers.any (fun i => i.user == caller) = true →
      (serve s now (.expressInterest caller id m c)).response
        = ⟨400, "You have already expressed interest in this animal"⟩) ∧
    ((serve s now (.expressInterest caller id m c)).response.code = 200 ↔
      ∃ a poster, findAnimal s id = some a ∧ a.status ≠ "adopted" ∧ a.posterId ≠ some caller ∧
        populate s a.posterId = some poster ∧
        a.interestedUsers.any (fun i => i.user == caller) = false ∧
        validAnimal (a.withInterested (a.interestedUsers ++ [⟨caller, m, c, now⟩])) = true) ∧
    ((serve s now (.expressInterest caller id m c)).response.code ≠ 200 →
      (serve s now (.expressInterest caller id m c)).store = s) := by
  obtain ⟨b1, b2, _, b4, b5, _, _⟩ := serve_expressInterest s now caller id m c u hu
  refine ⟨?_, ?_, ?_, ?_, expressInterest_ok_iff s now caller id m c u hu,
    expressInterest_failure_store s now caller id m c u hu⟩
  · intro ha; rw [b1 ha]; rfl
  · intro a ha hs; rw [b2 a ha hs]; rfl
  · intro a ha hs hp; rw [b4 a ha hs hp]; rfl
  · intro a poster ha hs hp hposter hany; rw [b5 a poster ha hs hp hposter hany]; rfl

/-- Witness for C17: U expresses interest in the dog twice; the second call
gets the duplicate conflict. -/
theorem C17_expressInterest_guards_witness :
    (serve (run listed [(3, .expressInterest 2 1 "hi" "u@x")]) 4
      (.expressInterest 2 1 "hi" "u@x")).response
      = ⟨400, "You have already expressed interest in this animal"⟩ :=
  (C17_expressInterest_guards (run listed [(3, .expressInterest 2 1 "hi" "u@x")]) 4 2 1
    "hi" "u@x" ⟨2, "U", "u@x", true, 0, 0⟩ (by decide)).2.2.2.1
    ((run listed [(3, .expressInterest 2 1 "hi" "u@x")]).animals.head (by decide))
    ⟨0, "P", "p@x", true, 1, 0⟩ (by decide) (by decide) (by decide) (by decide) (by decide)

/-- C18: an expressInterest by a stored user U that is answered 200 rewrites
the addressed Animal to the same document with one entry for U (the given
message and contact, the time of the call) appended at the end of
interestedUsers: earlier entries keep their order, the status and every other
field are as before, and every other Animal, all users and all Adoptions are
unchanged. A repeated call by U, with any message, is answered with the
duplicate conflict and writes nothing. If no user occurred twice in
interestedUsers before the call, none does after it. -/
theorem C18_expressInterest_appends (s : Store) (now : Date) (caller id : Id) (m c : String)
    (u : User) (hu : findUser s caller = some u)
    (h : (serve s now (.expressInterest caller id m c)).response.code = 200) :
    ∃ a, findAnimal s id = some a ∧
      findAnimal (serve s now (.expressInterest caller id m c)).store id
        = some { a with interestedUsers := a.interestedUsers ++ [Interest.mk caller m c now] } ∧
      (∀ j, j ≠ id →
        findAnimal (serve s now (.expressInterest caller id m c)).store j = findAnimal s j) ∧
      (serve s now (.expressInterest caller id m c)).store.users = s.users ∧
      (serve s now (.expressInterest caller id m c)).store.adoptions = s.adoptions ∧
      (∀ t2 m2 c2,
        serve (serve s now (.expressInterest caller id m c)).store t2
            (.expressInterest caller id m2 c2)
          = reply (serve s now (.expressInterest caller id m c)).store 400
            "You have already expressed interest in this animal") ∧
      ((a.interestedUsers.map Interest.user).Nodup →
        ((a.interestedUsers ++ [Interest.mk caller m c now]).map Interest.user).Nodup) := by
  obtain ⟨a, poster, ha, hs, hp, hposter, hany, hv⟩ :=
    (expressInterest_ok_iff s now caller id m c u hu).mp h
  have e := (serve_expressInterest s now caller id m c u hu).2.2.2.2.2.2 a poster ha hs hp
    hposter hany hv
  have hfind : findAnimal (serve s now (.expressInterest caller id m c)).store id
      = some (a.withInterested (a.interestedUsers ++ [Interest.mk caller m c now])) := by
    rw [e]
    exact find_updateFirst_same Animal.id
      (fun x => x.withInterested (a.interestedUsers ++ [Interest.mk caller m c now])) id s.animals a
      (fun _ => rfl) ha
  refine ⟨a, ha, hfind, ?_, by rw [e], by rw [e], ?_, ?_⟩
  · intro j hj
    rw [e]
    show (updateFirst (fun x => x.id == id)
      (fun x => x.withInterested (a.interestedUsers ++ [Interest.mk caller m c now]))
      s.animals).find? (fun x => x.id == j) = s.animals.find? (fun x => x.id == j)
    rw [find_updateFirst Animal.id
      (fun x => x.withInterested (a.interestedUsers ++ [Interest.mk caller m c now])) id j s.animals
      (fun _ => rfl), if_neg hj]
  · intro t2 m2 c2
    have hu1 : findUser (serve s now (.expressInterest caller id m c)).store caller = some u := by
      rw [e]; exact hu
    have hp1 : populate (serve s now (.expressInterest caller id m c)).store a.posterId
        = some poster := by
      rw [e]; exact hposter
    refine (serve_expressInterest _ t2 caller id m2 c2 u hu1).2.2.2.2.1
      (a.withInterested (a.interestedUsers ++ [Interest.mk caller m c now])) poster hfind hs hp hp1 ?_
    simp [Animal.withInterested]
  · intro hn
    rw [List.map_append, List.map_singleton, List.nodup_append]
    refine ⟨hn, List.nodup_singleton _, ?_⟩
    intro k hk hk2
    rw [List.mem_singleton] at hk2
    obtain ⟨i, hi, hki⟩ := List.mem_map.mp hk
    have hfalse := List.any_eq_false.mp hany i hi
    rw [hk2] at hki
    exact hfalse (by simpa using hki)

/-- Witness for C18: the first expression of interest of U in the dog. -/
theorem C18_expressInterest_appends_witness :
    ∃ a, findAnimal listed 1 = some a ∧
      findAnimal (serve listed 3 (.expressInterest 2 1 "hi" "u@x")).store 1
        = some { a with interestedUsers := a.interestedUsers ++ [Interest.mk 2 "hi" "u@x" 3] } ∧
      (∀ j, j ≠ 1 →
        findAnimal (serve listed 3 (.expressInterest 2 1 "hi" "u@x")).store j
          = findAnimal listed j) ∧
      (serve listed 3 (.expressInterest 2 1 "hi" "u@x")).store.users = listed.users ∧
      (serve listed 3 (.expressInterest 2 1 "hi" "u@x")).store.adoptions = listed.adoptions ∧
      (∀ t2 m2 c2,
        serve (serve listed 3 (.expressInterest 2 1 "hi" "u@x")).store t2
            (.expressInterest 2 1 m2 c2)
          = reply (serve listed 3 (.expressInterest 2 1 "hi" "u@x")).store 400
            "You have already expressed interest in this animal") ∧
      ((a.interestedUsers.map Interest.user).Nodup →
        ((a.interestedUsers ++ [Interest.mk 2 "hi" "u@x" 3]).map Interest.user).Nodup) :=
  C18_expressInterest_appends listed 3 2 1 "hi" "u@x" ⟨2, "U", "u@x", true, 0, 0⟩ (by decide)
    (by decide)

/-! ## C19 -/

/-- C19, as stated, fails: P has stored the type bird on the dog by an update,
which is not validated; markAdopted by P with the stored user U as adopter then
fails validation on save, is answered 500, and the dog stays available. -/
theorem C19_counterexample :
    (∃ a, findAnimal (run listed [(3, .update 0 1 (typePatch "bird") [])]) 1 = some a ∧
      a.posterId = some 0) ∧
    (findUser (run listed [(3, .update 0 1 (typePatch "bird") [])]) 2).isSome = true ∧
    (serve (run listed [(3, .update 0 1 (typePatch "bird") [])]) 4
      (.markAdopted 0 1 2)).response.code = 500 ∧
    (findAnimal (serve (run listed [(3, .update 0 1 (typePatch "bird") [])]) 4
      (.markAdopted 0 1 2)).store 1).map (fun a => a.status) = some "available" := by
  decide

/-- C19, amended: markAdopted by the poster of an Animal with an adopterId that
resolves to a stored user, when the Animal once marked passes the schema
validators, is answered 200, sets the status of the Animal to adopted, its
adopterId to that user and its adoptionDate to the time of the call, and raises
the animalsAdopted counter of that user by exactly 1, every other user being
unchanged. If adopterId does not resolve to a user the answer is 404 Adopter
not found and the store is unchanged. -/
theorem C19_markAdopted_effect (s : Store) (now : Date) (caller id adopterId : Id) (u : User)
    (a : Animal) (hu : findUser s caller = some u) (ha : findAnimal s id = some a)
    (hp : a.posterId = some caller) :
    (∀ adopter, findUser s adopterId = some adopter →
      validAnimal (a.confirm adopterId now) = true →
      (serve s now (.markAdopted caller id adopterId)).response.code = 200 ∧
      (∃ a1, findAnimal (serve s now (.markAdopted caller id adopterId)).store id = some a1 ∧
        a1.status = "adopted" ∧ a1.adopterId = some adopterId ∧
        a1.adoptionDate = some now) ∧
      findUser (serve s now (.markAdopted caller id adopterId)).store adopterId
        = some (adopter.addAdopted 1) ∧
      (adopter.addAdopted 1).animalsAdopted = adopter.animalsAdopted + 1 ∧
      (adopter.addAdopted 1).animalsRescued = adopter.animalsRescued ∧
      (∀ i, i ≠ adopterId →
        findUser (serve s now (.markAdopted caller id adopterId)).store i = findUser s i)) ∧
    (findUser s adopterId = none →
      serve s now (.markAdopted caller id adopterId) = reply s 404 "Adopter not found") := by
  obtain ⟨_, _, _, b4, _, b6⟩ := serve_markAdopted s now caller id adopterId u hu
  constructor
  · intro adopter had hv
    rw [b6 a adopter ha hp had hv]
    refine ⟨rfl, ⟨a.confirm adopterId now, ?_, rfl, rfl, rfl⟩, ?_, rfl, rfl, ?_⟩
    · exact find_updateFirst_same Animal.id (fun x => x.confirm adopterId now) id s.animals a
        (fun _ => rfl) ha
    · exact find_updateFirst_same User.id (fun x => x.addAdopted 1) adopterId s.users adopter
        (fun _ => rfl) had
    · intro i hi
      show (updateFirst (fun x => x.id == adopterId) (fun x => x.addAdopted 1) s.users).find?
        (fun x => x.id == i) = s.users.find? (fun x => x.id == i)
      rw [find_updateFirst User.id (fun x => x.addAdopted 1) adopterId i s.users
        (fun _ => rfl), if_neg hi]
  · intro had
    exact b4 a ha hp had

/-- Witness for C19: P marks the dog adopted by U. -/
theorem C19_markAdopted_effect_witness :
    (serve listed 3 (.markAdopted 0 1 2)).response.code = 200 ∧
    (∃ a1, findAnimal (serve listed 3 (.markAdopted 0 1 2)).store 1 = some a1 ∧
      a1.status = "adopted" ∧ a1.adopterId = some 2 ∧ a1.adoptionDate = some 3) ∧
    findUser (serve listed 3 (.markAdopted 0 1 2)).store 2
      = some ((⟨2, "U", "u@x", true, 0, 0⟩ : User).addAdopted 1) ∧
    ((⟨2, "U", "u@x", true, 0, 0⟩ : User).addAdopted 1).animalsAdopted = (0 : Int) + 1 ∧
    ((⟨2, "U", "u@x", true, 0, 0⟩ : User).addAdopted 1).animalsRescued = 0 ∧
    (∀ i, i ≠ 2 → findUser (serve listed 3 (.markAdopted 0 1 2)).store i = findUser listed i) :=
  (C19_markAdopted_effect listed 3 0 1 2 ⟨0, "P", "p@x", true, 1, 0⟩
    (listed.animals.head (by decide)) (by decide) (by decide) (by decide)).1
    ⟨2, "U", "u@x", true, 0, 0⟩ (by decide) (by decide)

/-! ## C21, C29, C30: the catalogue -/

theorem listedBefore_total (a b : Animal) : listedBefore a b ∨ listedBefore b a := by
  unfold listedBefore
  cases ha : a.urgent <;> cases hb : b.urgent <;> simp <;> exact Nat.le_total _ _

theorem listedBefore_trans (a b c : Animal) (h1 : listedBefore a b) (h2 : listedBefore b c) :
    listedBefore a c := by
  unfold listedBefore at *
  cases ha : a.urgent <;> cases hb : b.urgent <;> cases hc : c.urgent <;>
    simp [ha, hb, hc] at h1 h2 ⊢ <;> exact Nat.le_trans h2 h1

theorem ordered_sorted (s : Store) (q : ListQuery) : (ordered s q).Sorted listedBefore := by
  haveI : IsTotal Animal listedBefore := ⟨listedBefore_total⟩
  haveI : IsTrans Animal listedBefore := ⟨listedBefore_trans⟩
  exact List.sorted_insertionSort listedBefore (matching s q)

theorem ordered_perm (s : Store) (q : ListQuery) : (ordered s q).Perm (matching s q) :=
  List.perm_insertionSort listedBefore (matching s q)

theorem ordered_length (s : Store) (q : ListQuery) :
    (ordered s q).length = (matching s q).length := (ordered_perm s q).length_eq

theorem matchesFilter_buildFilter (q : ListQuery) (a : Animal) :
    matchesFilter (buildFilter q) a = meetsQuery q a := by
  obtain ⟨type, status, urgent, needsFoster⟩ := q
  have h1 : (match (if truthy type = true then type else none) with
      | some t => a.type == t
      | none => true) = (match type with
      | some t => t == "" || a.type == t
      | none => true) := by
    cases type with
    | none => simp [truthy]
    | some t => by_cases ht : t = "" <;> simp [truthy, ht]
  have h2 : (match (if truthy status = true then status else none) with
      | some st => a.status == st
      | none => true) = (match status with
      | some st => st == "" || a.status == st
      | none => true) := by
    cases status with
    | none => simp [truthy]
    | some t => by_cases ht : t = "" <;> simp [truthy, ht]
  have h3 : ∀ (v : Option String) (b : Bool),
      (match (if (v == some "true") = true then some true else none) with
      | some x => b == x
      | none => true) = (v != some "true" || b) := by
    intro v b
    by_cases hv : v = some "true"
    · simp [hv]
    · simp [hv]
  simp only [matchesFilter, buildFilter, meetsQuery, h1, h2, h3]

theorem matching_eq (s : Store) (q : ListQuery) :
    matching s q = s.animals.filter (meetsQuery q) := by
  unfold matching
  congr 1
  funext a
  exact matchesFilter_buildFilter q a

theorem mem_matching (s : Store) (q : ListQuery) (a : Animal) (h : a ∈ matching s q) :
    a ∈ s.animals ∧ (∀ t, q.type = some t → t ≠ "" → a.type = t) ∧
    (∀ st, q.status = some st → st ≠ "" → a.status = st) ∧
    (q.urgent = some "true" → a.urgent = true) ∧
    (q.needsFoster = some "true" → a.needsFoster = true) := by
  rw [matching_eq, List.mem_filter] at h
  obtain ⟨hmem, hm⟩ := h
  simp only [meetsQuery, Bool.and_eq_true] at hm
  obtain ⟨⟨⟨h1, h2⟩, h3⟩, h4⟩ := hm
  refine ⟨hmem, ?_, ?_, ?_, ?_⟩
  · intro t ht hne; rw [ht] at h1; simpa [hne] using h1
  · intro t ht hne; rw [ht] at h2; simpa [hne] using h2
  · intro hu; rw [hu] at h3; simpa using h3
  · intro hu; rw [hu] at h4; simpa using h4

theorem ceil_pages (total limit : Nat) (hl : 1 ≤ limit) :
    total ≤ (total + limit - 1) / limit * limit ∧
    (total + limit - 1) / limit * limit < total + limit := by
  have h1 := Nat.div_add_mod (total + limit - 1) limit
  have h2 := Nat.mod_lt (total + limit - 1) (Nat.lt_of_lt_of_le Nat.zero_lt_one hl)
  rw [Nat.mul_comm] at h1
  constructor <;> omega

/-- C21: for every store, query, page at least 1 and limit at least 1, the
records of the page are the slice from (page-1)*limit up to page*limit of the
animals that meet the query, ordered by urgent descending then creation time
descending (a sorted rearrangement of exactly those stored animals). The page
has at most limit records; every record is stored and agrees with every filter
key of the request: its type is the requested type, its status the requested
status, and it is urgent, or needs foster, when the request says 'true'. No
non-urgent record precedes an urgent one and records of equal urgency come
newest first; pagination.total is the number of stored animals that meet the
query and pagination.pages is the ceiling of total/limit. -/
theorem C21_list_page (s : Store) (q : ListQuery) (page limit : Nat) (hp : 1 ≤ page)
    (hl : 1 ≤ limit) :
    (list s q page limit).animals
      = ((ordered s q).take (page * limit)).drop ((page - 1) * limit) ∧
    (ordered s q).Perm (s.animals.filter (meetsQuery q)) ∧
    (ordered s q).Sorted listedBefore ∧
    (list s q page limit).animals.length ≤ limit ∧
    (∀ a ∈ (list s q page limit).animals,
      a ∈ s.animals ∧ (∀ t, q.type = some t → t ≠ "" → a.type = t) ∧
      (∀ st, q.status = some st → st ≠ "" → a.status = st) ∧
      (q.urgent = some "true" → a.urgent = true) ∧
      (q.needsFoster = some "true" → a.needsFoster = true)) ∧
    (list s q page limit).animals.Pairwise (fun a b =>
      (b.urgent = true → a.urgent = true) ∧ (a.urgent = b.urgent → b.createdAt ≤ a.createdAt)) ∧
    (list s q page limit).pagination.total = s.animals.countP (meetsQuery q) ∧
    (list s q page limit).pagination.total
      ≤ (list s q page limit).pagination.pages * limit ∧
    (list s q page limit).pagination.pages * limit
      < (list s q page limit).pagination.total + limit := by
  have hsub : List.Sublist (((ordered s q).drop ((page - 1) * limit)).take limit)
      (ordered s q) :=
    (List.take_sublist _ _).trans (List.drop_sublist _ _)
  refine ⟨?_, ?_, ordered_sorted s q, ?_, ?_, ?_, ?_,
    (ceil_pages _ limit hl).1, (ceil_pages _ limit hl).2⟩
  · show ((ordered s q).drop ((page - 1) * limit)).take limit = _
    rw [List.drop_take]
    congr 1
    obtain ⟨k, rfl⟩ : ∃ k, page = k + 1 := ⟨page - 1, by omega⟩
    simp [Nat.add_mul]
  · rw [← matching_eq]; exact ordered_perm s q
  · show (((ordered s q).drop ((page - 1) * limit)).take limit).length ≤ limit
    exact List.length_take_le _ _
  · intro a ha
    exact mem_matching s q a ((ordered_perm s q).subset (hsub.subset ha))
  · have hs : (ordered s q).Pairwise listedBefore := ordered_sorted s q
    refine (hs.sublist hsub).imp ?_
    intro a b hab
    unfold listedBefore at hab
    rcases hab with ⟨h1, h2⟩ | ⟨h1, h2⟩
    · exact ⟨fun _ => h1, fun h => by rw [h1, h2] at h; cases h⟩
    · exact ⟨fun hb => by rw [h1]; exact hb, fun _ => h2⟩
  · show (matching s q).length = _
    rw [matching_eq, List.countP_eq_length_filter]

/-- Witness for C21: with a non-urgent dog and an urgent cat stored, the first
page of the query type=cat holds the cat alone, out of one matching animal. -/
theorem C21_list_page_witness :
    (list (run listed [(3, .create 0 { CreateReq.minimal "cat" mainStreet [.image "c.png"] with
        urgent := some "true" })]) { ListQuery.all with type := some "cat" } 1 1).animals.map
        (fun a => (a.id, a.type)) = [(3, "cat")] ∧
    (list (run listed [(3, .create 0 { CreateReq.minimal "cat" mainStreet [.image "c.png"] with
        urgent := some "true" })]) { ListQuery.all with type := some "cat" } 1 1).pagination
        = ⟨1, 1, 1, 1⟩ ∧
    (∀ a ∈ (list (run listed [(3, .create 0 { CreateReq.minimal "cat" mainStreet
        [.image "c.png"] with urgent := some "true" })])
        { ListQuery.all with type := some "cat" } 1 1).animals, a.type = "cat") :=
  ⟨by decide, by decide, fun a ha =>
    ((C21_list_page (run listed [(3, .create 0 { CreateReq.minimal "cat" mainStreet
        [.image "c.png"] with urgent := some "true" })])
        { ListQuery.all with type := some "cat" } 1 1 (by decide) (by decide)).2.2.2.2.1
      a ha).2.1 "cat" rfl (by decide)⟩

/-! ### C29 -/

theorem flatMap_pages {α : Type} (l : List α) (limit n : Nat) :
    (List.range n).flatMap (fun k => (l.drop (k * limit)).take limit) = l.take (n * limit) := by
  induction n with
  | zero => simp
  | succ n ih =>
    rw [List.range_succ, List.flatMap_append, ih, Nat.succ_mul, List.take_add]
    simp

/-- C29: for every store, query and limit at least 1, the pages 1, 2, ...,
pagination.pages of list, concatenated, are exactly the ordered list of the
matching animals, which is a rearrangement of the matching animals (each one
once, none omitted); every page beyond pagination.pages is empty. -/
theorem C29_pages_cover (s : Store) (q : ListQuery) (limit : Nat) (hl : 1 ≤ limit) :
    (List.range (list s q 1 limit).pagination.pages).flatMap
        (fun k => (list s q (k + 1) limit).animals) = ordered s q ∧
    (ordered s q).Perm (s.animals.filter (matchesFilter (buildFilter q))) ∧
    (∀ page, (list s q 1 limit).pagination.pages < page →
      (list s q page limit).animals = []) := by
  obtain ⟨c1, c2⟩ := ceil_pages (matching s q).length limit hl
  refine ⟨?_, ordered_perm s q, ?_⟩
  · show (List.range (((matching s q).length + limit - 1) / limit)).flatMap
      (fun k => ((ordered s q).drop ((k + 1 - 1) * limit)).take limit) = ordered s q
    simp only [Nat.add_sub_cancel]
    rw [flatMap_pages]
    exact List.take_of_length_le (by rw [ordered_length]; exact c1)
  · intro page hpage
    show ((ordered s q).drop ((page - 1) * limit)).take limit = []
    have hpage' : ((matching s q).length + limit - 1) / limit < page := hpage
    have hle : ((matching s q).length + limit - 1) / limit * limit ≤ (page - 1) * limit :=
      Nat.mul_le_mul_right _ (by omega)
    rw [List.drop_eq_nil_of_le (by rw [ordered_length]; omega)]
    exact List.take_nil

/-- Witness for C29: the catalogue of two animals read in pages of one. -/
theorem C29_pages_cover_witness :
    (List.range (list (run listed [(3, .create 0 (CreateReq.minimal "cat" mainStreet
        [.image "c.png"]))]) ListQuery.all 1 1).pagination.pages).flatMap
        (fun k => (list (run listed [(3, .create 0 (CreateReq.minimal "cat" mainStreet
          [.image "c.png"]))]) ListQuery.all (k + 1) 1).animals)
      = ordered (run listed [(3, .create 0 (CreateReq.minimal "cat" mainStreet [.image "c.png"]))])
        ListQuery.all ∧
    (ordered (run listed [(3, .create 0 (CreateReq.minimal "cat" mainStreet [.image "c.png"]))])
        ListQuery.all).map (fun a => a.id) = [3, 1] :=
  ⟨(C29_pages_cover (run listed [(3, .create 0 (CreateReq.minimal "cat" mainStreet
      [.image "c.png"]))]) ListQuery.all 1 (by decide)).1, by decide⟩

/-! ### C30 -/

/-- C30: in list, a value of the urgent parameter other than the string true
gives the same answer, animals and pagination, as the same request without the
parameter, so urgent=false does not select the non-urgent animals; likewise
for needsFoster. -/
theorem C30_only_true_filters (s : Store) (q : ListQuery) (page limit : Nat) (v : String)
    (hv : v ≠ "true") :
    list s { q with urgent := some v } page limit = list s { q with urgent := none } page limit ∧
    list s { q with needsFoster := some v } page limit
      = list s { q with needsFoster := none } page limit := by
  have h1 : buildFilter { q with urgent := some v } = buildFilter { q with urgent := none } := by
    simp [buildFilter, hv]
  have h2 : buildFilter { q with needsFoster := some v }
      = buildFilter { q with needsFoster := none } := by
    simp [buildFilter, hv]
  constructor
  · simp only [list, ordered, matching, h1]
  · simp only [list, ordered, matching, h2]

/-- Witness for C30: with an urgent cat and a non-urgent dog stored, the query
urgent=false returns both, the urgent cat first. -/
theorem C30_only_true_filters_witness :
    list (run listed [(3, .create 0 { CreateReq.minimal "cat" mainStreet [.image "c.png"] with
        urgent := some "true" })]) { ListQuery.all with urgent := some "false" } 1 12
      = list (run listed [(3, .create 0 { CreateReq.minimal "cat" mainStreet [.image "c.png"] with
        urgent := some "true" })]) { ListQuery.all with urgent := none } 1 12 ∧
    (list (run listed [(3, .create 0 { CreateReq.minimal "cat" mainStreet [.image "c.png"] with
        urgent := some "true" })]) { ListQuery.all with urgent := some "false" } 1
        12).animals.map (fun a => (a.id, a.urgent)) = [(3, true), (1, false)] :=
  ⟨(C30_only_true_filters (run listed [(3, .create 0 { CreateReq.minimal "cat" mainStreet
      [.image "c.png"] with urgent := some "true" })]) ListQuery.all 1 12 "false" (by decide)).1,
    by decide⟩

/-! ## C22 -/

theorem uploadError_length (k : Nat) (files : List Upload) (h : uploadError k files = none) :
    files.length ≤ k := by
  induction files generalizing k with
  | nil => exact Nat.zero_le _
  | cons f rest ih =>
    unfold uploadError at h
    split at h
    · cases h
    · split at h
      · cases h
      · split at h
        · cases h
        · rename_i h1 _ _
          have hk : k ≠ 0 := by
            intro h0
            apply h1
            simp [h0]
          have := ih (k - 1) h
          show rest.length + 1 ≤ k
          omega

/-- C22, as stated, fails. The poster P of the dog sends an update with six
photos: the upload middleware answers 500 and the photo list of the dog is
what it was. P sends an update with one photo and a location string that
`JSON.parse` rejects: the handler answers 500 and the photo list of the dog is
what it was. -/
theorem C22_counterexample :
    (∃ a, findAnimal listed 1 = some a ∧ a.posterId = some 0) ∧
    1 ≤ sixImages.length ∧
    (serve listed 3 (.update 0 1 AnimalPatch.empty sixImages)).response.code = 500 ∧
    (findAnimal (serve listed 3 (.update 0 1 AnimalPatch.empty sixImages)).store 1).map
        (fun a => a.photos) = (findAnimal listed 1).map (fun a => a.photos) ∧
    (serve listed 3 (.update 0 1 { AnimalPatch.empty with location := .set none }
        [.image "b.png"])).response.code = 500 ∧
    (findAnimal (serve listed 3 (.update 0 1 { AnimalPatch.empty with location := .set none }
        [.image "b.png"])).store 1).map (fun a => a.photos)
      = (findAnimal listed 1).map (fun a => a.photos) := by
  decide

/-- C22, amended: an update by a stored caller that carries at least one
uploaded photo is answered 200 exactly when the upload middleware accepts the
files, the caller is the poster of the Animal, the location, if sent as a
string, parses, and the update document is accepted. When it is answered 200,
the photo list of the Animal afterwards is the list it had before followed by
the references of the new files: the old photos are its first entries in
unchanged order, and its length is the old length plus the number of files,
at most five per request, whatever the old length was. When it is not, the
store is unchanged and nothing is appended. -/
theorem C22_update_appends_photos (s : Store) (now : Date) (caller id : Id) (p : AnimalPatch)
    (files : List Upload) (u : User) (hu : findUser s caller = some u)
    (hn : 1 ≤ files.length) :
    ((serve s now (.update caller id p files)).response.code = 200 ↔
      uploadError 5 files = none ∧ (∃ a, findAnimal s id = some a ∧ a.posterId = some caller) ∧
        p.location ≠ .set none ∧ p.rejected = false) ∧
    ((serve s now (.update caller id p files)).response.code = 200 →
      ∃ a a1, findAnimal s id = some a ∧ a.posterId = some caller ∧
        findAnimal (serve s now (.update caller id p files)).store id = some a1 ∧
        a1.photos = a.photos ++ photoRefs files ∧
        a1.photos.take a.photos.length = a.photos ∧
        a1.photos.length = a.photos.length + files.length ∧
        files.length ≤ 5) ∧
    ((serve s now (.update caller id p files)).response.code ≠ 200 →
      (serve s now (.update caller id p files)).store = s) := by
  cases hfl : uploadError 5 files with
  | some e =>
    rw [serve_update_refused s now caller id p files u e hu hfl]
    refine ⟨⟨fun h => ?_, fun h => ?_⟩, fun h => ?_, fun _ => rfl⟩
    · simp [reply] at h
    · cases h.1
    · simp [reply] at h
  | none =>
    obtain ⟨b1, b0, b2, b3, b4⟩ := serve_update s now caller id p files u hu hfl
    cases ha : findAnimal s id with
    | none =>
      rw [b1 ha]
      refine ⟨⟨fun h => ?_, fun h => ?_⟩, fun h => ?_, fun _ => rfl⟩
      · simp [reply] at h
      · obtain ⟨_, ⟨a, h1, _⟩, _⟩ := h; cases h1
      · simp [reply] at h
    | some a =>
      cases hpo : a.posterId with
      | none =>
        rw [b0 a ha hpo]
        refine ⟨⟨fun h => ?_, fun h => ?_⟩, fun h => ?_, fun _ => rfl⟩
        · simp [serverError, reply] at h
        · obtain ⟨_, ⟨a2, h1, h2⟩, _⟩ := h
          cases h1
          rw [hpo] at h2; cases h2
        · simp [serverError, reply] at h
      | some poster =>
        by_cases hp : poster = caller
        · subst hp
          by_cases hl : p.location = .set none ∨ p.rejected = true
          · rw [b3 a ha hpo hl]
            refine ⟨⟨fun h => ?_, fun h => ?_⟩, fun h => ?_, fun _ => rfl⟩
            · simp [serverError, reply] at h
            · obtain ⟨_, _, h3, h4⟩ := h
              rcases hl with hl | hl
              · exact absurd hl h3
              · rw [h4] at hl; cases hl
            · simp [serverError, reply] at h
          · have hl1 : p.location ≠ .set none := fun h => hl (Or.inl h)
            have hl2 : p.rejected = false := by
              cases hr : p.rejected with
              | false => rfl
              | true => exact absurd (Or.inr hr) hl
            have hpos : files.length > 0 := hn
            have hphotos : (applyPatch p files a.photos a).photos
                = a.photos ++ photoRefs files := by
              simp [applyPatch, hpos]
            have e := b4 a ha hpo hl1 hl2
            refine ⟨⟨fun _ => ⟨rfl, ⟨a, rfl, hpo⟩, hl1, hl2⟩, fun _ => by rw [e]⟩,
              fun _ => ?_, fun h => ?_⟩
            · refine ⟨a, applyPatch p files a.photos a, rfl, hpo, ?_, hphotos, ?_, ?_,
                uploadError_length 5 files hfl⟩
              · rw [e]
                exact find_updateFirst_same Animal.id (applyPatch p files a.photos) id
                  s.animals a (fun _ => rfl) ha
              · rw [hphotos]; simp
              · rw [hphotos]; simp [photoRefs]
            · rw [e] at h; exact absurd rfl h
        · rw [b2 a poster ha hpo hp]
          refine ⟨⟨fun h => ?_, fun h => ?_⟩, fun h => ?_, fun _ => rfl⟩
          · simp [reply] at h
          · obtain ⟨_, ⟨a2, h1, h2⟩, _⟩ := h
            cases h1
            rw [hpo] at h2
            exact absurd (Option.some.inj h2) hp
          · simp [reply] at h

/-- Witness for C22: P adds five photos to the dog, which then has six. -/
theorem C22_update_appends_photos_witness :
    ∃ a a1, findAnimal listed 1 = some a ∧ a.posterId = some 0 ∧
      findAnimal (serve listed 3 (.update 0 1 AnimalPatch.empty
        [.image "1.png", .image "2.png", .image "3.png", .image "4.png",
          .image "5.png"])).store 1 = some a1 ∧
      a1.photos = a.photos ++ photoRefs [.image "1.png", .image "2.png", .image "3.png",
        .image "4.png", .image "5.png"] ∧
      a1.photos.take a.photos.length = a.photos ∧
      a1.photos.length = a.photos.length +
        [Upload.image "1.png", .image "2.png", .image "3.png", .image "4.png",
          .image "5.png"].length ∧
      [Upload.image "1.png", .image "2.png", .image "3.png", .image "4.png",
          .image "5.png"].length ≤ 5 :=
  (C22_update_appends_photos listed 3 0 1 AnimalPatch.empty
    [.image "1.png", .image "2.png", .image "3.png", .image "4.png", .image "5.png"]
    ⟨0, "P", "p@x", true, 1, 0⟩ (by decide) (by decide)).2.1 (by decide)

/-! ## C23 -/

/-- C23: sendEmail returns without raising for every mail, whether the
transport resolves or rejects; hence for every request, create, markAdopted,
requestAdoption and updateStatus among them, the store, the response and the
mails handed over are the same under any two transports, and are those of the
handler itself. -/
theorem C23_mail_failures_swallowed (transport transport2 : Mail → Bool) (m : Mail)
    (s : Store) (now : Date) (op : Op) :
    sendEmail transport m = .returned ∧
    serveWith transport s now op = serve s now op ∧
    serveWith transport s now op = serveWith transport2 s now op := by
  have hsend : ∀ (t : Mail → Bool) (x : Mail), sendEmail t x = .returned := by
    intro t x
    unfold sendEmail sendMail tryCatch
    cases t x <;> rfl
  have hserve : ∀ t : Mail → Bool, serveWith t s now op = serve s now op := by
    intro t
    unfold serveWith awaitMails
    have hall : (serve s now op).mails.all (fun x => sendEmail t x == .returned) = true := by
      rw [List.all_eq_true]
      intro x _
      rw [hsend t x]
      rfl
    rw [if_pos hall]
  exact ⟨hsend transport m, hserve transport, by rw [hserve transport, hserve transport2]⟩

/-! ## C24 -/

theorem reachableVia_mono {ok ok2 : Store → Op → Prop} (hm : ∀ s op, ok s op → ok2 s op)
    {s : Store} (h : ReachableVia ok s) : ReachableVia ok2 s := by
  induction h with
  | init => exact ReachableVia.init
  | step s now op _ hok ih => exact ReachableVia.step s now op ih (hm s op hok)

theorem noUpdate_keepsPoster (s : Store) (op : Op) (h : noUpdate s op) : keepsPoster s op := by
  cases op with
  | update caller id p files => exact absurd h (by simp [noUpdate])
  | _ => trivial

/-- C24: in every state reachable from the empty store through register,
create, delete, expressInterest, markAdopted, requestAdoption and updateStatus,
without any update, the counter animalsRescued of every user equals the number
of stored Animals whose posterId is that user. -/
theorem C24_rescued_counts_animals (s : Store) (h : ReachableVia noUpdate s) :
    ∀ u ∈ s.users, u.animalsRescued = (rescuesOf s u.id : Int) :=
  (reachableVia_rescuedMatches (reachableVia_mono noUpdate_keepsPoster h)).2

/-- Witness for C24: P lists the dog, U registers and P marks the dog adopted
by U; the counter of P is 1 and P is the poster of one stored Animal. -/
theorem C24_rescued_counts_animals_witness :
    (⟨0, "P", "p@x", true, 1, 0⟩ : User).animalsRescued = (rescuesOf
      (serve (serve (serve (serve emptyStore 0 (.register "P" "p@x" true)).store 1
        (.create 0 (CreateReq.minimal "dog" mainStreet [.image "a.png"]))).store 2
        (.register "U" "u@x" true)).store 3 (.markAdopted 0 1 2)).store
      (⟨0, "P", "p@x", true, 1, 0⟩ : User).id : Int) :=
  C24_rescued_counts_animals _
    (ReachableVia.step _ 3 (.markAdopted 0 1 2)
      (ReachableVia.step _ 2 (.register "U" "u@x" true)
        (ReachableVia.step _ 1 (.create 0 (CreateReq.minimal "dog" mainStreet [.image "a.png"]))
          (ReachableVia.step _ 0 (.register "P" "p@x" true) ReachableVia.init trivial)
          trivial) trivial) trivial)
    ⟨0, "P", "p@x", true, 1, 0⟩ (by decide)

/-! ## C26 -/

/-- C26: updateStatus never changes the User collection: for every store,
caller, adoption id, newStatus (completed included) and notes, the users, and
so the counters animalsAdopted and animalsRescued of every user, are the same
before and after. -/
theorem C26_updateStatus_keeps_stats (s : Store) (now : Date) (caller id : Id)
    (status : String) (notes : Option String) :
    (serve s now (.updateStatus caller id status notes)).store.users = s.users := by
  have h := serve_step s now (.updateStatus caller id status notes)
  generalize (serve s now (.updateStatus caller id status notes)).store = s1 at h
  cases h <;> rfl

/-! ## C25 -/

/-- Adoptions are never removed, and a step keeps the animal, adopter and
poster of every stored Adoption. -/
theorem step_findAdoption {s : Store} {now : Date} {op : Op} {s1 : Store}
    (h : Step s now op s1) (id : Id) (d : Adoption) (hd : findAdoption s id = some d) :
    ∃ d1, findAdoption s1 id = some d1 ∧ d1.animal = d.animal ∧ d1.adopter = d.adopter ∧
      d1.poster = d.poster := by
  have key : ∀ (i : Id) (f : Adoption → Adoption), (∀ x, (f x).id = x.id) →
      (∀ x, (f x).animal = x.animal ∧ (f x).adopter = x.adopter ∧ (f x).poster = x.poster) →
      ∃ d1, (updateFirst (fun x => x.id == i) f s.adoptions).find? (fun x => x.id == id)
          = some d1 ∧ d1.animal = d.animal ∧ d1.adopter = d.adopter ∧ d1.poster = d.poster := by
    intro i f hf hk
    rw [find_updateFirst Adoption.id f i id s.adoptions hf]
    have hd' : s.adoptions.find? (fun x => x.id == id) = some d := hd
    by_cases hi : id = i
    · rw [if_pos hi, hd']; exact ⟨f d, rfl, (hk d).1, (hk d).2.1, (hk d).2.2⟩
    · rw [if_neg hi, hd']; exact ⟨d, rfl, rfl, rfl, rfl⟩
  cases h with
  | idle => exact ⟨d, hd, rfl, rfl, rfl⟩
  | register => exact ⟨d, hd, rfl, rfl, rfl⟩
  | create => exact ⟨d, hd, rfl, rfl, rfl⟩
  | update => exact ⟨d, hd, rfl, rfl, rfl⟩
  | delete => exact ⟨d, hd, rfl, rfl, rfl⟩
  | expressInterest => exact ⟨d, hd, rfl, rfl, rfl⟩
  | markAdopted => exact ⟨d, hd, rfl, rfl, rfl⟩
  | requestAdoption caller animalId m c u a poster =>
    exact ⟨d, find_append_of_some _ _ _ _ hd, rfl, rfl, rfl⟩
  | setStatus caller i status notes u x poster =>
    exact key i (fun y => y.setStatus status (notesAfter notes x.notes)) (fun _ => rfl)
      (fun _ => ⟨rfl, rfl, rfl⟩)
  | complete caller i notes saved u x poster a adopter =>
    cases saved with
    | false => exact ⟨d, hd, rfl, rfl, rfl⟩
    | true =>
      exact key i (fun y => (y.setStatus "completed" (notesAfter notes x.notes)).setDate now)
        (fun _ => rfl) (fun _ => ⟨rfl, rfl, rfl⟩)

theorem step_adopterIsNotPoster {s : Store} {now : Date} {op : Op} {s1 : Store}
    (h : Step s now op s1) (hs : AdopterIsNotPoster s) : AdopterIsNotPoster s1 := by
  intro d1 hd1
  rcases step_adoptions h d1 hd1 with hold | ⟨caller, animalId, m, c, u, a, poster, _, _, _, _,
      hne, _, _, hd⟩ | ⟨caller, id, status, notes, d, _, hd, _, _, _, had, hpo, _⟩
  · exact hs d1 hold
  · rw [hd]
    exact fun heq => hne heq.symm
  · rw [had, hpo]
    exact hs d (mem_of_find _ _ _ hd)

/-- C25: in every state of the service every Adoption has an adopter other
than its poster; and whatever request is served next, every stored Adoption is
still stored afterwards with the same animal, adopter and poster. -/
theorem C25_adopter_is_not_poster (s : Store) (h : Reachable s) :
    AdopterIsNotPoster s ∧
    (∀ now op id d, findAdoption s id = some d →
      ∃ d1, findAdoption (serve s now op).store id = some d1 ∧ d1.animal = d.animal ∧
        d1.adopter = d.adopter ∧ d1.poster = d.poster) := by
  constructor
  · induction h with
    | init => intro d hd; cases hd
    | step s now op _ ih => exact step_adopterIsNotPoster (serve_step s now op) ih
  · intro now op id d hd
    exact step_findAdoption (serve_step s now op) id d hd

/-- Witness for C25: the store after U requested the dog P listed. -/
theorem C25_adopter_is_not_poster_witness : AdopterIsNotPoster requested :=
  (C25_adopter_is_not_poster requested (reachable_run (reachable_run Reachable.init _) _)).1

/-! ## C27 -/

/-- An authenticated markAdopted answered 200 passed every guard. -/
theorem markAdopted_ok (s : Store) (now : Date) (caller id adopterId : Id) (u : User)
    (hu : findUser s caller = some u)
    (h : (serve s now (.markAdopted caller id adopterId)).response.code = 200) :
    ∃ a adopter, findAnimal s id = some a ∧ a.posterId = some caller ∧
      findUser s adopterId = some adopter ∧ validAnimal (a.confirm adopterId now) = true := by
  obtain ⟨b1, b2, b3, b4, b5, _⟩ := serve_markAdopted s now caller id adopterId u hu
  cases ha : findAnimal s id with
  | none => rw [b1 ha] at h; simp [reply] at h
  | some a =>
    cases hposter : populate s a.posterId with
    | none => rw [b2 a ha hposter] at h; simp [serverError, reply] at h
    | some poster =>
      by_cases hp : a.posterId = some caller
      · cases had : findUser s adopterId with
        | none => rw [b4 a ha hp had] at h; simp [reply] at h
        | some adopter =>
          cases hv : validAnimal (a.confirm adopterId now) with
          | false => rw [b5 a adopter ha hp had hv] at h; simp [serverError, reply] at h
          | true => exact ⟨a, adopter, rfl, hp, rfl, hv⟩
      · rw [b3 a poster ha hposter hp] at h; simp [reply] at h

/-- C27, as stated, fails: P marks the dog adopted by U, then stores the type
bird on it by an update, which is not validated; the dog is adopted, P is its
poster and U exists, yet a further markAdopted by P fails validation on save,
is answered 500, and the counter of U stays at 1. -/
theorem C27_counterexample :
    (∃ a, findAnimal (run listed [(3, .markAdopted 0 1 2),
        (4, .update 0 1 (typePatch "bird") [])]) 1 = some a ∧
      a.status = "adopted" ∧ a.posterId = some 0) ∧
    (findUser (run listed [(3, .markAdopted 0 1 2),
        (4, .update 0 1 (typePatch "bird") [])]) 2).map (fun x => x.animalsAdopted)
      = some 1 ∧
    (serve (run listed [(3, .markAdopted 0 1 2), (4, .update 0 1 (typePatch "bird") [])]) 5
      (.markAdopted 0 1 2)).response.code = 500 ∧
    (findUser (serve (run listed [(3, .markAdopted 0 1 2),
        (4, .update 0 1 (typePatch "bird") [])]) 5 (.markAdopted 0 1 2)).store 2).map
        (fun x => x.animalsAdopted) = some 1 := by
  decide

/-- C27, amended: markAdopted does not check the current status of the Animal.
On an Animal that is already adopted and passes the schema validators, a
further markAdopted by the poster with an existing adopter is answered 200,
overwrites adopterId and adoptionDate, and raises the animalsAdopted counter
of that adopter by 1 again. In particular, when a markAdopted was answered
200, the same call repeated right after it is answered 200 too, and the
counter of the adopter ends 2 above where it started, for one Animal. -/
theorem C27_markAdopted_repeats (s : Store) (t1 t2 : Date) (caller id adopterId : Id)
    (u : User) (hu : findUser s caller = some u) :
    (∀ a adopter, findAnimal s id = some a → a.posterId = some caller → a.status = "adopted" →
      findUser s adopterId = some adopter → validAnimal a = true →
      (serve s t1 (.markAdopted caller id adopterId)).response.code = 200 ∧
      (∃ a1, findAnimal (serve s t1 (.markAdopted caller id adopterId)).store id = some a1 ∧
        a1.status = "adopted" ∧ a1.adopterId = some adopterId ∧
        a1.adoptionDate = some t1) ∧
      (∃ u1, findUser (serve s t1 (.markAdopted caller id adopterId)).store adopterId
        = some u1 ∧ u1.animalsAdopted = adopter.animalsAdopted + 1)) ∧
    ((serve s t1 (.markAdopted caller id adopterId)).response.code = 200 →
      (serve (serve s t1 (.markAdopted caller id adopterId)).store t2
        (.markAdopted caller id adopterId)).response.code = 200 ∧
      ∃ adopter u2, findUser s adopterId = some adopter ∧
        findUser (serve (serve s t1 (.markAdopted caller id adopterId)).store t2
          (.markAdopted caller id adopterId)).store adopterId = some u2 ∧
        u2.animalsAdopted = adopter.animalsAdopted + 2) := by
  have b6 := (serve_markAdopted s t1 caller id adopterId u hu).2.2.2.2.2
  constructor
  · intro a adopter ha hp hs had hv
    have hv1 : validAnimal (a.confirm adopterId t1) = true := by
      have : validAnimal (a.confirm adopterId t1) = validAnimal a := by
        simp [validAnimal, Animal.confirm, hs]
      rw [this]; exact hv
    rw [b6 a adopter ha hp had hv1]
    refine ⟨rfl, ⟨a.confirm adopterId t1, ?_, rfl, rfl, rfl⟩, ⟨adopter.addAdopted 1, ?_, rfl⟩⟩
    · exact find_updateFirst_same Animal.id (fun x => x.confirm adopterId t1) id s.animals a
        (fun _ => rfl) ha
    · exact find_updateFirst_same User.id (fun x => x.addAdopted 1) adopterId s.users adopter
        (fun _ => rfl) had
  · intro h
    obtain ⟨a, adopter, ha, hp, had, hv⟩ := markAdopted_ok s t1 caller id adopterId u hu h
    have e := b6 a adopter ha hp had hv
    -- the store after the first call
    have ha1 : findAnimal (serve s t1 (.markAdopted caller id adopterId)).store id
        = some (a.confirm adopterId t1) := by
      rw [e]
      exact find_updateFirst_same Animal.id (fun x => x.confirm adopterId t1) id s.animals a
        (fun _ => rfl) ha
    have had1 : findUser (serve s t1 (.markAdopted caller id adopterId)).store adopterId
        = some (adopter.addAdopted 1) := by
      rw [e]
      exact find_updateFirst_same User.id (fun x => x.addAdopted 1) adopterId s.users adopter
        (fun _ => rfl) had
    have hu1 : ∃ u1, findUser (serve s t1 (.markAdopted caller id adopterId)).store caller
        = some u1 := by
      rw [e]
      show ∃ u1, (updateFirst (fun x => x.id == adopterId) (fun x => x.addAdopted 1)
        s.users).find? (fun x => x.id == caller) = some u1
      rw [find_updateFirst User.id (fun x => x.addAdopted 1) adopterId caller s.users
        (fun _ => rfl)]
      have hu' : s.users.find? (fun x => x.id == caller) = some u := hu
      by_cases hc : caller = adopterId
      · rw [if_pos hc, hu']; exact ⟨_, rfl⟩
      · rw [if_neg hc, hu']; exact ⟨_, rfl⟩
    obtain ⟨u1, hu1⟩ := hu1
    generalize (serve s t1 (.markAdopted caller id adopterId)).store = s1 at ha1 had1 hu1 ⊢
    have c6 := (serve_markAdopted s1 t2 caller id adopterId u1 hu1).2.2.2.2.2
    have hv2 : validAnimal ((a.confirm adopterId t1).confirm adopterId t2) = true := hv
    rw [c6 (a.confirm adopterId t1) (adopter.addAdopted 1) ha1 hp had1 hv2]
    refine ⟨rfl, adopter, (adopter.addAdopted 1).addAdopted 1, had, ?_, ?_⟩
    · exact find_updateFirst_same User.id (fun x => x.addAdopted 1) adopterId s1.users
        (adopter.addAdopted 1) (fun _ => rfl) had1
    · show adopter.animalsAdopted + 1 + 1 = adopter.animalsAdopted + 2
      omega

/-- Witness for C27: P marks the dog adopted by U twice in a row; the counter
of U goes from 0 to 2. -/
theorem C27_markAdopted_repeats_witness :
    (serve (serve listed 3 (.markAdopted 0 1 2)).store 4 (.markAdopted 0 1 2)).response.code
      = 200 ∧
    ∃ adopter u2, findUser listed 2 = some adopter ∧
      findUser (serve (serve listed 3 (.markAdopted 0 1 2)).store 4
        (.markAdopted 0 1 2)).store 2 = some u2 ∧
      u2.animalsAdopted = adopter.animalsAdopted + 2 :=
  (C27_markAdopted_repeats listed 3 4 0 1 2 ⟨0, "P", "p@x", true, 1, 0⟩ (by decide)).2
    (by decide)

/-! ## C28 -/

theorem countP_disjoint_le {α : Type} (p q : α → Bool) (l : List α)
    (h : ∀ x, p x = true → q x = true → False) : l.countP p + l.countP q ≤ l.length := by
  induction l with
  | nil => simp
  | cons x xs ih =>
    rw [List.countP_cons, List.countP_cons, List.length_cons]
    by_cases hp : p x = true
    · have hq : ¬ q x = true := fun hq => h x hp hq
      rw [if_pos hp, if_neg hq]
      omega
    · by_cases hq : q x = true
      · rw [if_neg hp, if_pos hq]; omega
      · rw [if_neg hp, if_neg hq]; omega

theorem countP_le_of_imp {α : Type} (p q : α → Bool) (l : List α)
    (h : ∀ x, p x = true → q x = true) : l.countP p ≤ l.countP q := by
  induction l with
  | nil => simp
  | cons x xs ih =>
    rw [List.countP_cons, List.countP_cons]
    by_cases hp : p x = true
    · rw [if_pos hp, if_pos (h x hp)]; omega
    · by_cases hq : q x = true
      · rw [if_neg hp, if_pos hq]; omega
      · rw [if_neg hp, if_neg hq]; omega

/-- C28: for every store the counts of overview are consistent:
totalAdoptions plus availableAnimals is at most totalAnimals, and
urgentAnimals is at most availableAnimals; hence the adoption rate, taken as
the exact quotient totalAdoptions / totalAnimals times 100 (0 for an empty
collection), lies between 0 and 100 inclusive. -/
theorem C28_overview_consistent (s : Store) :
    (overview s).totalAdoptions + (overview s).availableAnimals ≤ (overview s).totalAnimals ∧
    (overview s).urgentAnimals ≤ (overview s).availableAnimals ∧
    0 ≤ adoptionRateExact (overview s) ∧ adoptionRateExact (overview s) ≤ 100 := by
  have h1 : (overview s).totalAdoptions + (overview s).availableAnimals
      ≤ (overview s).totalAnimals := by
    refine countP_disjoint_le _ _ s.animals ?_
    intro a ha hb
    have e1 : a.status = "adopted" := by simpa using ha
    have e2 : a.status = "available" := by simpa using hb
    rw [e1] at e2
    exact absurd e2 (by decide)
  have h2 : (overview s).urgentAnimals ≤ (overview s).availableAnimals := by
    refine countP_le_of_imp _ _ s.animals ?_
    intro a ha
    simp only [Bool.and_eq_true] at ha
    exact ha.2
  refine ⟨h1, h2, ?_, ?_⟩
  · unfold adoptionRateExact
    split
    · positivity
    · exact le_refl 0
  · unfold adoptionRateExact
    split
    · rename_i hpos
      have hle : (overview s).totalAdoptions ≤ (overview s).totalAnimals :=
        Nat.le_trans (Nat.le_add_right _ _) h1
      have hq : ((overview s).totalAdoptions : ℚ) ≤ ((overview s).totalAnimals : ℚ) := by
        exact_mod_cast hle
      have hpos' : (0 : ℚ) < ((overview s).totalAnimals : ℚ) := by exact_mod_cast hpos
      have hdiv : ((overview s).totalAdoptions : ℚ) / ((overview s).totalAnimals : ℚ) ≤ 1 :=
        (div_le_one hpos').mpr hq
      linarith
    · norm_num
/-! ## C20: the adoption rate -/

theorem roundHalfEven_abs (x : ℚ) : |(roundHalfEven x : ℚ) - x| ≤ 1 / 2 := by
  have h1 := Int.floor_le x
  have h2 := Int.lt_floor_add_one x
  unfold roundHalfEven
  split_ifs with a b c
  · rw [abs_le]; constructor <;> linarith
  · rw [abs_le]; push_cast; constructor <;> linarith
  · rw [abs_le]; constructor <;> linarith
  · rw [abs_le]; push_cast; constructor <;> linarith

theorem roundHalfEven_nonneg (x : ℚ) (hx : 0 ≤ x) : 0 ≤ roundHalfEven x := by
  have h0 : 0 ≤ ⌊x⌋ := Int.floor_nonneg.mpr hx
  unfold roundHalfEven
  split_ifs <;> omega

theorem roundHalfEven_of_lt (x : ℚ) (f : ℤ) (h1 : (f : ℚ) ≤ x) (h2 : x - f < 1 / 2) :
    roundHalfEven x = f := by
  have hf : ⌊x⌋ = f := by
    rw [Int.floor_eq_iff]
    constructor
    · exact h1
    · linarith
  unfold roundHalfEven
  rw [hf, if_pos h2]

theorem log_two_eq (x : ℚ) (k : ℤ) (hx : 0 < x) (h1 : (2 : ℚ) ^ k ≤ x)
    (h2 : x < (2 : ℚ) ^ (k + 1)) : Int.log 2 x = k := by
  have a1 : k ≤ Int.log 2 x := by
    rw [← Int.zpow_le_iff_le_log (by norm_num) hx]
    exact_mod_cast h1
  have a2 : Int.log 2 x < k + 1 := by
    rw [← Int.lt_zpow_iff_log_lt (by norm_num) hx]
    exact_mod_cast h2
  omega

theorem toDouble_eval (x : ℚ) (k f : ℤ) (hx : 0 < x) (h1 : (2 : ℚ) ^ k ≤ x)
    (h2 : x < (2 : ℚ) ^ (k + 1)) (h3 : (f : ℚ) ≤ x / 2 ^ (k - 52))
    (h4 : x / 2 ^ (k - 52) - f < 1 / 2) : toDouble x = f * 2 ^ (k - 52) := by
  unfold toDouble
  rw [if_pos hx, log_two_eq x k hx h1 h2, roundHalfEven_of_lt _ f h3 h4]

theorem toDouble_error (x : ℚ) (hx : 0 < x) : |toDouble x - x| ≤ x / 2 ^ 53 := by
  unfold toDouble
  rw [if_pos hx]
  have hpow : (0 : ℚ) < 2 ^ (Int.log 2 x - 52) := zpow_pos (by norm_num) _
  have hlog : (2 : ℚ) ^ Int.log 2 x ≤ x := by
    have := Int.zpow_log_le_self (b := 2) (r := x) (by norm_num) hx
    exact_mod_cast this
  have hsplit : (2 : ℚ) ^ (Int.log 2 x - 52) = 2 ^ Int.log 2 x / 2 ^ 52 := by
    rw [zpow_sub₀ (by norm_num)]
    norm_cast
  have hr := roundHalfEven_abs (x / 2 ^ (Int.log 2 x - 52))
  have hx2 : x = x / 2 ^ (Int.log 2 x - 52) * 2 ^ (Int.log 2 x - 52) := by
    field_simp
  have e : (roundHalfEven (x / 2 ^ (Int.log 2 x - 52)) : ℚ) * 2 ^ (Int.log 2 x - 52) - x
      = ((roundHalfEven (x / 2 ^ (Int.log 2 x - 52)) : ℚ) - x / 2 ^ (Int.log 2 x - 52))
        * 2 ^ (Int.log 2 x - 52) := by
    rw [sub_mul, ← hx2]
  rw [e, abs_mul, abs_of_pos hpow]
  calc |(roundHalfEven (x / 2 ^ (Int.log 2 x - 52)) : ℚ) - x / 2 ^ (Int.log 2 x - 52)|
        * 2 ^ (Int.log 2 x - 52)
      ≤ 1 / 2 * 2 ^ (Int.log 2 x - 52) := mul_le_mul_of_nonneg_right hr hpow.le
    _ = 2 ^ Int.log 2 x / 2 ^ 53 := by rw [hsplit]; ring
    _ ≤ x / 2 ^ 53 := div_le_div_of_nonneg_right hlog (by positivity)

theorem toDouble_zero : toDouble 0 = 0 := by
  unfold toDouble
  simp

theorem toDouble_nonneg (x : ℚ) (hx : 0 ≤ x) : 0 ≤ toDouble x := by
  rcases hx.lt_or_eq with h | h
  · unfold toDouble
    rw [if_pos h]
    have hpow : (0 : ℚ) < 2 ^ (Int.log 2 x - 52) := zpow_pos (by norm_num) _
    have hr : 0 ≤ roundHalfEven (x / 2 ^ (Int.log 2 x - 52)) :=
      roundHalfEven_nonneg _ (div_nonneg h.le hpow.le)
    exact mul_nonneg (by exact_mod_cast hr) hpow.le
  · rw [← h, toDouble_zero]

theorem toDouble_error_nonneg (x : ℚ) (hx : 0 ≤ x) : |toDouble x - x| ≤ x / 2 ^ 53 := by
  rcases hx.lt_or_eq with h | h
  · exact toDouble_error x h
  · rw [← h, toDouble_zero]; simp

theorem toFixed1_error (x : ℚ) (hx : 0 ≤ x) : |(toFixed1 x : ℚ) - x * 10| ≤ 1 / 2 := by
  have h0 : (0 : ℚ) ≤ x * 10 + 1 / 2 := by linarith
  have h1 := Nat.floor_le h0
  have h2 := Nat.lt_floor_add_one (x * 10 + 1 / 2)
  unfold toFixed1
  rw [abs_le]
  constructor <;> linarith

/-- The formatted double product is within one twentieth, and a rounding error
below 10^-13, of the exact percentage. -/
theorem rate_error (a b : ℕ) (hb : 0 < b) (hab : a ≤ b) :
    |(toFixed1 (toDouble (toDouble ((a : ℚ) / (b : ℚ)) * 100)) : ℚ) / 10
      - (a : ℚ) / (b : ℚ) * 100| ≤ 1 / 20 + 1 / 10 ^ 13 := by
  have hbq : (0 : ℚ) < b := by exact_mod_cast hb
  have hq0 : (0 : ℚ) ≤ (a : ℚ) / b := div_nonneg (by exact_mod_cast Nat.zero_le a) hbq.le
  have hq1 : (a : ℚ) / b ≤ 1 := by
    rw [div_le_one hbq]; exact_mod_cast hab
  have e1 := toDouble_error_nonneg _ hq0
  have n1 := toDouble_nonneg _ hq0
  have hx1 : (0 : ℚ) ≤ toDouble ((a : ℚ) / b) * 100 := by linarith
  have e2 := toDouble_error_nonneg _ hx1
  have n2 := toDouble_nonneg _ hx1
  have e3 := toFixed1_error _ n2
  rw [abs_le] at e1 e2 e3 ⊢
  have hd : ((a : ℚ) / b) / 2 ^ 53 ≤ 1 / 2 ^ 53 :=
    div_le_div_of_nonneg_right hq1 (by positivity)
  have hx1le : toDouble ((a : ℚ) / b) ≤ 2 := by
    have : (1 : ℚ) / 2 ^ 53 ≤ 1 := by norm_num
    linarith [e1.2]
  have hd2 : toDouble ((a : ℚ) / b) * 100 / 2 ^ 53 ≤ 200 / 2 ^ 53 :=
    div_le_div_of_nonneg_right (by linarith) (by positivity)
  have hsmall : (300 : ℚ) / 2 ^ 53 ≤ 1 / 10 ^ 13 := by norm_num
  constructor <;> linarith [e1.1, e1.2, e2.1, e2.2, e3.1, e3.2]

theorem overview_shelter : overview shelter = ⟨80, 23, 0, 57, 0⟩ := by
  decide

theorem toDouble_quotient : toDouble ((23 : ℚ) / 80) = 5179139571476070 * 2 ^ (-2 - 52 : ℤ) :=
  toDouble_eval _ (-2) 5179139571476070 (by norm_num) (by norm_num) (by norm_num)
    (by norm_num) (by norm_num)

theorem toDouble_product :
    toDouble (toDouble ((23 : ℚ) / 80) * 100) = 8092405580431359 * 2 ^ (4 - 52 : ℤ) := by
  rw [toDouble_quotient]
  exact toDouble_eval _ 4 8092405580431359 (by norm_num) (by norm_num) (by norm_num)
    (by norm_num) (by norm_num)

/-- C20, as stated, fails: with 23 adopted Animals out of 80 the exact
percentage is 28.75, which rounds to 28.8 (as 288 tenths, whether a tie goes up
or to the even digit), but the double quotient times 100 is
28.749999999999996 and `toFixed(1)` returns the string 28.7. -/
theorem C20_counterexample :
    (overview shelter).totalAnimals = 80 ∧ (overview shelter).totalAdoptions = 23 ∧
    adoptionRateExact (overview shelter) = 115 / 4 ∧
    roundedRate (overview shelter) = 288 ∧
    roundHalfEven (adoptionRateExact (overview shelter) * 10) = 288 ∧
    adoptionRate (overview shelter) = .fixed 287 ∧
    (adoptionRate (overview shelter)).text = "28.7" := by
  have hexact : adoptionRateExact (overview shelter) = 115 / 4 := by
    rw [overview_shelter]
    unfold adoptionRateExact
    norm_num
  have hrate : adoptionRate (overview shelter) = .fixed 287 := by
    rw [overview_shelter]
    unfold adoptionRate
    rw [if_pos (by decide)]
    congr 1
    have hq : ((23 : ℕ) : ℚ) / ((80 : ℕ) : ℚ) = (23 : ℚ) / 80 := by norm_num
    rw [hq, toDouble_product]
    unfold toFixed1
    rw [Nat.floor_eq_iff (by norm_num)]
    constructor <;> norm_num
  refine ⟨by rw [overview_shelter], by rw [overview_shelter], hexact, ?_, ?_, hrate, ?_⟩
  · unfold roundedRate
    rw [hexact, Nat.floor_eq_iff (by norm_num)]
    constructor <;> norm_num
  · rw [hexact]
    unfold roundHalfEven
    have hf : ⌊(115 : ℚ) / 4 * 10⌋ = 287 := by
      rw [Int.floor_eq_iff]; constructor <;> norm_num
    rw [hf]
    norm_num
  · rw [hrate]
    decide

/-- C20, amended: totalAdoptions is the number of Animals with status adopted;
adoptionRate is the number 0 when totalAnimals is 0 (no division is
performed); otherwise it is the string `toFixed(1)` gives for the double
product (totalAdoptions / totalAnimals) * 100, a decimal between 0 and 100
that lies within 0.05 + 10^-13 of the exact percentage: it is the exact
percentage rounded to one decimal place, except that an exact percentage at
(or within 10^-13 of) the midpoint between two tenths may go to either of
them. -/
theorem C20_adoption_rate (s : Store) :
    (overview s).totalAdoptions = s.animals.countP (fun a => a.status == "adopted") ∧
    (overview s).totalAnimals = s.animals.length ∧
    ((overview s).totalAnimals = 0 → adoptionRate (overview s) = .zero) ∧
    (0 < (overview s).totalAnimals →
      ∃ n, adoptionRate (overview s) = .fixed n ∧ n ≤ 1000 ∧
        |(n : ℚ) / 10 - adoptionRateExact (overview s)| ≤ 1 / 20 + 1 / 10 ^ 13) := by
  refine ⟨rfl, rfl, ?_, ?_⟩
  · intro h
    unfold adoptionRate
    rw [if_neg (by omega)]
  · intro h
    have hab : (overview s).totalAdoptions ≤ (overview s).totalAnimals :=
      List.countP_le_length _
    have herr := rate_error _ _ h hab
    refine ⟨_, by unfold adoptionRate; rw [if_pos h], ?_, ?_⟩
    · have hq1 : ((overview s).totalAdoptions : ℚ) / ((overview s).totalAnimals : ℚ) ≤ 1 := by
        rw [div_le_one (by exact_mod_cast h)]; exact_mod_cast hab
      rw [abs_le] at herr
      have hn : (toFixed1 (toDouble (toDouble (((overview s).totalAdoptions : ℚ) /
          ((overview s).totalAnimals : ℚ)) * 100)) : ℚ) < 1001 := by
        have : (1 : ℚ) / 10 ^ 13 ≤ 1 / 20 := by norm_num
        linarith [herr.2]
      have hn2 : toFixed1 (toDouble (toDouble (((overview s).totalAdoptions : ℚ) /
          ((overview s).totalAnimals : ℚ)) * 100)) < 1001 := by exact_mod_cast hn
      omega
    · unfold adoptionRateExact
      rw [if_pos h]
      exact herr

/-- Witness for C20: in the store of 80 Animals the rate is a string within
0.05 + 10^-13 of the exact percentage. -/
theorem C20_adoption_rate_witness :
    ∃ n, adoptionRate (overview shelter) = .fixed n ∧ n ≤ 1000 ∧
      |(n : ℚ) / 10 - adoptionRateExact (overview shelter)| ≤ 1 / 20 + 1 / 10 ^ 13 :=
  (C20_adoption_rate shelter).2.2.2 (by decide)

end Stray2Stay
